import Mathlib

/-!
# TimeTracker: a shallow embedding of `TimeTracker.h`

The class `TimeTracker` is embedded as a record of its data members and its
member functions as pure functions on that record.

Modelling conventions
* `std::chrono::steady_clock::time_point` is the tick count `time_since_epoch().count()`,
  an `Int` (nanoseconds); the clock reading of every `steady_clock::now()` call is an
  explicit argument of the operation that makes the call. Differences of time points are
  exact: signed overflow of the tick count, undefined in the source, is not modelled.
* a finite `double` is the rational number it denotes (`ℚ`), and every operation that
  produces a double (conversion from an integer, `+`, `*`, `/`) is the exact operation
  followed by `roundDouble`, the rounding to the nearest binary64 value, ties to even
  (IEEE 754 arithmetic evaluated in double precision). Comparisons of doubles are exact.
  Outside the model are the results that are not finite numbers, and the sign of zero:
  an operation that overflows yields the rounded value beyond
  `std::numeric_limits<double>::max()` instead of an infinity, the quotient by a zero
  divisor is `0` instead of an infinity or a NaN, and a negative result that underflows
  to zero is `0` instead of `-0.0`. The divisor of line 214 is shown to be at least 1
  wherever a report is rendered (C20); the statements about rendered values are
  statements about finite results.
  `std::numeric_limits<double>::max()` and `::min()` are the exact rationals they denote.
* `uint64_t` counters are `Nat` with explicit reduction modulo `2^64` at every update;
  statements that depend on the absence of wrap-around carry the hypothesis that fewer
  than `2^64` samples were recorded. The `uint32_t` members are `Nat`; they are only
  compared, divided and converted, never incremented.
* a `std::stringstream` is the record `StringStream` of its content and of the formatting
  state that `getReport` reads: pending field width, fill character, adjustment,
  `showpos` and `showpoint`. The stream is open for output and has the classic locale
  (no digit grouping, `.` as decimal point); its error state, which line 206 clears, is
  not modelled. A C++ string is a `String` and its `size()` the size in bytes.
* console output (`std::cout`, `std::cerr`) is not part of the state; where the source
  branches on it, the branch taken is returned as a flag.
-/

/-- The enumeration `TIME_TRACK_MODE`; `m_mode` holds its numeric value. -/
def MODE_PERFORMANCE : Nat := 0

/-- The enumerator `MODE_LOOP = 1`. -/
def MODE_LOOP : Nat := 1

/-- The value of `std::numeric_limits<double>::max()`: `(2^53 - 1) * 2^971`. -/
def DBL_MAX : ℚ := (2 ^ 53 - 1) * 2 ^ 971

/-- The value of `std::numeric_limits<double>::min()`: the smallest positive normal
double `2^-1022` (not the most negative one). -/
def DBL_MIN : ℚ := 1 / 2 ^ 1022

/-- The constant `ONE_SEC_IN_MILLISECOND = 1000.0`. -/
def ONE_SEC_IN_MILLISECOND : ℚ := 1000

/-- The constant `REPORT_WIDTH = 5`. -/
def REPORT_WIDTH : Nat := 5

/-- Wrap-around of `uint64_t` arithmetic. -/
def wrap64 (n : Nat) : Nat := n % 2 ^ 64

/-- Rounding of a non-negative rational to the nearest natural number, ties to even. -/
def roundHalfEven (q : ℚ) : Nat :=
  let f := q.floor.toNat
  let r := q - (f : ℚ)
  if r < 1 / 2 then f else if 1 / 2 < r then f + 1 else if f % 2 = 0 then f else f + 1

/-- Rounding of a rational number to the nearest value of the IEEE 754 binary64 format,
ties to even. With `e` the binary exponent of `|q|`, at least `-1022` (below that the
subnormal values share the spacing `2^-1074`), the significand `|q| * 2^(52 - e)` is
rounded to a whole number. A result beyond the largest finite double is not turned into
an infinity. -/
def roundDouble (q : ℚ) : ℚ :=
  (if q < 0 then -1 else 1)
    * ((roundHalfEven (|q| * 2 ^ (52 - max (Int.log 2 |q|) (-1022))) : Nat) : ℚ)
    / 2 ^ (52 - max (Int.log 2 |q|) (-1022))

/-- The conversion `std::chrono::duration<double, std::milli>(d).count()` of a tick
difference `d` (nanoseconds, `int64_t`) to milliseconds: `duration_cast` converts the
count to `double` and divides by `1000000.0`; both steps round. -/
def toMilliseconds (d : Int) : ℚ := roundDouble (roundDouble (d : ℚ) / 1000000)

/-- The `adjustfield` setting of a stream; a stream on which none of the three flags is
set pads like `right`. -/
inductive Adjust where
  | left
  | right
  | internal
deriving DecidableEq

/-- A `std::stringstream`: its content `str()` and the formatting state that the
insertions of `getReport` depend on. The flags `basefield` and `floatfield` and the
precision are set by the manipulators of lines 208 and 215 before any insertion that
depends on them, and are not part of the record. -/
structure StringStream where
  str : String
  width : Nat
  fill : Char
  adjustfield : Adjust
  showpos : Bool
  showpoint : Bool
deriving DecidableEq

/-- A default-constructed `std::stringstream`. -/
def StringStream.empty : StringStream :=
  { str := "", width := 0, fill := ' ', adjustfield := Adjust.right, showpos := false,
    showpoint := false }

/-- The fill characters that pad an item of `size` characters to the pending field
width. -/
def StringStream.padding (out : StringStream) (size : Nat) : String :=
  String.mk (List.replicate (out.width - size) out.fill)

/-- A string as an insertion writes it: padded to the pending field width, after the text
under `left` and before it otherwise. -/
def StringStream.padded (out : StringStream) (text : String) : String :=
  if out.adjustfield = Adjust.left then text ++ out.padding text.utf8ByteSize
  else out.padding text.utf8ByteSize ++ text

/-- The insertion `out << text` of a string: the padded text is appended and the width
is reset. -/
def StringStream.insert (out : StringStream) (text : String) : StringStream :=
  { out with str := out.str ++ out.padded text, width := 0 }

/-- The insertion `out << n` of an unsigned integer under `std::dec`: its decimal digits,
padded like a string (there is no sign for `internal` to split off). -/
def StringStream.insertUnsigned (out : StringStream) (n : Nat) : StringStream :=
  out.insert (toString n)

/-- The manipulator `std::setw(w)`. -/
def StringStream.setw (out : StringStream) (w : Nat) : StringStream :=
  { out with width := w }

/-- The digits of a `double` under `std::fixed` and `std::setprecision(precision)`:
the magnitude rounded to `precision` decimals, as integer digits and, when the precision
is not zero, a point followed by exactly `precision` digits. -/
def fixedDigits (precision : Nat) (x : ℚ) : String :=
  let n := roundHalfEven (|x| * 10 ^ precision)
  let frac := toString (n % 10 ^ precision)
  toString (n / 10 ^ precision) ++
    (if precision = 0 then ""
     else "." ++ String.mk (List.replicate (precision - frac.length) '0') ++ frac)

/-- A `double` as an insertion under `std::fixed` and `std::setprecision(precision)`
writes it. The sign is `-` for a negative value and `+` for another one under `showpos`;
under `showpoint` the point is printed with precision 0 too. The text is padded to the
pending field width: after the text under `left`, between sign and digits under
`internal`, before the text otherwise. -/
def StringStream.fixedField (out : StringStream) (precision : Nat) (x : ℚ) : String :=
  let sign := if x < 0 then "-" else if out.showpos then "+" else ""
  let digits := fixedDigits precision x ++ (if precision = 0 ∧ out.showpoint then "." else "")
  let pad := out.padding (sign.utf8ByteSize + digits.utf8ByteSize)
  match out.adjustfield with
  | Adjust.left => sign ++ digits ++ pad
  | Adjust.internal => sign ++ pad ++ digits
  | Adjust.right => pad ++ sign ++ digits

/-- The insertion `out << x` of a `double` under `std::fixed` and
`std::setprecision(precision)`: the padded text is appended and the width is reset. -/
def StringStream.insertFixed (out : StringStream) (precision : Nat) (x : ℚ) : StringStream :=
  { out with str := out.str ++ out.fixedField precision x, width := 0 }

/-- The data members of `class TimeTracker` (lines 68-129). `m_elapseTimeEnd` is a
reference to `m_timeEnd` and has no field of its own. -/
structure TimeTracker where
  m_reportPrefix : String
  m_mode : Nat
  m_reportIntervalInSeconds : Nat
  m_executionCountIntervalInSeconds : Nat
  m_executionCountTotalAllTheTime : Nat
  m_executionCountTotalInOneSec : Nat
  m_executionCountTotalInNsec : Nat
  m_executionTimeTotalInMilliseconds : ℚ
  m_timeStart : Int
  m_timeEnd : Int
  m_elapseTimeStart : Int
  m_executionTime : ℚ
  m_elapseTime : ℚ
  m_timeMin : ℚ
  m_timeAvg : ℚ
  m_timeMax : ℚ
  m_vecExecutionOneSec : List Nat
  m_vecExecutionDepth : Nat
  m_report : StringStream
  m_timeUnitName : String
  m_scaleRatio : ℚ
  m_reportPrecision : Nat
deriving DecidableEq


/-- The initial value of `m_timeUnitScaleRatio` (line 126); the map is never modified. -/
def m_timeUnitScaleRatio : List (String × ℚ) := [("ms", 1), ("us", 1000), ("ns", 1000000)]

/-- The initial value of `m_timeUnitPrecision` (line 129); the map is never modified. -/
def m_timeUnitPrecision : List (String × Nat) := [("ms", 2), ("us", 2), ("ns", 0)]

/-- The constructor `TimeTracker::TimeTracker` (lines 151-197). The two interval
arguments are `uint32_t` values. -/
def TimeTracker.create (in_reportIntervalInSeconds in_executionCountIntervalInSeconds : Nat)
    ( in_prefix : String) (in_timeUnitName : String) : TimeTracker :=
  let scaleRatio : ℚ :=
    match m_timeUnitScaleRatio.lookup in_timeUnitName with
    | some r => r
    | none => 1
  let timeUnitName : String :=
    match m_timeUnitScaleRatio.lookup in_timeUnitName with
    | some _ => in_timeUnitName
    | none => "ms"
  let reportPrecision : Nat :=
    match m_timeUnitPrecision.lookup in_timeUnitName with
    | some p => p
    | none => 2
  let reportInterval : Nat :=
    if in_reportIntervalInSeconds = 0 then 1 else in_reportIntervalInSeconds
  let executionCountInterval : Nat :=
    if in_reportIntervalInSeconds = 0 then 1
    else if in_executionCountIntervalInSeconds = 0
        ∨ in_reportIntervalInSeconds < in_executionCountIntervalInSeconds
        ∨ in_reportIntervalInSeconds % in_executionCountIntervalInSeconds ≠ 0 then 1
    else in_executionCountIntervalInSeconds
  { m_reportPrefix := in_prefix
    m_mode := MODE_PERFORMANCE
    m_reportIntervalInSeconds := reportInterval
    m_executionCountIntervalInSeconds := executionCountInterval
    m_executionCountTotalAllTheTime := 0
    m_executionCountTotalInOneSec := 0
    m_executionCountTotalInNsec := 0
    m_executionTimeTotalInMilliseconds := 0
    m_timeStart := 0
    m_timeEnd := 0
    m_elapseTimeStart := 0
    m_executionTime := 0
    m_elapseTime := 0
    m_timeMin := DBL_MAX
    m_timeAvg := DBL_MIN
    m_timeMax := DBL_MIN
    m_vecExecutionOneSec := []
    m_vecExecutionDepth := reportInterval / executionCountInterval
    m_report := StringStream.empty
    m_timeUnitName := timeUnitName
    m_scaleRatio := scaleRatio
    m_reportPrecision := reportPrecision }

/-- The member function `TimeTracker::reset` (lines 222-230). -/
def TimeTracker.reset (s : TimeTracker) : TimeTracker :=
  { s with
    m_executionCountTotalAllTheTime :=
      wrap64 (s.m_executionCountTotalAllTheTime + s.m_executionCountTotalInNsec)
    m_executionCountTotalInNsec := 0
    m_executionTimeTotalInMilliseconds := 0
    m_timeMin := DBL_MAX
    m_timeMax := DBL_MIN
    m_timeAvg := DBL_MIN
    m_vecExecutionOneSec := [] }

/-- The value assigned to `m_timeAvg` at line 214: the duration total divided by the
count total converted to `double`. With a count total of 0 the source yields an infinity
or a NaN, which has no counterpart here. -/
def TimeTracker.average (s : TimeTracker) : ℚ :=
  roundDouble (s.m_executionTimeTotalInMilliseconds
    / roundDouble (s.m_executionCountTotalInNsec : ℚ))

/-- Lines 205-215 of `getReport`: the stream `out_str` after the report of `s` was
written to it. -/
def TimeTracker.reportOn (s : TimeTracker) (out_str : StringStream) : StringStream :=
  let out_str : StringStream := { out_str with str := "" }
  let out_str := out_str.insert s.m_reportPrefix
  let out_str := out_str.insert " Exec count "
  let out_str := s.m_vecExecutionOneSec.foldl
    (fun out itr => ((out.insert "[").insertUnsigned itr).insert "]") out_str
  let out_str := ((((out_str.insert "(").insertUnsigned s.m_executionCountTotalInNsec).insert
    ") Exec time(").insert s.m_timeUnitName).insert ")"
  let out_str := ((out_str.insert " (").setw REPORT_WIDTH).insertFixed s.m_reportPrecision
    (roundDouble (s.m_timeMin * s.m_scaleRatio))
  let out_str := (out_str.insert ",").insertFixed s.m_reportPrecision
    (roundDouble (s.average * s.m_scaleRatio))
  let out_str := (out_str.insert ",").insertFixed s.m_reportPrecision
    (roundDouble (s.m_timeMax * s.m_scaleRatio))
  out_str.insert ")"

/-- The member function `TimeTracker::getReport` (lines 199-220). The result is the
returned flag, the tracker afterwards and the stream `out_str` afterwards. -/
def TimeTracker.getReport (s : TimeTracker) (out_str : StringStream) :
    Bool × TimeTracker × StringStream :=
  if s.m_vecExecutionOneSec.isEmpty then
    (false, s, out_str)
  else
    (true, ({ s with m_timeAvg := s.average }).reset, s.reportOn out_str)

/-- The member function `TimeTracker::set` (lines 237-249); `now` is the reading of
`steady_clock::now()` at line 239. -/
def TimeTracker.set (s : TimeTracker) (now : Int) : TimeTracker :=
  if s.m_mode = MODE_PERFORMANCE then
    let s := { s with m_timeStart := now }
    if s.m_elapseTimeStart = 0 then { s with m_elapseTimeStart := s.m_timeStart } else s
  else
    s

/-- Lines 270-289 of `get`: the sample is measured and folded into the statistics. -/
def TimeTracker.record (s : TimeTracker) : TimeTracker :=
  let s := { s with
    m_executionTime := toMilliseconds (s.m_timeEnd - s.m_timeStart)
    m_elapseTime := toMilliseconds (s.m_timeEnd - s.m_elapseTimeStart) }
  let s := if s.m_mode = MODE_LOOP then { s with m_timeStart := s.m_timeEnd } else s
  let s := if s.m_executionTime < s.m_timeMin then { s with m_timeMin := s.m_executionTime } else s
  let s := if s.m_executionTime > s.m_timeMax then { s with m_timeMax := s.m_executionTime } else s
  let s := { s with m_executionCountTotalInOneSec := wrap64 (s.m_executionCountTotalInOneSec + 1) }
  { s with
    m_executionTimeTotalInMilliseconds :=
      roundDouble (s.m_executionTimeTotalInMilliseconds + s.m_executionTime) }

/-- Lines 293-295 of `get`, and the identical lines 317-319 of `stop`: the counter of
the current sub-interval is appended to the vector, added to the period total and
zeroed. -/
def TimeTracker.pushCount (s : TimeTracker) : TimeTracker :=
  { s with
    m_vecExecutionOneSec := s.m_vecExecutionOneSec ++ [s.m_executionCountTotalInOneSec]
    m_executionCountTotalInNsec :=
      wrap64 (s.m_executionCountTotalInNsec + s.m_executionCountTotalInOneSec)
    m_executionCountTotalInOneSec := 0 }

/-- The member function `TimeTracker::get` (lines 258-312); `now` is the reading of
`steady_clock::now()` at line 260 and `out_ss` the caller's stream (`none` for
`nullptr`). The result is the returned flag, the tracker afterwards and the caller's
stream afterwards. The threshold of line 292 is exact: a `uint32_t` converts to `double`
without rounding and its product by `1000.0` is below `2^53`. -/
def TimeTracker.get (s : TimeTracker) (now : Int) (out_ss : Option StringStream) :
    Bool × TimeTracker × Option StringStream :=
  let s : TimeTracker := { s with m_timeEnd := now }
  if s.m_timeStart = 0 then
    (false, { s with m_mode := MODE_LOOP, m_timeStart := s.m_timeEnd,
                     m_elapseTimeStart := s.m_timeEnd }, out_ss)
  else
    let s : TimeTracker := s.record
    if s.m_elapseTime ≥ (s.m_executionCountIntervalInSeconds : ℚ) * ONE_SEC_IN_MILLISECOND then
      let s : TimeTracker := s.pushCount
      if s.m_vecExecutionOneSec.length ≥ s.m_vecExecutionDepth then
        match out_ss with
        | none =>
          let r := s.getReport s.m_report
          (true, { r.2.1 with m_report := r.2.2, m_elapseTimeStart := r.2.1.m_timeEnd }, none)
        | some target =>
          let r := s.getReport target
          (true, { r.2.1 with m_elapseTimeStart := r.2.1.m_timeEnd }, some r.2.2)
      else
        (false, { s with m_elapseTimeStart := s.m_timeEnd }, out_ss)
    else
      (false, s, out_ss)

/-- Lines 316-320 of `stop`: left-over counts are pushed into the vector. -/
def TimeTracker.flush (s : TimeTracker) : TimeTracker :=
  if s.m_executionCountTotalInOneSec ≠ 0 then s.pushCount else s

/-- The member function `TimeTracker::stop` (lines 314-325). The flag tells whether
`getReport` returned true at line 321, that is whether the report was printed. -/
def TimeTracker.stop (s : TimeTracker) : Bool × TimeTracker :=
  let s : TimeTracker := s.flush
  let r := s.getReport s.m_report
  (r.1, { r.2.1 with m_report := r.2.2 })

/-- One call of a public member function, with the clock reading it obtains. -/
inductive Call where
  | set (now : Int)
  | get (now : Int) (out_ss : Option StringStream)
  | stop
deriving DecidableEq

/-- The tracker after one call. -/
def TimeTracker.step (s : TimeTracker) : Call → TimeTracker
  | .set now => s.set now
  | .get now out_ss => (s.get now out_ss).2.1
  | .stop => s.stop.2

/-- The tracker after a sequence of calls. -/
def TimeTracker.run (s : TimeTracker) (calls : List Call) : TimeTracker :=
  calls.foldl TimeTracker.step s


/-- The tracker at line 296 of `get` when the call records a sample and rolls the
sub-interval over: the state on which `getReport` is invoked when `get` returns true. -/
def TimeTracker.rendered (s : TimeTracker) (now : Int) : TimeTracker :=
  ({ s with m_timeEnd := now } : TimeTracker).record.pushCount

/-- The test of line 292 for a `get` call at reading `now`: the time elapsed since the
start of the execution count interval has reached the interval length. -/
def TimeTracker.rollsOver (s : TimeTracker) (now : Int) : Prop :=
  toMilliseconds (now - s.m_elapseTimeStart)
    ≥ (s.m_executionCountIntervalInSeconds : ℚ) * ONE_SEC_IN_MILLISECOND

instance (s : TimeTracker) (now : Int) : Decidable (s.rollsOver now) :=
  inferInstanceAs (Decidable (_ ≥ _))

/-- The stream into which a `get` call renders its report (lines 298-305): the caller's
stream when one was passed, `m_report` otherwise. -/
def TimeTracker.sink (s : TimeTracker) (out_ss : Option StringStream) : StringStream :=
  match out_ss with
  | some target => target
  | none => s.m_report

/-- The report text handed out by a `get` call: the content of the caller's stream
when one was passed, the content of `m_report` otherwise. -/
def deliveredReport (r : Bool × TimeTracker × Option StringStream) : String :=
  match r.2.2 with
  | some target => target.str
  | none => r.2.1.m_report.str

/-- Whether a call records a sample: it is a `get` that passes the test of line 261. -/
def TimeTracker.recordsSample (s : TimeTracker) : Call → Bool
  | .get _ _ => decide (s.m_timeStart ≠ 0)
  | _ => false

/-- Number of calls of a sequence that record a sample, starting from `s`. -/
def TimeTracker.samples (s : TimeTracker) : List Call → Nat
  | [] => 0
  | c :: cs => (if s.recordsSample c then 1 else 0) + (s.step c).samples cs

/-- Clock reading of the last `set` call of a sequence, if there is one. -/
def lastSet (cs : List Call) : Option Int :=
  cs.foldl (fun acc c => match c with
    | .set now => some now
    | _ => acc) none

/-- Clock reading of the last `get` call of a sequence, if there is one. -/
def lastGet (cs : List Call) : Option Int :=
  cs.foldl (fun acc c => match c with
    | .get now _ => some now
    | _ => acc) none

/-- Whether a call is a `get`. -/
def Call.isGet : Call → Bool
  | .get _ _ => true
  | _ => false

/-- Durations of the samples of the current report period after one more call: a `get`
that returns true or a `stop` that prints a report starts a new period, a `get` that
records a sample without rendering adds the duration it measured. -/
def TimeTracker.durationsStep (s : TimeTracker) (acc : List ℚ) : Call → List ℚ
  | .set _ => acc
  | .get now out_ss =>
    if (s.get now out_ss).1 then []
    else if s.m_timeStart = 0 then acc
    else acc ++ [toMilliseconds (now - s.m_timeStart)]
  | .stop => if s.stop.1 then [] else acc

/-- Durations, in milliseconds, of the samples recorded since the last rendered report
by a sequence of calls starting from `s`; `acc` holds the ones recorded before. -/
def TimeTracker.periodDurations (s : TimeTracker) (acc : List ℚ) : List Call → List ℚ
  | [] => acc
  | c :: cs => (s.step c).periodDurations (s.durationsStep acc c) cs

/-- The sum of a list of doubles as line 289 accumulates it: from `0`, in order, each
addition rounded to the nearest double. -/
def doubleSum (durations : List ℚ) : ℚ :=
  durations.foldl (fun total d => roundDouble (total + d)) 0

/-- The clock readings obtained by a sequence of calls, in order; `stop` reads no
clock. -/
def readings : List Call → List Int
  | [] => []
  | .set now :: cs => now :: readings cs
  | .get now _ :: cs => now :: readings cs
  | .stop :: cs => readings cs

/-- Clock reading of the last `get` call that returned true, after one more call. -/
def TimeTracker.reportStep (s : TimeTracker) (acc : Option Int) : Call → Option Int
  | .get now out_ss => if (s.get now out_ss).1 then some now else acc
  | _ => acc

/-- Clock reading of the last `get` call that returned true in a sequence of calls
starting from `s`; `acc` is the one before the sequence, if any. -/
def TimeTracker.lastReport (s : TimeTracker) (acc : Option Int) : List Call → Option Int
  | [] => acc
  | c :: cs => (s.step c).lastReport (s.reportStep acc c) cs

/-- Counting invariant of a tracker on which `n` samples were recorded: the three
counters add up to `n`, the period total is the sum of the stored counts and every
stored count is positive. -/
structure TimeTracker.Inv (s : TimeTracker) (n : Nat) : Prop where
  count : s.m_executionCountTotalAllTheTime + s.m_executionCountTotalInNsec
    + s.m_executionCountTotalInOneSec = n
  total : s.m_executionCountTotalInNsec = s.m_vecExecutionOneSec.sum
  entries : ∀ c ∈ s.m_vecExecutionOneSec, 1 ≤ c

/-- The members of a tracker on which no call was made yet that do not depend on the
constructor's arguments. -/
structure TimeTracker.Fresh (s : TimeTracker) : Prop where
  mode : s.m_mode = MODE_PERFORMANCE
  timeStart : s.m_timeStart = 0
  elapseTimeStart : s.m_elapseTimeStart = 0
  allTheTime : s.m_executionCountTotalAllTheTime = 0
  inOneSec : s.m_executionCountTotalInOneSec = 0
  inNsec : s.m_executionCountTotalInNsec = 0
  timeTotal : s.m_executionTimeTotalInMilliseconds = 0
  timeMin : s.m_timeMin = DBL_MAX
  timeMax : s.m_timeMax = DBL_MIN
  vec : s.m_vecExecutionOneSec = []
  report : s.m_report = StringStream.empty

/-! ## Rounding to the nearest double -/

/-- The floor of a non-negative rational as a natural number. -/
theorem floor_toNat_le (x : ℚ) (h0 : 0 ≤ x) :
    ((x.floor.toNat : Nat) : ℚ) ≤ x ∧ x < ((x.floor.toNat : Nat) : ℚ) + 1 := by
  have hf : (0 : Int) ≤ ⌊x⌋ := Int.floor_nonneg.mpr h0
  have hc : ((x.floor.toNat : Nat) : ℚ) = ((⌊x⌋ : Int) : ℚ) := by
    show (((⌊x⌋).toNat : Nat) : ℚ) = _
    have : (((⌊x⌋).toNat : Nat) : Int) = ⌊x⌋ := Int.toNat_of_nonneg hf
    exact_mod_cast this
  rw [hc]
  exact ⟨Int.floor_le x, Int.lt_floor_add_one x⟩

/-- Rounding to the nearest natural number moves a non-negative value by at most one
half. -/
theorem roundHalfEven_near (x : ℚ) (h0 : 0 ≤ x) :
    (roundHalfEven x : ℚ) - 1 / 2 ≤ x ∧ x ≤ (roundHalfEven x : ℚ) + 1 / 2 := by
  obtain ⟨h1, h2⟩ := floor_toNat_le x h0
  simp only [roundHalfEven]
  split_ifs with a b c
  · constructor <;> linarith
  · push_cast; constructor <;> linarith
  · have : x - (x.floor.toNat : ℚ) = 1 / 2 := le_antisymm (not_lt.mp b) (not_lt.mp a)
    constructor <;> linarith
  · have : x - (x.floor.toNat : ℚ) = 1 / 2 := le_antisymm (not_lt.mp b) (not_lt.mp a)
    push_cast; constructor <;> linarith

/-- A negative value rounds to zero. -/
theorem roundHalfEven_of_nonpos (x : ℚ) (h : x ≤ 0) : roundHalfEven x = 0 := by
  have hfl : x.floor.toNat = 0 := by
    show (⌊x⌋).toNat = 0
    exact Int.toNat_eq_zero.mpr (Int.floor_nonpos h)
  have h1 : x < 1 / 2 := by linarith
  simp only [roundHalfEven, hfl, Nat.cast_zero, sub_zero, if_pos h1]

/-- A value strictly within one half of a natural number rounds to it. -/
theorem roundHalfEven_eq_of_near (x : ℚ) (n : Nat) (h1 : (n : ℚ) - 1 / 2 < x)
    (h2 : x < (n : ℚ) + 1 / 2) : roundHalfEven x = n := by
  by_cases h0 : 0 ≤ x
  · obtain ⟨g1, g2⟩ := roundHalfEven_near x h0
    have a1 : ((roundHalfEven x : Nat) : ℚ) < (n : ℚ) + 1 := by linarith
    have a2 : (n : ℚ) < ((roundHalfEven x : Nat) : ℚ) + 1 := by linarith
    have b1 : roundHalfEven x < n + 1 := by exact_mod_cast a1
    have b2 : n < roundHalfEven x + 1 := by exact_mod_cast a2
    omega
  · have hx : x < 0 := not_le.mp h0
    rw [roundHalfEven_of_nonpos x (le_of_lt hx)]
    have a2 : (n : ℚ) < 0 + 1 := by linarith
    have b2 : n < 0 + 1 := by exact_mod_cast a2
    omega

/-- Rounding a natural number leaves it unchanged. -/
theorem roundHalfEven_natCast (n : Nat) : roundHalfEven (n : ℚ) = n :=
  roundHalfEven_eq_of_near _ n (by linarith) (by linarith)

/-- Rounding never goes below a natural lower bound. -/
theorem le_roundHalfEven (x : ℚ) (n : Nat) (h : (n : ℚ) ≤ x) : n ≤ roundHalfEven x := by
  have h0 : 0 ≤ x := le_trans (Nat.cast_nonneg n) h
  obtain ⟨-, g2⟩ := roundHalfEven_near x h0
  have a2 : (n : ℚ) < ((roundHalfEven x : Nat) : ℚ) + 1 := by linarith
  have b2 : n < roundHalfEven x + 1 := by exact_mod_cast a2
  omega

/-- A value half way between two natural numbers rounds to the even one. -/
theorem roundHalfEven_tie (n : Nat) :
    roundHalfEven ((n : ℚ) + 1 / 2) = if n % 2 = 0 then n else n + 1 := by
  have hf : ((n : ℚ) + 1 / 2).floor = (n : Int) := by
    show ⌊(n : ℚ) + 1 / 2⌋ = (n : Int)
    rw [Int.floor_eq_iff]
    constructor <;> push_cast <;> linarith
  have h1 : ¬ ((n : ℚ) + 1 / 2 - (n : ℚ) < 1 / 2) := by
    rw [add_sub_cancel_left]; exact lt_irrefl _
  have h2 : ¬ ((1 : ℚ) / 2 < (n : ℚ) + 1 / 2 - (n : ℚ)) := by
    rw [add_sub_cancel_left]; exact lt_irrefl _
  simp only [roundHalfEven, hf, Int.toNat_ofNat, h1, h2, if_false]

/-- The binary exponent used by `roundDouble` for a value in a binade of the normal
range. -/
theorem log_eq_of_bounds (q : ℚ) (e : Int) (h1 : (2 : ℚ) ^ e ≤ q) (h2 : q < 2 ^ (e + 1)) :
    Int.log 2 q = e := by
  have hq : 0 < q := lt_of_lt_of_le (by positivity) h1
  have a : e ≤ Int.log 2 q := (Int.zpow_le_iff_le_log (by norm_num) hq).mp (by exact_mod_cast h1)
  have b : Int.log 2 q < e + 1 := (Int.lt_zpow_iff_log_lt (by norm_num) hq).mp (by exact_mod_cast h2)
  omega

/-- Rounding of a positive value of the normal range, given its binade. -/
theorem roundDouble_of_binade (q : ℚ) (e : Int) (he : -1022 ≤ e) (h1 : (2 : ℚ) ^ e ≤ q)
    (h2 : q < 2 ^ (e + 1)) :
    roundDouble q = (roundHalfEven (q * 2 ^ (52 - e)) : ℚ) / 2 ^ (52 - e) := by
  have hq : 0 < q := lt_of_lt_of_le (by positivity) h1
  have hl : Int.log 2 q = e := log_eq_of_bounds q e h1 h2
  have hneg : ¬ q < 0 := not_lt.mpr (le_of_lt hq)
  unfold roundDouble
  rw [abs_of_pos hq, hl, max_eq_left he, if_neg hneg, one_mul]

theorem roundDouble_zero : roundDouble 0 = 0 := by
  simp [roundDouble, roundHalfEven_of_nonpos]

/-- Rounding of a positive value below the normal range: the grid is `2^-1074`. -/
theorem roundDouble_of_subnormal (q : ℚ) (h0 : 0 < q) (h2 : q < 2 ^ (-1022 : Int)) :
    roundDouble q = (roundHalfEven (q * 2 ^ (1074 : Int)) : ℚ) / 2 ^ (1074 : Int) := by
  have hl : Int.log 2 q < -1022 :=
    (Int.lt_zpow_iff_log_lt (b := 2) (by norm_num) h0).mp (by exact_mod_cast h2)
  have hneg : ¬ q < 0 := not_lt.mpr (le_of_lt h0)
  have hk : (52 : Int) - -1022 = 1074 := by norm_num
  unfold roundDouble
  rw [abs_of_pos h0, max_eq_right (le_of_lt hl), if_neg hneg, one_mul, hk]

/-- Rounding commutes with negation. -/
theorem roundDouble_neg (q : ℚ) : roundDouble (-q) = - roundDouble q := by
  rcases lt_trichotomy q 0 with h | h | h
  · have h1 : ¬ (-q < 0) := by linarith
    simp only [roundDouble, abs_neg, h, h1, if_true, if_false]
    ring
  · rw [h, neg_zero, roundDouble_zero, neg_zero]
  · have h1 : -q < 0 := by linarith
    have h2 : ¬ (q < 0) := by linarith
    simp only [roundDouble, abs_neg, h1, h2, if_true, if_false]
    ring

/-- Every non-negative value lies in a binade or below the normal range. -/
theorem binade_cases (q : ℚ) (hq : 0 < q) :
    q < 2 ^ (-1022 : Int)
    ∨ ∃ e : Int, -1022 ≤ e ∧ (2 : ℚ) ^ e ≤ q ∧ q < 2 ^ (e + 1) := by
  by_cases h : q < 2 ^ (-1022 : Int)
  · exact Or.inl h
  · refine Or.inr ⟨Int.log 2 q, ?_, ?_, ?_⟩
    · exact (Int.zpow_le_iff_le_log (by norm_num) hq).mp (by exact_mod_cast not_lt.mp h)
    · exact_mod_cast Int.zpow_log_le_self (b := 2) (by norm_num) hq
    · exact_mod_cast Int.lt_zpow_succ_log_self (b := 2) (by norm_num) q

/-- The result of rounding a non-negative value is not negative. -/
theorem roundDouble_nonneg (q : ℚ) (h : 0 ≤ q) : 0 ≤ roundDouble q := by
  have hneg : ¬ q < 0 := not_lt.mpr h
  simp only [roundDouble, hneg, if_false, one_mul]
  positivity

/-- Relative error of rounding in the normal range: at most `2^-53`. -/
theorem roundDouble_error (q : ℚ) (h : 2 ^ (-1022 : Int) ≤ q) :
    |roundDouble q - q| ≤ q / 2 ^ 53 := by
  have hq : 0 < q := lt_of_lt_of_le (by positivity) h
  rcases binade_cases q hq with h' | ⟨e, he, h1, h2⟩
  · exact absurd h (not_le.mpr h')
  · rw [roundDouble_of_binade q e he h1 h2]
    have hpos : (0 : ℚ) < 2 ^ (52 - e) := by positivity
    have hx : (2 : ℚ) ^ (52 : Int) ≤ q * 2 ^ (52 - e) := by
      have : (2 : ℚ) ^ (52 : Int) = 2 ^ e * 2 ^ (52 - e) := by
        rw [← zpow_add₀ (by norm_num)]; congr 1; ring
      rw [this]
      exact mul_le_mul_of_nonneg_right h1 (le_of_lt hpos)
    obtain ⟨g1, g2⟩ := roundHalfEven_near (q * 2 ^ (52 - e)) (by positivity)
    rw [abs_le]
    have h52 : (2 : ℚ) ^ (52 : Int) = 2 ^ 52 := by norm_num
    rw [h52] at hx
    constructor
    · rw [le_sub_iff_add_le, ← sub_eq_neg_add, le_div_iff₀ hpos]
      have : (q - q / 2 ^ 53) * 2 ^ (52 - e) = q * 2 ^ (52 - e) - q * 2 ^ (52 - e) / 2 ^ 53 := by
        ring
      rw [this]
      linarith
    · rw [sub_le_iff_le_add, div_le_iff₀ hpos]
      have : (q / 2 ^ 53 + q) * 2 ^ (52 - e) = q * 2 ^ (52 - e) / 2 ^ 53 + q * 2 ^ (52 - e) := by
        ring
      rw [this]
      linarith

/-- A natural number times a non-negative power of two is a natural number. -/
theorem natCast_mul_zpow (m : Nat) (i : Int) (hi : 0 ≤ i) :
    (m : ℚ) * 2 ^ i = ((m * 2 ^ i.toNat : Nat) : ℚ) := by
  obtain ⟨n, rfl⟩ := Int.eq_ofNat_of_zero_le hi
  push_cast
  simp

/-- A value `m * 2^j` with `m < 2^53` and `j >= -1074` is a double: rounding leaves it
unchanged. -/
theorem roundDouble_of_exact (m : Nat) (j : Int) (hm : m < 2 ^ 53) (hj : -1074 ≤ j) :
    roundDouble ((m : ℚ) * 2 ^ j) = (m : ℚ) * 2 ^ j := by
  rcases Nat.eq_zero_or_pos m with h0 | h0
  · rw [h0]; simp [roundDouble_zero]
  have hq : (0 : ℚ) < (m : ℚ) * 2 ^ j := by positivity
  rcases binade_cases _ hq with h | ⟨e, he, h1, h2⟩
  · rw [roundDouble_of_subnormal _ hq h]
    have : (m : ℚ) * 2 ^ j * 2 ^ (1074 : Int) = (m : ℚ) * 2 ^ (j + 1074) := by
      rw [mul_assoc, ← zpow_add₀ (by norm_num)]
    rw [this, natCast_mul_zpow m (j + 1074) (by omega), roundHalfEven_natCast,
      ← natCast_mul_zpow m (j + 1074) (by omega), ← this]
    field_simp
  · have hlt : (2 : ℚ) ^ e < 2 ^ (53 + j) := by
      have hm' : (m : ℚ) < 2 ^ (53 : Int) := by
        have : ((m : Nat) : ℚ) < ((2 ^ 53 : Nat) : ℚ) := by exact_mod_cast hm
        rw [show (2 : ℚ) ^ (53 : Int) = ((2 ^ 53 : Nat) : ℚ) by norm_num]
        exact this
      calc (2 : ℚ) ^ e ≤ (m : ℚ) * 2 ^ j := h1
        _ < 2 ^ (53 : Int) * 2 ^ j := mul_lt_mul_of_pos_right hm' (by positivity)
        _ = 2 ^ (53 + j) := by rw [← zpow_add₀ (by norm_num)]
    have hej : e < 53 + j := (zpow_lt_zpow_iff_right₀ (by norm_num)).mp hlt
    rw [roundDouble_of_binade _ e he h1 h2]
    have : (m : ℚ) * 2 ^ j * 2 ^ (52 - e) = (m : ℚ) * 2 ^ (j + (52 - e)) := by
      rw [mul_assoc, ← zpow_add₀ (by norm_num)]
    rw [this, natCast_mul_zpow m (j + (52 - e)) (by omega), roundHalfEven_natCast,
      ← natCast_mul_zpow m (j + (52 - e)) (by omega), ← this]
    field_simp

/-- A natural number below `2^53` is a double. -/
theorem roundDouble_natCast (n : Nat) (h : n < 2 ^ 53) : roundDouble (n : ℚ) = n := by
  have := roundDouble_of_exact n 0 h (by norm_num)
  simpa using this

/-- An integer of magnitude below `2^53` is a double. -/
theorem roundDouble_intCast (d : Int) (h : d.natAbs < 2 ^ 53) : roundDouble (d : ℚ) = d := by
  rcases Int.natAbs_eq d with h1 | h1
  · rw [h1, Int.cast_natCast]
    exact roundDouble_natCast _ h
  · rw [h1, Int.cast_neg, Int.cast_natCast, roundDouble_neg, roundDouble_natCast _ h]

/-- Rounding never takes a value below a natural number that is a double. -/
theorem le_roundDouble (q : ℚ) (N : Nat) (hN : N ≤ 2 ^ 53) (h : (N : ℚ) ≤ q) :
    (N : ℚ) ≤ roundDouble q := by
  rcases Nat.eq_zero_or_pos N with h0 | h0
  · rw [h0, Nat.cast_zero]
    exact roundDouble_nonneg q (le_trans (by rw [h0]; simp) h)
  have hN1 : (1 : ℚ) ≤ N := by exact_mod_cast h0
  have hq : 0 < q := by linarith
  rcases binade_cases q hq with h' | ⟨e, he, h1, h2⟩
  · have : (2 : ℚ) ^ (-1022 : Int) ≤ 1 := zpow_le_one_of_nonpos₀ (by norm_num) (by norm_num)
    linarith
  · rw [roundDouble_of_binade q e he h1 h2]
    have hpos : (0 : ℚ) < 2 ^ (52 - e) := by positivity
    rw [le_div_iff₀ hpos]
    by_cases hk : e ≤ 52
    · rw [natCast_mul_zpow N (52 - e) (by omega)]
      have := le_roundHalfEven (q * 2 ^ (52 - e)) (N * 2 ^ (52 - e).toNat) (by
        rw [← natCast_mul_zpow N (52 - e) (by omega)]
        exact mul_le_mul_of_nonneg_right h (le_of_lt hpos))
      exact_mod_cast this
    · have hx : ((2 ^ 52 : Nat) : ℚ) ≤ q * 2 ^ (52 - e) := by
        have : ((2 ^ 52 : Nat) : ℚ) = 2 ^ e * 2 ^ (52 - e) := by
          rw [← zpow_add₀ (by norm_num)]
          have : e + (52 - e) = (52 : Int) := by ring
          rw [this]; norm_num
        rw [this]
        exact mul_le_mul_of_nonneg_right h1 (le_of_lt hpos)
      have hr := le_roundHalfEven _ _ hx
      have hr' : ((2 ^ 52 : Nat) : ℚ) ≤ (roundHalfEven (q * 2 ^ (52 - e)) : ℚ) := by
        exact_mod_cast hr
      have hsmall : (2 : ℚ) ^ (52 - e) ≤ 2 ^ (-1 : Int) :=
        zpow_le_zpow_right₀ (by norm_num) (by omega)
      have hN' : (N : ℚ) ≤ 2 ^ 53 := by
        have : ((N : Nat) : ℚ) ≤ ((2 ^ 53 : Nat) : ℚ) := by exact_mod_cast hN
        rw [show (2 : ℚ) ^ 53 = ((2 ^ 53 : Nat) : ℚ) by norm_num]
        exact this
      calc (N : ℚ) * 2 ^ (52 - e) ≤ 2 ^ 53 * 2 ^ (-1 : Int) :=
            mul_le_mul hN' hsmall (le_of_lt hpos) (by positivity)
        _ = ((2 ^ 52 : Nat) : ℚ) := by norm_num
        _ ≤ _ := hr'

/-- The result of rounding a value that is not positive is not positive. -/
theorem roundDouble_nonpos (q : ℚ) (h : q ≤ 0) : roundDouble q ≤ 0 := by
  have := roundDouble_nonneg (-q) (by linarith)
  rw [roundDouble_neg] at this
  linarith

/-- A value of at least `10^-6` lies in the normal range. -/
theorem normal_of_micro (q : ℚ) (h : 1 / 1000000 ≤ q) : (2 : ℚ) ^ (-1022 : Int) ≤ q := by
  have h1 : (2 : ℚ) ^ (-1022 : Int) ≤ 2 ^ (-20 : Int) :=
    zpow_le_zpow_right₀ (by norm_num) (by norm_num)
  have h20 : (2 : ℚ) ^ (-20 : Int) ≤ 1 / 1000000 := by norm_num
  exact le_trans (le_trans h1 h20) h

/-- The result of rounding a value of at least `10^-6` is positive. -/
theorem roundDouble_pos (q : ℚ) (h : 1 / 1000000 ≤ q) : 0 < roundDouble q := by
  have hq : (2 : ℚ) ^ (-1022 : Int) ≤ q := normal_of_micro q h
  have he := (abs_le.mp (roundDouble_error q hq)).1
  have : q / 2 ^ 53 < q := by
    rw [div_lt_iff₀ (by positivity)]
    have : (0 : ℚ) < q := by linarith
    nlinarith
  linarith

theorem toMilliseconds_zero : toMilliseconds 0 = 0 := by
  simp [toMilliseconds, roundDouble_zero]

/-- A whole number of milliseconds is converted exactly. -/
theorem toMilliseconds_of_ms (m : Nat) (h : m * 1000000 < 2 ^ 53) :
    toMilliseconds ((m * 1000000 : Nat) : Int) = m := by
  have h1 : roundDouble (((m * 1000000 : Nat) : Int) : ℚ) = ((m * 1000000 : Nat) : ℚ) := by
    rw [Int.cast_natCast]
    exact roundDouble_natCast _ h
  rw [toMilliseconds, h1]
  have : ((m * 1000000 : Nat) : ℚ) / 1000000 = (m : ℚ) := by push_cast; field_simp
  rw [this]
  exact roundDouble_natCast _ (by omega)

/-- A positive tick difference is converted to a positive number of milliseconds. -/
theorem toMilliseconds_pos (d : Int) (h : 0 < d) : 0 < toMilliseconds d := by
  have h1 : ((1 : Nat) : ℚ) ≤ roundDouble (d : ℚ) :=
    le_roundDouble _ 1 (by norm_num) (by exact_mod_cast h)
  rw [toMilliseconds]
  apply roundDouble_pos
  rw [div_le_div_iff₀ (by norm_num) (by norm_num)]
  push_cast at h1
  linarith

/-- The comparison of line 292 in clock ticks: for a threshold of `T` milliseconds with
`T * 10^6 <= 2^53`, the converted tick difference reaches `T` exactly when the tick
difference reaches `T * 10^6`. -/
theorem toMilliseconds_ge_iff (d : Int) (T : Nat) (h1 : 1 ≤ T) (h2 : T * 1000000 ≤ 2 ^ 53) :
    toMilliseconds d ≥ (T : ℚ) ↔ ((T * 1000000 : Nat) : Int) ≤ d := by
  constructor
  · intro h
    by_contra hlt
    have hlt : d < ((T * 1000000 : Nat) : Int) := not_le.mp hlt
    have hT : (1 : ℚ) ≤ T := by exact_mod_cast h1
    rcases le_or_lt d 0 with hd | hd
    · have a : roundDouble (d : ℚ) ≤ 0 := roundDouble_nonpos _ (by exact_mod_cast hd)
      have b : toMilliseconds d ≤ 0 := by
        rw [toMilliseconds]
        exact roundDouble_nonpos _ (div_nonpos_of_nonpos_of_nonneg a (by norm_num))
      linarith
    · have hex : roundDouble (d : ℚ) = d := roundDouble_intCast d (by omega)
      have hd1 : (1 : ℚ) ≤ (d : ℚ) := by exact_mod_cast hd
      have hq : (2 : ℚ) ^ (-1022 : Int) ≤ (d : ℚ) / 1000000 := by
        apply normal_of_micro
        rw [div_le_div_iff₀ (by norm_num) (by norm_num)]; linarith
      have he := (abs_le.mp (roundDouble_error _ hq)).2
      rw [toMilliseconds, hex] at h
      have hM : ((T * 1000000 : Nat) : ℚ) ≤ 2 ^ 53 := by
        have : ((T * 1000000 : Nat) : ℚ) ≤ ((2 ^ 53 : Nat) : ℚ) := by exact_mod_cast h2
        rw [show (2 : ℚ) ^ 53 = ((2 ^ 53 : Nat) : ℚ) by norm_num]
        exact this
      have hD : (d : ℚ) ≤ ((T * 1000000 : Nat) : ℚ) - 1 := by
        have : d + 1 ≤ ((T * 1000000 : Nat) : Int) := by omega
        have : ((d + 1 : Int) : ℚ) ≤ (((T * 1000000 : Nat) : Int) : ℚ) := by exact_mod_cast this
        push_cast at this ⊢
        linarith
      push_cast at hM hD
      have e1 : (d : ℚ) / 1000000 / 2 ^ 53 = (d : ℚ) / (1000000 * 2 ^ 53) := by
        rw [div_div]
      have key : (d : ℚ) / 1000000 + (d : ℚ) / 1000000 / 2 ^ 53 < T := by
        rw [e1, div_add_div _ _ (by norm_num) (by norm_num), div_lt_iff₀ (by norm_num)]
        nlinarith
      linarith
  · intro h
    have hq : ((T * 1000000 : Nat) : ℚ) ≤ (d : ℚ) := by exact_mod_cast h
    have a := le_roundDouble _ _ h2 hq
    rw [toMilliseconds]
    apply le_roundDouble _ T (by omega)
    rw [le_div_iff₀ (by norm_num)]
    push_cast at a
    linarith

/-- Rounding of a positive value, given its binade and the rounded significand. -/
theorem roundDouble_eval (q : ℚ) (e : Int) (n : Nat) (he : -1022 ≤ e) (h1 : (2 : ℚ) ^ e ≤ q)
    (h2 : q < 2 ^ (e + 1)) (hn : roundHalfEven (q * 2 ^ (52 - e)) = n) :
    roundDouble q = (n : ℚ) / 2 ^ (52 - e) := by
  rw [roundDouble_of_binade q e he h1 h2, hn]

/-! ### Values at the inputs evaluated below -/

theorem roundDouble_one : roundDouble 1 = 1 := by
  simpa using roundDouble_natCast 1 (by norm_num)

theorem roundDouble_two : roundDouble 2 = 2 := by
  simpa using roundDouble_natCast 2 (by norm_num)

theorem roundDouble_three : roundDouble 3 = 3 := by
  simpa using roundDouble_natCast 3 (by norm_num)

theorem roundDouble_three_halves : roundDouble (3 / 2) = 3 / 2 := by
  have h := roundDouble_of_exact 3 (-1) (by norm_num) (by norm_num)
  norm_num at h
  exact h

theorem toMilliseconds_1ms : toMilliseconds 1000000 = 1 := by
  simpa using toMilliseconds_of_ms 1 (by norm_num)

theorem toMilliseconds_2ms : toMilliseconds 2000000 = 2 := by
  simpa using toMilliseconds_of_ms 2 (by norm_num)

theorem toMilliseconds_3ms : toMilliseconds 3000000 = 3 := by
  simpa using toMilliseconds_of_ms 3 (by norm_num)

theorem toMilliseconds_1s : toMilliseconds 1000000000 = 1000 := by
  simpa using toMilliseconds_of_ms 1000 (by norm_num)

theorem toMilliseconds_1002ms : toMilliseconds 1002000000 = 1002 := by
  simpa using toMilliseconds_of_ms 1002 (by norm_num)

/-! ## Basic facts -/

theorem DBL_MIN_pos : 0 < DBL_MIN := by
  unfold DBL_MIN; positivity

theorem wrap64_of_lt {n : Nat} (h : n < 2 ^ 64) : wrap64 n = n :=
  Nat.mod_eq_of_lt h

theorem TimeTracker.run_nil (s : TimeTracker) : s.run [] = s := rfl

theorem TimeTracker.run_cons (s : TimeTracker) (c : Call) (cs : List Call) :
    s.run (c :: cs) = (s.step c).run cs := rfl

theorem TimeTracker.run_append (s : TimeTracker) (cs ds : List Call) :
    s.run (cs ++ ds) = (s.run cs).run ds := by
  simp [TimeTracker.run, List.foldl_append]

theorem TimeTracker.run_snoc (s : TimeTracker) (cs : List Call) (c : Call) :
    s.run (cs ++ [c]) = (s.run cs).step c := by
  rw [TimeTracker.run_append]; rfl

theorem TimeTracker.step_get (s : TimeTracker) (now : Int) (out_ss : Option StringStream) :
    s.step (Call.get now out_ss) = (s.get now out_ss).2.1 := rfl

theorem TimeTracker.step_set (s : TimeTracker) (now : Int) :
    s.step (Call.set now) = s.set now := rfl

theorem TimeTracker.step_stop (s : TimeTracker) : s.step Call.stop = s.stop.2 := rfl

/-- The tracker after `set`, field by field. -/
theorem TimeTracker.set_eq (s : TimeTracker) (now : Int) :
    s.set now = if s.m_mode = MODE_PERFORMANCE then
        { s with m_timeStart := now
                 m_elapseTimeStart := if s.m_elapseTimeStart = 0 then now else s.m_elapseTimeStart }
      else s := by
  simp only [TimeTracker.set]
  split_ifs <;> rfl

/-- A freshly constructed tracker is fresh. -/
theorem TimeTracker.create_fresh (R E : Nat) (p u : String) :
    (TimeTracker.create R E p u).Fresh :=
  ⟨rfl, rfl, rfl, rfl, rfl, rfl, rfl, rfl, rfl, rfl, rfl⟩

theorem TimeTracker.periodDurations_nil (s : TimeTracker) (acc : List ℚ) :
    s.periodDurations acc [] = acc := rfl

theorem TimeTracker.periodDurations_cons (s : TimeTracker) (acc : List ℚ) (c : Call)
    (cs : List Call) :
    s.periodDurations acc (c :: cs) = (s.step c).periodDurations (s.durationsStep acc c) cs := rfl

theorem TimeTracker.durationsStep_set (s : TimeTracker) (acc : List ℚ) (now : Int) :
    s.durationsStep acc (Call.set now) = acc := rfl

theorem TimeTracker.durationsStep_get (s : TimeTracker) (acc : List ℚ) (now : Int)
    (out_ss : Option StringStream) :
    s.durationsStep acc (Call.get now out_ss)
      = if (s.get now out_ss).1 then []
        else if s.m_timeStart = 0 then acc
        else acc ++ [toMilliseconds (now - s.m_timeStart)] := rfl

theorem TimeTracker.durationsStep_stop (s : TimeTracker) (acc : List ℚ) :
    s.durationsStep acc Call.stop = if s.stop.1 then [] else acc := rfl

theorem TimeTracker.lastReport_nil (s : TimeTracker) (acc : Option Int) :
    s.lastReport acc [] = acc := rfl

theorem TimeTracker.lastReport_cons (s : TimeTracker) (acc : Option Int) (c : Call)
    (cs : List Call) :
    s.lastReport acc (c :: cs) = (s.step c).lastReport (s.reportStep acc c) cs := rfl

theorem TimeTracker.reportStep_set (s : TimeTracker) (acc : Option Int) (now : Int) :
    s.reportStep acc (Call.set now) = acc := rfl

theorem TimeTracker.reportStep_get (s : TimeTracker) (acc : Option Int) (now : Int)
    (out_ss : Option StringStream) :
    s.reportStep acc (Call.get now out_ss) = if (s.get now out_ss).1 then some now else acc := rfl

theorem TimeTracker.reportStep_stop (s : TimeTracker) (acc : Option Int) :
    s.reportStep acc Call.stop = acc := rfl

theorem TimeTracker.samples_append (s : TimeTracker) (cs ds : List Call) :
    s.samples (cs ++ ds) = s.samples cs + (s.run cs).samples ds := by
  induction cs generalizing s with
  | nil => simp [TimeTracker.samples, TimeTracker.run]
  | cons c cs ih =>
    rw [List.cons_append, TimeTracker.samples, TimeTracker.samples, TimeTracker.run_cons, ih]
    omega

theorem TimeTracker.samples_le_length (s : TimeTracker) (cs : List Call) :
    s.samples cs ≤ cs.length := by
  induction cs generalizing s with
  | nil => simp [TimeTracker.samples]
  | cons c cs ih =>
    have := ih (s.step c)
    simp only [TimeTracker.samples, List.length_cons]
    split <;> omega

/-! ## The counting and statistics invariant -/

theorem TimeTracker.create_inv (R E : Nat) (p u : String) : (TimeTracker.create R E p u).Inv 0 := by
  constructor <;> simp [TimeTracker.create]

theorem TimeTracker.create_depth_pos (R E : Nat) (p u : String) :
    1 ≤ (TimeTracker.create R E p u).m_vecExecutionDepth := by
  simp only [TimeTracker.create]
  by_cases hR : R = 0
  · simp [hR]
  · by_cases hE : E = 0 ∨ R < E ∨ R % E ≠ 0
    · simp only [hR, hE, if_true, if_false, Nat.div_one]; omega
    · simp only [hR, hE, if_false]
      have h1 : 0 < E := by omega
      have h2 : E ≤ R := by omega
      exact (Nat.le_div_iff_mul_le h1).mpr (by simpa using h2)

theorem TimeTracker.Inv.stamp {s : TimeTracker} {n : Nat} (h : s.Inv n) (now : Int) :
    ({ s with m_timeEnd := now } : TimeTracker).Inv n :=
  ⟨h.count, h.total, h.entries⟩

/-- The duration measured by `record`. -/
theorem TimeTracker.record_executionTime (s : TimeTracker) :
    s.record.m_executionTime = toMilliseconds (s.m_timeEnd - s.m_timeStart) := by
  simp only [TimeTracker.record]
  split_ifs <;> rfl

theorem TimeTracker.record_elapseTime (s : TimeTracker) :
    s.record.m_elapseTime = toMilliseconds (s.m_timeEnd - s.m_elapseTimeStart) := by
  simp only [TimeTracker.record]
  split_ifs <;> rfl

theorem TimeTracker.record_timeStart (s : TimeTracker) :
    s.record.m_timeStart = if s.m_mode = MODE_LOOP then s.m_timeEnd else s.m_timeStart := by
  simp only [TimeTracker.record]
  split_ifs <;> rfl

theorem TimeTracker.record_timeMin (s : TimeTracker) :
    s.record.m_timeMin =
      if toMilliseconds (s.m_timeEnd - s.m_timeStart) < s.m_timeMin
      then toMilliseconds (s.m_timeEnd - s.m_timeStart) else s.m_timeMin := by
  simp only [TimeTracker.record]
  split_ifs <;> rfl

theorem TimeTracker.record_timeMax (s : TimeTracker) :
    s.record.m_timeMax =
      if toMilliseconds (s.m_timeEnd - s.m_timeStart) > s.m_timeMax
      then toMilliseconds (s.m_timeEnd - s.m_timeStart) else s.m_timeMax := by
  simp only [TimeTracker.record]
  split_ifs <;> rfl

theorem TimeTracker.record_timeTotal (s : TimeTracker) :
    s.record.m_executionTimeTotalInMilliseconds =
      roundDouble (s.m_executionTimeTotalInMilliseconds
        + toMilliseconds (s.m_timeEnd - s.m_timeStart)) := by
  simp only [TimeTracker.record]
  split_ifs <;> rfl

theorem TimeTracker.record_counter (s : TimeTracker) :
    s.record.m_executionCountTotalInOneSec = wrap64 (s.m_executionCountTotalInOneSec + 1) := by
  simp only [TimeTracker.record]
  split_ifs <;> rfl

/-- The tracker after `record`, field by field. -/
theorem TimeTracker.record_eq (s : TimeTracker) :
    s.record = { s with
      m_executionTime := toMilliseconds (s.m_timeEnd - s.m_timeStart)
      m_elapseTime := toMilliseconds (s.m_timeEnd - s.m_elapseTimeStart)
      m_timeStart := if s.m_mode = MODE_LOOP then s.m_timeEnd else s.m_timeStart
      m_timeMin := if toMilliseconds (s.m_timeEnd - s.m_timeStart) < s.m_timeMin
        then toMilliseconds (s.m_timeEnd - s.m_timeStart) else s.m_timeMin
      m_timeMax := if toMilliseconds (s.m_timeEnd - s.m_timeStart) > s.m_timeMax
        then toMilliseconds (s.m_timeEnd - s.m_timeStart) else s.m_timeMax
      m_executionCountTotalInOneSec := wrap64 (s.m_executionCountTotalInOneSec + 1)
      m_executionTimeTotalInMilliseconds :=
        roundDouble (s.m_executionTimeTotalInMilliseconds
          + toMilliseconds (s.m_timeEnd - s.m_timeStart)) } := by
  simp only [TimeTracker.record]
  split_ifs <;> rfl

/-- The fields that `record` leaves alone. -/
theorem TimeTracker.record_frame (s : TimeTracker) :
    s.record.m_mode = s.m_mode
    ∧ s.record.m_executionCountTotalAllTheTime = s.m_executionCountTotalAllTheTime
    ∧ s.record.m_executionCountTotalInNsec = s.m_executionCountTotalInNsec
    ∧ s.record.m_vecExecutionOneSec = s.m_vecExecutionOneSec
    ∧ s.record.m_vecExecutionDepth = s.m_vecExecutionDepth
    ∧ s.record.m_timeEnd = s.m_timeEnd
    ∧ s.record.m_elapseTimeStart = s.m_elapseTimeStart
    ∧ s.record.m_executionCountIntervalInSeconds = s.m_executionCountIntervalInSeconds
    ∧ s.record.m_reportIntervalInSeconds = s.m_reportIntervalInSeconds
    ∧ s.record.m_report = s.m_report := by
  simp only [TimeTracker.record]
  split_ifs <;> simp

theorem TimeTracker.record_inv {s : TimeTracker} {n : Nat} (h : s.Inv n) (hn : n + 1 < 2 ^ 64) :
    s.record.Inv (n + 1) ∧ 1 ≤ s.record.m_executionCountTotalInOneSec := by
  have hc := h.count
  have hw : wrap64 (s.m_executionCountTotalInOneSec + 1) = s.m_executionCountTotalInOneSec + 1 :=
    wrap64_of_lt (by omega)
  obtain ⟨-, f2, f3, f4, -⟩ := s.record_frame
  refine ⟨⟨?_, ?_, ?_⟩, ?_⟩
  · rw [f2, f3, s.record_counter, hw]; omega
  · rw [f3, f4]; exact h.total
  · rw [f4]; exact h.entries
  · rw [TimeTracker.record_counter, hw]; omega

theorem TimeTracker.Inv.of_fields {s t : TimeTracker} {n : Nat} (h : s.Inv n)
    (h1 : t.m_executionCountTotalAllTheTime = s.m_executionCountTotalAllTheTime)
    (h2 : t.m_executionCountTotalInNsec = s.m_executionCountTotalInNsec)
    (h3 : t.m_executionCountTotalInOneSec = s.m_executionCountTotalInOneSec)
    (h4 : t.m_vecExecutionOneSec = s.m_vecExecutionOneSec) : t.Inv n := by
  constructor
  · rw [h1, h2, h3]; exact h.count
  · rw [h2, h4]; exact h.total
  · rw [h4]; exact h.entries

theorem TimeTracker.pushCount_inv {s : TimeTracker} {n : Nat} (h : s.Inv n) (hn : n < 2 ^ 64)
    (hpos : 1 ≤ s.m_executionCountTotalInOneSec) : s.pushCount.Inv n := by
  have hc := h.count
  have hw : wrap64 (s.m_executionCountTotalInNsec + s.m_executionCountTotalInOneSec)
      = s.m_executionCountTotalInNsec + s.m_executionCountTotalInOneSec :=
    wrap64_of_lt (by omega)
  constructor
  · simp only [TimeTracker.pushCount, hw]; omega
  · have ht := h.total
    simp only [TimeTracker.pushCount, hw, List.sum_append, List.sum_cons, List.sum_nil]
    omega
  · intro c hc
    simp only [TimeTracker.pushCount, List.mem_append, List.mem_singleton] at hc
    rcases hc with hc | hc
    · exact h.entries c hc
    · rw [hc]; exact hpos

theorem TimeTracker.reset_inv {s : TimeTracker} {n : Nat} (h : s.Inv n) (hn : n < 2 ^ 64)
    (h0 : s.m_executionCountTotalInOneSec = 0) : s.reset.Inv n := by
  have hc := h.count
  have hw : wrap64 (s.m_executionCountTotalAllTheTime + s.m_executionCountTotalInNsec)
      = s.m_executionCountTotalAllTheTime + s.m_executionCountTotalInNsec :=
    wrap64_of_lt (by omega)
  constructor
  · simp only [TimeTracker.reset, hw, h0]; omega
  · simp [TimeTracker.reset]
  · simp [TimeTracker.reset]

/-- Behaviour of `getReport` on an empty vector: nothing is rendered, nothing changes. -/
theorem TimeTracker.getReport_empty (s : TimeTracker) (out_str : StringStream)
    (h : s.m_vecExecutionOneSec = []) : s.getReport out_str = (false, s, out_str) := by
  simp [TimeTracker.getReport, h]

/-- Behaviour of `getReport` on a non-empty vector: the text is rendered and the period
state is reset. -/
theorem TimeTracker.getReport_nonempty (s : TimeTracker) (out_str : StringStream)
    (h : s.m_vecExecutionOneSec ≠ []) :
    s.getReport out_str
      = (true, ({ s with m_timeAvg := s.average } : TimeTracker).reset, s.reportOn out_str) := by
  simp [TimeTracker.getReport, h]

theorem TimeTracker.getReport_vec (s : TimeTracker) (out_str : StringStream) :
    (s.getReport out_str).2.1.m_vecExecutionOneSec = [] := by
  by_cases h : s.m_vecExecutionOneSec = []
  · rw [s.getReport_empty out_str h]; exact h
  · rw [s.getReport_nonempty out_str h]; rfl

theorem TimeTracker.getReport_inv {s : TimeTracker} {n : Nat} (h : s.Inv n) (hn : n < 2 ^ 64)
    (h0 : s.m_executionCountTotalInOneSec = 0) (out_str : StringStream) :
    (s.getReport out_str).2.1.Inv n := by
  by_cases hv : s.m_vecExecutionOneSec = []
  · rw [s.getReport_empty out_str hv]; exact h
  · rw [s.getReport_nonempty out_str hv]
    exact TimeTracker.reset_inv (h.of_fields rfl rfl rfl rfl) hn h0

/-- The fields that `getReport` never changes. -/
theorem TimeTracker.getReport_frame (s : TimeTracker) (out_str : StringStream) :
    (s.getReport out_str).2.1.m_mode = s.m_mode
    ∧ (s.getReport out_str).2.1.m_timeStart = s.m_timeStart
    ∧ (s.getReport out_str).2.1.m_timeEnd = s.m_timeEnd
    ∧ (s.getReport out_str).2.1.m_elapseTimeStart = s.m_elapseTimeStart
    ∧ (s.getReport out_str).2.1.m_vecExecutionDepth = s.m_vecExecutionDepth
    ∧ (s.getReport out_str).2.1.m_executionCountTotalInOneSec = s.m_executionCountTotalInOneSec
    ∧ (s.getReport out_str).2.1.m_executionCountIntervalInSeconds = s.m_executionCountIntervalInSeconds
    ∧ (s.getReport out_str).2.1.m_reportIntervalInSeconds = s.m_reportIntervalInSeconds
    ∧ (s.getReport out_str).2.1.m_executionTime = s.m_executionTime := by
  by_cases hv : s.m_vecExecutionOneSec = []
  · rw [s.getReport_empty out_str hv]; simp
  · rw [s.getReport_nonempty out_str hv]; simp [TimeTracker.reset]

/-! ## Case analysis of `get` -/

theorem TimeTracker.get_first (s : TimeTracker) (now : Int) (out_ss : Option StringStream)
    (h : s.m_timeStart = 0) :
    s.get now out_ss =
      (false, { s with m_timeEnd := now, m_mode := MODE_LOOP, m_timeStart := now,
                       m_elapseTimeStart := now }, out_ss) := by
  simp [TimeTracker.get, h]

theorem TimeTracker.get_quiet (s : TimeTracker) (now : Int) (out_ss : Option StringStream)
    (h : s.m_timeStart ≠ 0) (hr : ¬ s.rollsOver now) :
    s.get now out_ss = (false, ({ s with m_timeEnd := now } : TimeTracker).record, out_ss) := by
  have f := ({ s with m_timeEnd := now } : TimeTracker).record_frame
  have e := ({ s with m_timeEnd := now } : TimeTracker).record_elapseTime
  simp only [TimeTracker.rollsOver] at hr
  simp only [TimeTracker.get, h, if_false, e, f.2.2.2.2.2.2.2.1, hr]

theorem TimeTracker.get_roll (s : TimeTracker) (now : Int) (out_ss : Option StringStream)
    (h : s.m_timeStart ≠ 0) (hr : s.rollsOver now)
    (hd : s.m_vecExecutionOneSec.length + 1 < s.m_vecExecutionDepth) :
    s.get now out_ss = (false, { s.rendered now with m_elapseTimeStart := now }, out_ss) := by
  have f := ({ s with m_timeEnd := now } : TimeTracker).record_frame
  have e := ({ s with m_timeEnd := now } : TimeTracker).record_elapseTime
  simp only [TimeTracker.rollsOver] at hr
  have hd2 : ¬ (({ s with m_timeEnd := now } : TimeTracker).record.pushCount.m_vecExecutionOneSec.length
      ≥ ({ s with m_timeEnd := now } : TimeTracker).record.pushCount.m_vecExecutionDepth) := by
    simp only [TimeTracker.pushCount, f.2.2.2.1, f.2.2.2.2.1, List.length_append,
      List.length_singleton]
    omega
  simp only [TimeTracker.get, h, if_false, e, f.2.2.2.2.2.2.2.1, hr, if_true, hd2,
    TimeTracker.rendered]
  simp [TimeTracker.pushCount, f.2.2.2.2.2.1]

theorem TimeTracker.rendered_vec (s : TimeTracker) (now : Int) :
    (s.rendered now).m_vecExecutionOneSec
      = s.m_vecExecutionOneSec ++ [wrap64 (s.m_executionCountTotalInOneSec + 1)] := by
  have f := ({ s with m_timeEnd := now } : TimeTracker).record_frame
  have c := ({ s with m_timeEnd := now } : TimeTracker).record_counter
  simp only [TimeTracker.rendered, TimeTracker.pushCount, f.2.2.2.1, c]

theorem TimeTracker.rendered_frame (s : TimeTracker) (now : Int) :
    (s.rendered now).m_vecExecutionDepth = s.m_vecExecutionDepth
    ∧ (s.rendered now).m_timeEnd = now
    ∧ (s.rendered now).m_mode = s.m_mode
    ∧ (s.rendered now).m_executionCountTotalAllTheTime = s.m_executionCountTotalAllTheTime
    ∧ (s.rendered now).m_report = s.m_report
    ∧ (s.rendered now).m_executionCountTotalInOneSec = 0
    ∧ (s.rendered now).m_executionTime = toMilliseconds (now - s.m_timeStart)
    ∧ (s.rendered now).m_timeStart = (if s.m_mode = MODE_LOOP then now else s.m_timeStart) := by
  have f := ({ s with m_timeEnd := now } : TimeTracker).record_frame
  have e := ({ s with m_timeEnd := now } : TimeTracker).record_executionTime
  have t := ({ s with m_timeEnd := now } : TimeTracker).record_timeStart
  exact ⟨f.2.2.2.2.1, f.2.2.2.2.2.1, f.1, f.2.1, f.2.2.2.2.2.2.2.2.2, rfl, e, t⟩

theorem TimeTracker.rendered_ne_nil (s : TimeTracker) (now : Int) :
    (s.rendered now).m_vecExecutionOneSec ≠ [] := by
  rw [s.rendered_vec now]; simp

/-- The statistics of the state from which a `get` call renders. -/
theorem TimeTracker.rendered_stats (s : TimeTracker) (now : Int) :
    (s.rendered now).m_executionTimeTotalInMilliseconds
      = roundDouble (s.m_executionTimeTotalInMilliseconds + toMilliseconds (now - s.m_timeStart))
    ∧ (s.rendered now).m_executionCountTotalInNsec
      = wrap64 (s.m_executionCountTotalInNsec + wrap64 (s.m_executionCountTotalInOneSec + 1))
    ∧ (s.rendered now).m_timeMin
      = (if toMilliseconds (now - s.m_timeStart) < s.m_timeMin
         then toMilliseconds (now - s.m_timeStart) else s.m_timeMin)
    ∧ (s.rendered now).m_timeMax
      = (if toMilliseconds (now - s.m_timeStart) > s.m_timeMax
         then toMilliseconds (now - s.m_timeStart) else s.m_timeMax) := by
  have f := ({ s with m_timeEnd := now } : TimeTracker).record_frame
  have c := ({ s with m_timeEnd := now } : TimeTracker).record_counter
  have t := ({ s with m_timeEnd := now } : TimeTracker).record_timeTotal
  have h1 := ({ s with m_timeEnd := now } : TimeTracker).record_timeMin
  have h2 := ({ s with m_timeEnd := now } : TimeTracker).record_timeMax
  refine ⟨t, ?_, h1, h2⟩
  show wrap64 (_ + _) = _
  rw [f.2.2.1, c]

theorem TimeTracker.get_report_none (s : TimeTracker) (now : Int)
    (h : s.m_timeStart ≠ 0) (hr : s.rollsOver now)
    (hd : s.m_vecExecutionDepth ≤ s.m_vecExecutionOneSec.length + 1) :
    s.get now none =
      (true, { ({ s.rendered now with m_timeAvg := (s.rendered now).average } : TimeTracker).reset with
                m_report := (s.rendered now).reportOn s.m_report,
                m_elapseTimeStart := now }, none) := by
  have f := ({ s with m_timeEnd := now } : TimeTracker).record_frame
  have e := ({ s with m_timeEnd := now } : TimeTracker).record_elapseTime
  simp only [TimeTracker.rollsOver] at hr
  have hv := s.rendered_vec now
  have hf := s.rendered_frame now
  have hd2 : (s.rendered now).m_vecExecutionOneSec.length ≥ (s.rendered now).m_vecExecutionDepth := by
    rw [hv, hf.1, List.length_append, List.length_singleton]; exact hd
  have hg := (s.rendered now).getReport_nonempty (s.rendered now).m_report (s.rendered_ne_nil now)
  simp only [TimeTracker.rendered] at hd2 hg
  simp only [TimeTracker.get, h, if_false, e, f.2.2.2.2.2.2.2.1, hr, if_true, hd2, hg,
    TimeTracker.rendered]
  simp [TimeTracker.pushCount, TimeTracker.reset, f.2.2.2.2.2.1, f.2.2.2.2.2.2.2.2.2]

theorem TimeTracker.get_report_some (s : TimeTracker) (now : Int) (content : StringStream)
    (h : s.m_timeStart ≠ 0) (hr : s.rollsOver now)
    (hd : s.m_vecExecutionDepth ≤ s.m_vecExecutionOneSec.length + 1) :
    s.get now (some content) =
      (true, { ({ s.rendered now with m_timeAvg := (s.rendered now).average } : TimeTracker).reset with
                m_elapseTimeStart := now }, some ((s.rendered now).reportOn content)) := by
  have f := ({ s with m_timeEnd := now } : TimeTracker).record_frame
  have e := ({ s with m_timeEnd := now } : TimeTracker).record_elapseTime
  simp only [TimeTracker.rollsOver] at hr
  have hv := s.rendered_vec now
  have hf := s.rendered_frame now
  have hd2 : (s.rendered now).m_vecExecutionOneSec.length ≥ (s.rendered now).m_vecExecutionDepth := by
    rw [hv, hf.1, List.length_append, List.length_singleton]; exact hd
  have hg := (s.rendered now).getReport_nonempty content (s.rendered_ne_nil now)
  simp only [TimeTracker.rendered] at hd2 hg
  simp only [TimeTracker.get, h, if_false, e, f.2.2.2.2.2.2.2.1, hr, if_true, hd2, hg,
    TimeTracker.rendered]
  simp [TimeTracker.pushCount, TimeTracker.reset, f.2.2.2.2.2.1]

/-- The result of `get`, case by case. -/
theorem TimeTracker.get_eq (s : TimeTracker) (now : Int) (out_ss : Option StringStream) :
    s.get now out_ss =
      if s.m_timeStart = 0 then
        (false, { s with m_timeEnd := now, m_mode := MODE_LOOP, m_timeStart := now,
                         m_elapseTimeStart := now }, out_ss)
      else if toMilliseconds (now - s.m_elapseTimeStart)
          ≥ (s.m_executionCountIntervalInSeconds : ℚ) * ONE_SEC_IN_MILLISECOND then
        if s.m_vecExecutionOneSec.length + 1 < s.m_vecExecutionDepth then
          (false, { s.rendered now with m_elapseTimeStart := now }, out_ss)
        else
          match out_ss with
          | none =>
            (true, { ({ s.rendered now with m_timeAvg := (s.rendered now).average }
                        : TimeTracker).reset with
                      m_report := (s.rendered now).reportOn s.m_report,
                      m_elapseTimeStart := now }, none)
          | some target =>
            (true, { ({ s.rendered now with m_timeAvg := (s.rendered now).average }
                        : TimeTracker).reset with
                      m_elapseTimeStart := now }, some ((s.rendered now).reportOn target))
      else
        (false, ({ s with m_timeEnd := now } : TimeTracker).record, out_ss) := by
  by_cases h0 : s.m_timeStart = 0
  · rw [if_pos h0]; exact s.get_first now out_ss h0
  · rw [if_neg h0]
    by_cases hr : s.rollsOver now
    · rw [if_pos (show toMilliseconds (now - s.m_elapseTimeStart)
        ≥ (s.m_executionCountIntervalInSeconds : ℚ) * ONE_SEC_IN_MILLISECOND from hr)]
      by_cases hd : s.m_vecExecutionOneSec.length + 1 < s.m_vecExecutionDepth
      · rw [if_pos hd]; exact s.get_roll now out_ss h0 hr hd
      · rw [if_neg hd]
        cases out_ss with
        | none => exact s.get_report_none now h0 hr (by omega)
        | some target => exact s.get_report_some now target h0 hr (by omega)
    · rw [if_neg (show ¬ toMilliseconds (now - s.m_elapseTimeStart)
        ≥ (s.m_executionCountIntervalInSeconds : ℚ) * ONE_SEC_IN_MILLISECOND from hr)]
      exact s.get_quiet now out_ss h0 hr

/-- The result of `stop` in terms of `flush` and `getReport`. -/
theorem TimeTracker.stop_eq (s : TimeTracker) :
    s.stop = ((s.flush.getReport s.flush.m_report).1,
      { (s.flush.getReport s.flush.m_report).2.1 with
        m_report := (s.flush.getReport s.flush.m_report).2.2 }) := rfl

/-! ## Preservation of the invariant -/

theorem TimeTracker.rendered_inv {s : TimeTracker} {n : Nat} (h : s.Inv n) (hn : n + 1 < 2 ^ 64)
    (now : Int) : (s.rendered now).Inv (n + 1) := by
  obtain ⟨h1, h2⟩ := TimeTracker.record_inv (h.stamp now) hn
  exact TimeTracker.pushCount_inv h1 hn h2

theorem TimeTracker.set_inv {s : TimeTracker} {n : Nat} (h : s.Inv n) (now : Int) :
    (s.set now).Inv n := by
  simp only [TimeTracker.set]
  split_ifs <;> exact h.of_fields rfl rfl rfl rfl

theorem TimeTracker.set_frame (s : TimeTracker) (now : Int) :
    (s.set now).m_vecExecutionOneSec = s.m_vecExecutionOneSec
    ∧ (s.set now).m_vecExecutionDepth = s.m_vecExecutionDepth
    ∧ (s.set now).m_mode = s.m_mode
    ∧ (s.set now).m_timeEnd = s.m_timeEnd
    ∧ (s.set now).m_executionCountIntervalInSeconds = s.m_executionCountIntervalInSeconds
    ∧ (s.set now).m_reportIntervalInSeconds = s.m_reportIntervalInSeconds := by
  simp only [TimeTracker.set]
  split_ifs <;> simp

/-- The statistics that `set` leaves alone. -/
theorem TimeTracker.set_stats (s : TimeTracker) (now : Int) :
    (s.set now).m_executionTimeTotalInMilliseconds = s.m_executionTimeTotalInMilliseconds
    ∧ (s.set now).m_executionCountTotalInNsec = s.m_executionCountTotalInNsec
    ∧ (s.set now).m_executionCountTotalInOneSec = s.m_executionCountTotalInOneSec := by
  simp only [TimeTracker.set]
  split_ifs <;> simp

/-- A `set` call measures nothing. -/
theorem TimeTracker.set_executionTime (s : TimeTracker) (now : Int) :
    (s.set now).m_executionTime = s.m_executionTime := by
  simp only [TimeTracker.set]
  split_ifs <;> rfl

/-- The configuration is never changed by `get`. -/
theorem TimeTracker.get_config (s : TimeTracker) (now : Int) (out_ss : Option StringStream) :
    (s.get now out_ss).2.1.m_vecExecutionDepth = s.m_vecExecutionDepth
    ∧ (s.get now out_ss).2.1.m_executionCountIntervalInSeconds = s.m_executionCountIntervalInSeconds
    ∧ (s.get now out_ss).2.1.m_reportIntervalInSeconds = s.m_reportIntervalInSeconds := by
  have f := ({ s with m_timeEnd := now } : TimeTracker).record_frame
  by_cases h : s.m_timeStart = 0
  · rw [s.get_first now out_ss h]; simp
  · by_cases hr : s.rollsOver now
    · by_cases hd : s.m_vecExecutionOneSec.length + 1 < s.m_vecExecutionDepth
      · rw [s.get_roll now out_ss h hr hd]
        exact ⟨f.2.2.2.2.1, f.2.2.2.2.2.2.2.1, f.2.2.2.2.2.2.2.2.1⟩
      · cases out_ss with
        | none =>
          rw [s.get_report_none now h hr (by omega)]
          exact ⟨f.2.2.2.2.1, f.2.2.2.2.2.2.2.1, f.2.2.2.2.2.2.2.2.1⟩
        | some content =>
          rw [s.get_report_some now content h hr (by omega)]
          exact ⟨f.2.2.2.2.1, f.2.2.2.2.2.2.2.1, f.2.2.2.2.2.2.2.2.1⟩
    · rw [s.get_quiet now out_ss h hr]
      exact ⟨f.2.2.2.2.1, f.2.2.2.2.2.2.2.1, f.2.2.2.2.2.2.2.2.1⟩

theorem TimeTracker.get_inv {s : TimeTracker} {n : Nat} (h : s.Inv n)
    (hroom : s.m_vecExecutionOneSec.length < s.m_vecExecutionDepth)
    (now : Int) (out_ss : Option StringStream)
    (hn : n + (if s.recordsSample (.get now out_ss) then 1 else 0) < 2 ^ 64) :
    (s.get now out_ss).2.1.Inv (n + (if s.recordsSample (.get now out_ss) then 1 else 0))
    ∧ (s.get now out_ss).2.1.m_vecExecutionOneSec.length
        < (s.get now out_ss).2.1.m_vecExecutionDepth := by
  rw [(s.get_config now out_ss).1]
  by_cases h0 : s.m_timeStart = 0
  · rw [s.get_first now out_ss h0]
    simp only [TimeTracker.recordsSample, h0, ne_eq, not_true_eq_false, decide_False,
      Bool.false_eq_true, if_false, Nat.add_zero]
    exact ⟨h.of_fields rfl rfl rfl rfl, hroom⟩
  · simp only [TimeTracker.recordsSample, h0, ne_eq, not_false_eq_true, decide_True, if_true] at hn ⊢
    have hrec := TimeTracker.record_inv (h.stamp now) hn
    have hren := TimeTracker.rendered_inv h hn now
    have f := ({ s with m_timeEnd := now } : TimeTracker).record_frame
    by_cases hr : s.rollsOver now
    · by_cases hd : s.m_vecExecutionOneSec.length + 1 < s.m_vecExecutionDepth
      · rw [s.get_roll now out_ss h0 hr hd]
        refine ⟨hren.of_fields rfl rfl rfl rfl, ?_⟩
        show (s.rendered now).m_vecExecutionOneSec.length < _
        rw [s.rendered_vec now, List.length_append, List.length_singleton]
        exact hd
      · have hreset : ({ s.rendered now with m_timeAvg := (s.rendered now).average }
            : TimeTracker).reset.Inv (n + 1) :=
          TimeTracker.reset_inv (hren.of_fields rfl rfl rfl rfl) hn
            (s.rendered_frame now).2.2.2.2.2.1
        cases out_ss with
        | none =>
          rw [s.get_report_none now h0 hr (by omega)]
          refine ⟨hreset.of_fields rfl rfl rfl rfl, ?_⟩
          show ([] : List Nat).length < _
          simp only [List.length_nil]; omega
        | some content =>
          rw [s.get_report_some now content h0 hr (by omega)]
          refine ⟨hreset.of_fields rfl rfl rfl rfl, ?_⟩
          show ([] : List Nat).length < _
          simp only [List.length_nil]; omega
    · rw [s.get_quiet now out_ss h0 hr]
      refine ⟨hrec.1, ?_⟩
      rw [f.2.2.2.1]; exact hroom

theorem TimeTracker.flush_counter (s : TimeTracker) :
    s.flush.m_executionCountTotalInOneSec = 0 := by
  simp only [TimeTracker.flush]
  split_ifs with h
  · rfl
  · simpa using h

theorem TimeTracker.flush_inv {s : TimeTracker} {n : Nat} (h : s.Inv n) (hn : n < 2 ^ 64) :
    s.flush.Inv n := by
  simp only [TimeTracker.flush]
  split_ifs with h0
  · exact TimeTracker.pushCount_inv h hn (by omega)
  · exact h

/-- The fields that `flush` leaves alone. -/
theorem TimeTracker.flush_frame (s : TimeTracker) :
    s.flush.m_vecExecutionDepth = s.m_vecExecutionDepth
    ∧ s.flush.m_mode = s.m_mode
    ∧ s.flush.m_timeStart = s.m_timeStart
    ∧ s.flush.m_timeEnd = s.m_timeEnd
    ∧ s.flush.m_executionCountIntervalInSeconds = s.m_executionCountIntervalInSeconds
    ∧ s.flush.m_reportIntervalInSeconds = s.m_reportIntervalInSeconds
    ∧ s.flush.m_executionCountTotalAllTheTime = s.m_executionCountTotalAllTheTime := by
  simp only [TimeTracker.flush]
  split_ifs <;> simp [TimeTracker.pushCount]

/-- The flush of `stop` does not touch the report stream. -/
theorem TimeTracker.flush_report (s : TimeTracker) : s.flush.m_report = s.m_report := by
  simp only [TimeTracker.flush]
  split_ifs <;> rfl

/-- The fields that `stop` leaves alone, and the two it always clears. -/
theorem TimeTracker.stop_frame (s : TimeTracker) :
    s.stop.2.m_vecExecutionDepth = s.m_vecExecutionDepth
    ∧ s.stop.2.m_mode = s.m_mode
    ∧ s.stop.2.m_timeStart = s.m_timeStart
    ∧ s.stop.2.m_timeEnd = s.m_timeEnd
    ∧ s.stop.2.m_executionCountIntervalInSeconds = s.m_executionCountIntervalInSeconds
    ∧ s.stop.2.m_reportIntervalInSeconds = s.m_reportIntervalInSeconds
    ∧ s.stop.2.m_vecExecutionOneSec = []
    ∧ s.stop.2.m_executionCountTotalInOneSec = 0 := by
  have g := s.flush.getReport_frame s.flush.m_report
  have f := s.flush_frame
  refine ⟨?_, ?_, ?_, ?_, ?_, ?_, ?_, ?_⟩
  · exact g.2.2.2.2.1.trans f.1
  · exact g.1.trans f.2.1
  · exact g.2.1.trans f.2.2.1
  · exact g.2.2.1.trans f.2.2.2.1
  · exact g.2.2.2.2.2.2.1.trans f.2.2.2.2.1
  · exact g.2.2.2.2.2.2.2.1.trans f.2.2.2.2.2.1
  · exact s.flush.getReport_vec s.flush.m_report
  · exact g.2.2.2.2.2.1.trans s.flush_counter

theorem TimeTracker.stop_inv {s : TimeTracker} {n : Nat} (h : s.Inv n) (hn : n < 2 ^ 64) :
    s.stop.2.Inv n :=
  (TimeTracker.getReport_inv (TimeTracker.flush_inv h hn) hn s.flush_counter
    s.flush.m_report).of_fields rfl rfl rfl rfl

/-- The invariant and the free slot in the vector are preserved by every call. -/
theorem TimeTracker.step_inv {s : TimeTracker} {n : Nat} (h : s.Inv n)
    (hroom : s.m_vecExecutionOneSec.length < s.m_vecExecutionDepth) (c : Call)
    (hn : n + (if s.recordsSample c then 1 else 0) < 2 ^ 64) :
    (s.step c).Inv (n + (if s.recordsSample c then 1 else 0))
    ∧ (s.step c).m_vecExecutionOneSec.length < (s.step c).m_vecExecutionDepth := by
  cases c with
  | set now =>
    have f := s.set_frame now
    refine ⟨by simpa [TimeTracker.step, TimeTracker.recordsSample] using TimeTracker.set_inv h now, ?_⟩
    show (s.set now).m_vecExecutionOneSec.length < (s.set now).m_vecExecutionDepth
    rw [f.1, f.2.1]; exact hroom
  | get now out_ss => exact TimeTracker.get_inv h hroom now out_ss hn
  | stop =>
    have f := s.stop_frame
    simp only [TimeTracker.recordsSample, Bool.false_eq_true, if_false, Nat.add_zero] at hn ⊢
    refine ⟨TimeTracker.stop_inv h hn, ?_⟩
    show s.stop.2.m_vecExecutionOneSec.length < s.stop.2.m_vecExecutionDepth
    rw [f.1, f.2.2.2.2.2.2.1, List.length_nil]; omega

theorem TimeTracker.run_inv_aux (cs : List Call) :
    ∀ (s : TimeTracker) (n : Nat), s.Inv n →
      s.m_vecExecutionOneSec.length < s.m_vecExecutionDepth → n + s.samples cs < 2 ^ 64 →
      (s.run cs).Inv (n + s.samples cs)
      ∧ (s.run cs).m_vecExecutionOneSec.length < (s.run cs).m_vecExecutionDepth := by
  induction cs with
  | nil => intro s n h hroom _; exact ⟨by simpa [TimeTracker.samples] using h, hroom⟩
  | cons c cs ih =>
    intro s n h hroom hn
    rw [TimeTracker.samples] at hn
    obtain ⟨h1, h2⟩ := TimeTracker.step_inv h hroom c (by omega)
    have := ih (s.step c) _ h1 h2 (by omega)
    rw [TimeTracker.run_cons, TimeTracker.samples, ← Nat.add_assoc]
    exact this

/-- Every tracker reached from the constructor by calls that record fewer than `2^64`
samples satisfies the invariant for the number of recorded samples, and its vector has
a free slot. -/
theorem TimeTracker.run_inv (R E : Nat) (p u : String) (cs : List Call)
    (hn : (TimeTracker.create R E p u).samples cs < 2 ^ 64) :
    ((TimeTracker.create R E p u).run cs).Inv ((TimeTracker.create R E p u).samples cs)
    ∧ ((TimeTracker.create R E p u).run cs).m_vecExecutionOneSec.length
        < ((TimeTracker.create R E p u).run cs).m_vecExecutionDepth := by
  have h := TimeTracker.run_inv_aux cs (TimeTracker.create R E p u) 0
    (TimeTracker.create_inv R E p u)
    (by
      have := TimeTracker.create_depth_pos R E p u
      simp only [TimeTracker.create, List.length_nil] at this ⊢
      omega)
    (by omega)
  simpa using h

theorem TimeTracker.samples_snoc (s : TimeTracker) (cs : List Call) (c : Call) :
    s.samples (cs ++ [c]) = s.samples cs + (if (s.run cs).recordsSample c then 1 else 0) := by
  rw [TimeTracker.samples_append]
  simp [TimeTracker.samples]

/-! ## C1: when `get` returns true, and what it leaves behind -/

/-- C1. In every tracker state reached from the constructor (fewer than `2^64` samples
recorded, this call included) and for every clock reading, `get` returns true exactly
when the call records a sample, the time elapsed since `m_elapseTimeStart` is at least
`m_executionCountIntervalInSeconds * 1000` ms and the appended count fills the vector
up to `m_vecExecutionDepth`. When it returns true, the delivered text is the report of
the state at line 296 and the period state is reset: empty vector, zero counter, zero
period count and duration totals, minimum and maximum at their initial values, and the
lifetime total increased by exactly the total count shown in that report. -/
theorem get_true_iff_and_resets (R E : Nat) (p u : String) (cs : List Call) (now : Int)
    (out_ss : Option StringStream)
    (hn : (TimeTracker.create R E p u).samples (cs ++ [Call.get now out_ss]) < 2 ^ 64) :
    ((((TimeTracker.create R E p u).run cs).get now out_ss).1 = true ↔
      ((TimeTracker.create R E p u).run cs).m_timeStart ≠ 0
      ∧ toMilliseconds (now - ((TimeTracker.create R E p u).run cs).m_elapseTimeStart)
          ≥ (((TimeTracker.create R E p u).run cs).m_executionCountIntervalInSeconds : ℚ) * 1000
      ∧ ((TimeTracker.create R E p u).run cs).m_vecExecutionOneSec.length + 1
          = ((TimeTracker.create R E p u).run cs).m_vecExecutionDepth)
    ∧ ((((TimeTracker.create R E p u).run cs).get now out_ss).1 = true →
        deliveredReport (((TimeTracker.create R E p u).run cs).get now out_ss)
          = ((((TimeTracker.create R E p u).run cs).rendered now).reportOn
            (((TimeTracker.create R E p u).run cs).sink out_ss)).str
        ∧ (((TimeTracker.create R E p u).run cs).get now out_ss).2.1.m_vecExecutionOneSec = []
        ∧ (((TimeTracker.create R E p u).run cs).get now out_ss).2.1.m_executionCountTotalInOneSec = 0
        ∧ (((TimeTracker.create R E p u).run cs).get now out_ss).2.1.m_executionCountTotalInNsec = 0
        ∧ (((TimeTracker.create R E p u).run cs).get now out_ss).2.1.m_executionTimeTotalInMilliseconds = 0
        ∧ (((TimeTracker.create R E p u).run cs).get now out_ss).2.1.m_timeMin = DBL_MAX
        ∧ (((TimeTracker.create R E p u).run cs).get now out_ss).2.1.m_timeMax = DBL_MIN
        ∧ (((TimeTracker.create R E p u).run cs).get now out_ss).2.1.m_executionCountTotalAllTheTime
            = ((TimeTracker.create R E p u).run cs).m_executionCountTotalAllTheTime
              + (((TimeTracker.create R E p u).run cs).rendered now).m_executionCountTotalInNsec) := by
  rw [TimeTracker.samples_snoc] at hn
  obtain ⟨hinv, hroom⟩ := TimeTracker.run_inv R E p u cs (by omega)
  generalize (TimeTracker.create R E p u).samples cs = n at hn hinv
  generalize (TimeTracker.create R E p u).run cs = s at hn hinv hroom ⊢
  have hroll : s.rollsOver now ↔ toMilliseconds (now - s.m_elapseTimeStart)
      ≥ (s.m_executionCountIntervalInSeconds : ℚ) * 1000 := Iff.rfl
  rw [← hroll]
  by_cases h0 : s.m_timeStart = 0
  · rw [s.get_first now out_ss h0]; simp [h0]
  · simp only [TimeTracker.recordsSample, h0, ne_eq, not_false_eq_true, decide_True, if_true] at hn
    have hren := TimeTracker.rendered_inv hinv hn now
    have hf := s.rendered_frame now
    have hc := hren.count
    rw [hf.2.2.2.1, hf.2.2.2.2.2.1] at hc
    have hw : wrap64 (s.m_executionCountTotalAllTheTime
        + (s.rendered now).m_executionCountTotalInNsec)
        = s.m_executionCountTotalAllTheTime + (s.rendered now).m_executionCountTotalInNsec :=
      wrap64_of_lt (by omega)
    by_cases hr : s.rollsOver now
    · by_cases hd : s.m_vecExecutionOneSec.length + 1 < s.m_vecExecutionDepth
      · rw [s.get_roll now out_ss h0 hr hd]
        simp only [Bool.false_eq_true, false_iff, false_implies, and_true, not_and]
        intro _ _; omega
      · cases out_ss with
        | none =>
          rw [s.get_report_none now h0 hr (by omega)]
          refine ⟨⟨fun _ => ⟨h0, hr, by omega⟩, fun _ => rfl⟩, fun _ => ?_⟩
          refine ⟨rfl, rfl, hf.2.2.2.2.2.1, rfl, rfl, rfl, rfl, ?_⟩
          show wrap64 ((s.rendered now).m_executionCountTotalAllTheTime
            + (s.rendered now).m_executionCountTotalInNsec) = _
          rw [hf.2.2.2.1]; exact hw
        | some content =>
          rw [s.get_report_some now content h0 hr (by omega)]
          refine ⟨⟨fun _ => ⟨h0, hr, by omega⟩, fun _ => rfl⟩, fun _ => ?_⟩
          refine ⟨rfl, rfl, hf.2.2.2.2.2.1, rfl, rfl, rfl, rfl, ?_⟩
          show wrap64 ((s.rendered now).m_executionCountTotalAllTheTime
            + (s.rendered now).m_executionCountTotalInNsec) = _
          rw [hf.2.2.2.1]; exact hw
    · rw [s.get_quiet now out_ss h0 hr]
      simp [hr]

/-- Instance of C1: report interval 1 s, `set` at tick 1 and `get` one second later; the
call returns true, the vector is empty afterwards and the lifetime total is 1. -/
theorem get_true_iff_and_resets_witness :
    (TimeTracker.create 1 1 "" "ms").samples ([Call.set 1] ++ [Call.get 1000000001 none]) < 2 ^ 64
    ∧ (((TimeTracker.create 1 1 "" "ms").run [Call.set 1]).get 1000000001 none).1 = true
    ∧ (((TimeTracker.create 1 1 "" "ms").run [Call.set 1]).get 1000000001 none).2.1.m_vecExecutionOneSec
        = []
    ∧ (((TimeTracker.create 1 1 "" "ms").run [Call.set 1]).get 1000000001
        none).2.1.m_executionCountTotalAllTheTime = 1 := by
  have hn : (TimeTracker.create 1 1 "" "ms").samples ([Call.set 1] ++ [Call.get 1000000001 none])
      < 2 ^ 64 := by
    norm_num [TimeTracker.samples, TimeTracker.recordsSample, TimeTracker.step, TimeTracker.set,
      TimeTracker.create, MODE_PERFORMANCE]
  have h := get_true_iff_and_resets 1 1 "" "ms" [Call.set 1] 1000000001 none hn
  have ht := h.1.mpr (by
    norm_num [TimeTracker.run, TimeTracker.step, TimeTracker.set, TimeTracker.create,
      MODE_PERFORMANCE, toMilliseconds_1s])
  refine ⟨hn, ht, (h.2 ht).2.1, ?_⟩
  rw [(h.2 ht).2.2.2.2.2.2.2, (TimeTracker.rendered_stats _ _).2.1]
  norm_num [TimeTracker.run, TimeTracker.step, TimeTracker.set, TimeTracker.create,
    MODE_PERFORMANCE, wrap64]

/-! ## Facts that hold without any bound on the number of samples -/

/-- A `get` call returns true only on the report path. -/
theorem TimeTracker.get_true_cases {s : TimeTracker} {now : Int} {out_ss : Option StringStream}
    (h : (s.get now out_ss).1 = true) :
    s.m_timeStart ≠ 0 ∧ s.rollsOver now
      ∧ s.m_vecExecutionDepth ≤ s.m_vecExecutionOneSec.length + 1 := by
  by_cases h0 : s.m_timeStart = 0
  · rw [s.get_first now out_ss h0] at h; simp at h
  · by_cases hr : s.rollsOver now
    · by_cases hd : s.m_vecExecutionOneSec.length + 1 < s.m_vecExecutionDepth
      · rw [s.get_roll now out_ss h0 hr hd] at h; simp at h
      · exact ⟨h0, hr, by omega⟩
    · rw [s.get_quiet now out_ss h0 hr] at h; simp at h

/-- When a `get` call returns true, in terms of the state before the call. -/
theorem TimeTracker.get_true_iff (s : TimeTracker) (now : Int) (out_ss : Option StringStream) :
    (s.get now out_ss).1 = true
      ↔ s.m_timeStart ≠ 0 ∧ s.rollsOver now
        ∧ s.m_vecExecutionDepth ≤ s.m_vecExecutionOneSec.length + 1 := by
  refine ⟨TimeTracker.get_true_cases, fun ⟨h0, hr, hd⟩ => ?_⟩
  cases out_ss with
  | none => rw [s.get_report_none now h0 hr hd]
  | some target => rw [s.get_report_some now target h0 hr hd]

/-- On the report path the text handed out is the report of the state at line 296. -/
theorem TimeTracker.get_delivered {s : TimeTracker} {now : Int} {out_ss : Option StringStream}
    (h : (s.get now out_ss).1 = true) :
    deliveredReport (s.get now out_ss) = ((s.rendered now).reportOn (s.sink out_ss)).str := by
  obtain ⟨h0, hr, hd⟩ := TimeTracker.get_true_cases h
  cases out_ss with
  | none => rw [s.get_report_none now h0 hr hd]; rfl
  | some content => rw [s.get_report_some now content h0 hr hd]; rfl

theorem TimeTracker.get_room (s : TimeTracker) (now : Int) (out_ss : Option StringStream)
    (hroom : s.m_vecExecutionOneSec.length < s.m_vecExecutionDepth) :
    (s.get now out_ss).2.1.m_vecExecutionOneSec.length
      < (s.get now out_ss).2.1.m_vecExecutionDepth := by
  rw [(s.get_config now out_ss).1]
  have f := ({ s with m_timeEnd := now } : TimeTracker).record_frame
  by_cases h0 : s.m_timeStart = 0
  · rw [s.get_first now out_ss h0]; exact hroom
  · by_cases hr : s.rollsOver now
    · by_cases hd : s.m_vecExecutionOneSec.length + 1 < s.m_vecExecutionDepth
      · rw [s.get_roll now out_ss h0 hr hd]
        show (s.rendered now).m_vecExecutionOneSec.length < _
        rw [s.rendered_vec now, List.length_append, List.length_singleton]
        exact hd
      · cases out_ss with
        | none =>
          rw [s.get_report_none now h0 hr (by omega)]
          show ([] : List Nat).length < _
          simp only [List.length_nil]; omega
        | some content =>
          rw [s.get_report_some now content h0 hr (by omega)]
          show ([] : List Nat).length < _
          simp only [List.length_nil]; omega
    · rw [s.get_quiet now out_ss h0 hr, f.2.2.2.1]; exact hroom

/-- No call changes the configuration. -/
theorem TimeTracker.step_config (s : TimeTracker) (c : Call) :
    (s.step c).m_vecExecutionDepth = s.m_vecExecutionDepth
    ∧ (s.step c).m_executionCountIntervalInSeconds = s.m_executionCountIntervalInSeconds
    ∧ (s.step c).m_reportIntervalInSeconds = s.m_reportIntervalInSeconds := by
  cases c with
  | set now => exact ⟨(s.set_frame now).2.1, (s.set_frame now).2.2.2.2.1, (s.set_frame now).2.2.2.2.2⟩
  | get now out_ss => exact s.get_config now out_ss
  | stop => exact ⟨s.stop_frame.1, s.stop_frame.2.2.2.2.1, s.stop_frame.2.2.2.2.2.1⟩

theorem TimeTracker.run_config (s : TimeTracker) (cs : List Call) :
    (s.run cs).m_vecExecutionDepth = s.m_vecExecutionDepth
    ∧ (s.run cs).m_executionCountIntervalInSeconds = s.m_executionCountIntervalInSeconds
    ∧ (s.run cs).m_reportIntervalInSeconds = s.m_reportIntervalInSeconds := by
  induction cs generalizing s with
  | nil => exact ⟨rfl, rfl, rfl⟩
  | cons c cs ih =>
    rw [TimeTracker.run_cons]
    have h1 := ih (s.step c)
    have h2 := s.step_config c
    exact ⟨h1.1.trans h2.1, h1.2.1.trans h2.2.1, h1.2.2.trans h2.2.2⟩

theorem TimeTracker.step_room (s : TimeTracker) (c : Call)
    (hroom : s.m_vecExecutionOneSec.length < s.m_vecExecutionDepth) :
    (s.step c).m_vecExecutionOneSec.length < (s.step c).m_vecExecutionDepth := by
  cases c with
  | set now =>
    show (s.set now).m_vecExecutionOneSec.length < (s.set now).m_vecExecutionDepth
    rw [(s.set_frame now).1, (s.set_frame now).2.1]; exact hroom
  | get now out_ss => exact s.get_room now out_ss hroom
  | stop =>
    show s.stop.2.m_vecExecutionOneSec.length < s.stop.2.m_vecExecutionDepth
    rw [s.stop_frame.1, s.stop_frame.2.2.2.2.2.2.1, List.length_nil]; omega

theorem TimeTracker.run_room (s : TimeTracker) (cs : List Call)
    (hroom : s.m_vecExecutionOneSec.length < s.m_vecExecutionDepth) :
    (s.run cs).m_vecExecutionOneSec.length < (s.run cs).m_vecExecutionDepth := by
  induction cs generalizing s with
  | nil => exact hroom
  | cons c cs ih => rw [TimeTracker.run_cons]; exact ih (s.step c) (s.step_room c hroom)

theorem TimeTracker.create_room (R E : Nat) (p u : String) :
    (TimeTracker.create R E p u).m_vecExecutionOneSec.length
      < (TimeTracker.create R E p u).m_vecExecutionDepth := by
  have := TimeTracker.create_depth_pos R E p u
  show ([] : List Nat).length < _
  simp only [List.length_nil]; omega

/-- For a valid pair of intervals the constructor keeps both and the depth is their
quotient. -/
theorem TimeTracker.create_valid (R E : Nat) (p u : String) (hR : 1 ≤ R) (hE : 1 ≤ E)
    (hdvd : E ∣ R) :
    (TimeTracker.create R E p u).m_reportIntervalInSeconds = R
    ∧ (TimeTracker.create R E p u).m_executionCountIntervalInSeconds = E
    ∧ (TimeTracker.create R E p u).m_vecExecutionDepth = R / E := by
  have h1 : R ≠ 0 := by omega
  have h2 : ¬ (E = 0 ∨ R < E ∨ R % E ≠ 0) := by
    have := Nat.le_of_dvd (by omega) hdvd
    have := Nat.mod_eq_zero_of_dvd hdvd
    omega
  simp only [TimeTracker.create, h1, h2, if_false, and_self]

/-! ## Sample runs

The runs evaluated below start from a fresh tracker `s`; the clock readings are
variables and the converted tick differences are given by hypotheses. -/

theorem two_second_report_aux (s : TimeTracker) (t1 t2 t3 : Int) (out_ss : Option StringStream)
    (hf : s.Fresh) (c1 : s.m_executionCountIntervalInSeconds = 1)
    (c2 : s.m_vecExecutionDepth = 2) (ht : t1 ≠ 0) (he1 : toMilliseconds (t2 - t1) = 1000)
    (he2 : toMilliseconds (t3 - t2) = 1000) :
    (((s.set t1).get t2 none).2.1.get t3 out_ss).1 = true
    ∧ ((s.set t1).get t2 none).2.1.m_vecExecutionOneSec = [1] := by
  rw [TimeTracker.get_true_iff, TimeTracker.rollsOver]
  norm_num [TimeTracker.get_eq, TimeTracker.set_eq, TimeTracker.rendered, TimeTracker.pushCount,
    TimeTracker.record_eq, hf.mode, hf.elapseTimeStart, hf.inOneSec, hf.vec, c1, c2, ht, he1, he2,
    ONE_SEC_IN_MILLISECOND, MODE_PERFORMANCE, MODE_LOOP, wrap64]

/-- With report interval 2 s and sub-interval 1 s, the first of two `get` calls one
second apart stores the count 1 and the second one returns true. -/
theorem two_second_report (p : String) (out_ss : Option StringStream) :
    (((TimeTracker.create 2 1 p "ms").run
      [Call.set 1, Call.get 1000000001 none]).get 2000000001 out_ss).1 = true
    ∧ ((TimeTracker.create 2 1 p "ms").run
      [Call.set 1, Call.get 1000000001 none]).m_vecExecutionOneSec = [1] := by
  rw [TimeTracker.run_cons, TimeTracker.run_cons, TimeTracker.run_nil, TimeTracker.step_set,
    TimeTracker.step_get]
  exact two_second_report_aux _ 1 1000000001 2000000001 out_ss
    (TimeTracker.create_fresh 2 1 p "ms") rfl rfl (by decide) (by norm_num [toMilliseconds_1s])
    (by norm_num [toMilliseconds_1s])

theorem two_reports_aux (s : TimeTracker) (t1 t2 t3 : Int) (hf : s.Fresh)
    (c1 : s.m_executionCountIntervalInSeconds = 1) (c2 : s.m_vecExecutionDepth = 1)
    (ht : t1 ≠ 0) (he1 : toMilliseconds (t2 - t1) = 1000)
    (he2 : toMilliseconds (t3 - t2) = 1000) :
    (((s.set t1).get t2 none).2.1.get t3 none).1 = true
    ∧ (if ((s.set t1).get t2 none).1 then some t2 else none) = some t2 := by
  norm_num [TimeTracker.get_eq, TimeTracker.set_eq, TimeTracker.rendered, TimeTracker.pushCount,
    TimeTracker.record_eq, TimeTracker.reset, hf.mode, hf.elapseTimeStart, hf.vec, c1, c2, ht,
    he1, he2, ONE_SEC_IN_MILLISECOND, MODE_PERFORMANCE, MODE_LOOP]

/-- With report interval 1 s, two `get` calls one second apart both return true. -/
theorem two_reports :
    (((TimeTracker.create 1 1 "" "ms").run
        [Call.set 1, Call.get 1000000001 none]).get 2000000001 none).1 = true
    ∧ (TimeTracker.create 1 1 "" "ms").lastReport none [Call.set 1, Call.get 1000000001 none]
        = some 1000000001 := by
  rw [TimeTracker.run_cons, TimeTracker.run_cons, TimeTracker.run_nil, TimeTracker.step_set,
    TimeTracker.step_get, TimeTracker.lastReport_cons, TimeTracker.lastReport_cons,
    TimeTracker.lastReport_nil, TimeTracker.reportStep_set, TimeTracker.reportStep_get,
    TimeTracker.step_set]
  exact two_reports_aux _ 1 1000000001 2000000001 (TimeTracker.create_fresh 1 1 "" "ms")
    rfl rfl (by decide) (by norm_num [toMilliseconds_1s]) (by norm_num [toMilliseconds_1s])

theorem one_sample_stop_aux (s : TimeTracker) (t1 t2 : Int) (hf : s.Fresh)
    (c1 : s.m_executionCountIntervalInSeconds = 1) (ht : t1 ≠ 0)
    (hd : toMilliseconds (t2 - t1) = 3) :
    ((s.set t1).get t2 none).2.1.stop.1 = true
    ∧ (if ((s.set t1).get t2 none).1 then []
        else if (s.set t1).m_timeStart = 0 then ([] : List ℚ)
        else [] ++ [toMilliseconds (t2 - (s.set t1).m_timeStart)]) = [3] := by
  norm_num [TimeTracker.get_eq, TimeTracker.set_eq, TimeTracker.stop_eq, TimeTracker.flush,
    TimeTracker.getReport, TimeTracker.rendered, TimeTracker.pushCount,
    TimeTracker.record_eq, TimeTracker.reset, hf.mode, hf.elapseTimeStart, hf.inOneSec, hf.vec,
    c1, ht, hd, ONE_SEC_IN_MILLISECOND, MODE_PERFORMANCE, MODE_LOOP, wrap64]

/-- With report interval 2 s, after one sample of 3 ms `stop` prints a report, and the
period holds that one duration. -/
theorem one_sample_stop :
    ((TimeTracker.create 2 1 "" "ms").run [Call.set 1, Call.get 3000001 none]).stop.1 = true
    ∧ (TimeTracker.create 2 1 "" "ms").periodDurations [] [Call.set 1, Call.get 3000001 none]
        = [3] := by
  rw [TimeTracker.run_cons, TimeTracker.run_cons, TimeTracker.run_nil, TimeTracker.step_set,
    TimeTracker.step_get, TimeTracker.periodDurations_cons, TimeTracker.periodDurations_cons,
    TimeTracker.periodDurations_nil, TimeTracker.durationsStep_set,
    TimeTracker.durationsStep_get, TimeTracker.step_set]
  exact one_sample_stop_aux _ 1 3000001 (TimeTracker.create_fresh 2 1 "" "ms") rfl (by decide)
    (by norm_num [toMilliseconds_3ms])

/-! ## C2: number of entries of a report rendered by `get` -/

/-- C2. For a construction with `report_interval >= 1`, `subinterval >= 1` and
`subinterval` dividing `report_interval`, after any sequence of `set`/`get`/`stop`
calls with arbitrary clock readings, a `get` call that returns true hands out the
report of a state whose vector holds exactly `report_interval / subinterval` counts. -/
theorem report_has_capacity_entries (R E : Nat) (p u : String) (cs : List Call) (now : Int)
    (out_ss : Option StringStream) (hR : 1 ≤ R) (hE : 1 ≤ E) (hdvd : E ∣ R)
    (hret : (((TimeTracker.create R E p u).run cs).get now out_ss).1 = true) :
    deliveredReport (((TimeTracker.create R E p u).run cs).get now out_ss)
      = ((((TimeTracker.create R E p u).run cs).rendered now).reportOn
            (((TimeTracker.create R E p u).run cs).sink out_ss)).str
    ∧ (((TimeTracker.create R E p u).run cs).rendered now).m_vecExecutionOneSec.length = R / E := by
  refine ⟨TimeTracker.get_delivered hret, ?_⟩
  have hroom := (TimeTracker.create R E p u).run_room cs (TimeTracker.create_room R E p u)
  have hcfg := ((TimeTracker.create R E p u).run_config cs).1
  rw [(TimeTracker.create_valid R E p u hR hE hdvd).2.2] at hcfg
  obtain ⟨-, -, hd⟩ := TimeTracker.get_true_cases hret
  rw [TimeTracker.rendered_vec, List.length_append, List.length_singleton]
  omega

/-- Instance of C2: report interval 2 s, sub-interval 1 s; the second roll-over renders a
report with two entries. -/
theorem report_has_capacity_entries_witness :
    1 ≤ 2 ∧ 1 ≤ 1 ∧ 1 ∣ 2
    ∧ (((TimeTracker.create 2 1 "" "ms").run
          [Call.set 1, Call.get 1000000001 none]).get 2000000001 none).1 = true
    ∧ (((TimeTracker.create 2 1 "" "ms").run
          [Call.set 1, Call.get 1000000001 none]).rendered 2000000001).m_vecExecutionOneSec.length
        = 2 / 1 := by
  have hret := (two_second_report "" none).1
  exact ⟨by decide, by decide, by decide, hret,
    (report_has_capacity_entries 2 1 "" "ms" [Call.set 1, Call.get 1000000001 none] 2000000001
      none (by decide) (by decide) (by decide) hret).2⟩

/-! ## Reports rendered by `stop` -/

/-- When `stop` prints a report, it is the report of the flushed state, whose vector is
not empty. -/
theorem TimeTracker.stop_rendered {s : TimeTracker} (h : s.stop.1 = true) :
    s.stop.2.m_report = s.flush.reportOn s.m_report ∧ s.flush.m_vecExecutionOneSec ≠ [] := by
  by_cases hv : s.flush.m_vecExecutionOneSec = []
  · have : s.stop.1 = false := by
      show (s.flush.getReport s.flush.m_report).1 = false
      rw [s.flush.getReport_empty _ hv]
    rw [this] at h; simp at h
  · refine ⟨?_, hv⟩
    show (s.flush.getReport s.flush.m_report).2.2 = _
    rw [s.flush.getReport_nonempty _ hv, s.flush_report]

/-- A `stop` call on a tracker whose flushed vector is not empty prints a report. -/
theorem TimeTracker.stop_true_of_nonempty {s : TimeTracker}
    (h : s.flush.m_vecExecutionOneSec ≠ []) : s.stop.1 = true := by
  show (s.flush.getReport s.flush.m_report).1 = true
  rw [s.flush.getReport_nonempty _ h]

/-! ## C3: the period count total is the sum of the stored counts -/

/-- C3. In every state reached from the constructor (fewer than `2^64` samples
recorded) `m_executionCountTotalInNsec` is the sum of the entries of
`m_vecExecutionOneSec`; the same holds in the state from which `stop` renders its
report and in the state from which a `get` call that returns true renders its report,
so the total printed in parentheses is the sum of the bracketed counts. -/
theorem count_total_eq_sum_of_counts (R E : Nat) (p u : String) (cs : List Call)
    (hn : (TimeTracker.create R E p u).samples cs < 2 ^ 64) :
    ((TimeTracker.create R E p u).run cs).m_executionCountTotalInNsec
      = ((TimeTracker.create R E p u).run cs).m_vecExecutionOneSec.sum
    ∧ (((TimeTracker.create R E p u).run cs).stop.1 = true →
        ((TimeTracker.create R E p u).run cs).stop.2.m_report
          = ((TimeTracker.create R E p u).run cs).flush.reportOn
              ((TimeTracker.create R E p u).run cs).m_report
        ∧ ((TimeTracker.create R E p u).run cs).flush.m_executionCountTotalInNsec
          = ((TimeTracker.create R E p u).run cs).flush.m_vecExecutionOneSec.sum)
    ∧ (∀ (now : Int) (out_ss : Option StringStream),
        (TimeTracker.create R E p u).samples (cs ++ [Call.get now out_ss]) < 2 ^ 64 →
        (((TimeTracker.create R E p u).run cs).get now out_ss).1 = true →
        deliveredReport (((TimeTracker.create R E p u).run cs).get now out_ss)
          = ((((TimeTracker.create R E p u).run cs).rendered now).reportOn
            (((TimeTracker.create R E p u).run cs).sink out_ss)).str
        ∧ (((TimeTracker.create R E p u).run cs).rendered now).m_executionCountTotalInNsec
          = (((TimeTracker.create R E p u).run cs).rendered now).m_vecExecutionOneSec.sum) := by
  obtain ⟨hinv, -⟩ := TimeTracker.run_inv R E p u cs hn
  refine ⟨hinv.total, fun hs => ⟨(TimeTracker.stop_rendered hs).1,
    (TimeTracker.flush_inv hinv hn).total⟩, fun now out_ss hn2 hret => ?_⟩
  refine ⟨TimeTracker.get_delivered hret, ?_⟩
  obtain ⟨h0, -, -⟩ := TimeTracker.get_true_cases hret
  rw [TimeTracker.samples_snoc] at hn2
  simp only [TimeTracker.recordsSample, h0, ne_eq, not_false_eq_true, decide_True, if_true] at hn2
  exact (TimeTracker.rendered_inv hinv hn2 now).total

/-- Instance of C3 after one `set` and one `get` that rolls the sub-interval over. -/
theorem count_total_eq_sum_of_counts_witness :
    (TimeTracker.create 2 1 "" "ms").samples [Call.set 1, Call.get 1000000001 none] < 2 ^ 64
    ∧ ((TimeTracker.create 2 1 "" "ms").run
        [Call.set 1, Call.get 1000000001 none]).m_executionCountTotalInNsec
      = ((TimeTracker.create 2 1 "" "ms").run
        [Call.set 1, Call.get 1000000001 none]).m_vecExecutionOneSec.sum :=
  have hn : (TimeTracker.create 2 1 "" "ms").samples [Call.set 1, Call.get 1000000001 none]
      < 2 ^ 64 :=
    lt_of_le_of_lt (TimeTracker.samples_le_length _ _) (by decide)
  ⟨hn, (count_total_eq_sum_of_counts 2 1 "" "ms" [Call.set 1, Call.get 1000000001 none] hn).1⟩

/-! ## The count total of a rendered report -/

/-- In a state that satisfies the invariant and has a non-empty vector the count total
is positive, and so is the double it converts to at line 214. -/
theorem TimeTracker.Inv.count_pos {s : TimeTracker} {n : Nat} (h : s.Inv n)
    (hv : s.m_vecExecutionOneSec ≠ []) :
    1 ≤ s.m_executionCountTotalInNsec
    ∧ 1 ≤ roundDouble (s.m_executionCountTotalInNsec : ℚ) := by
  have hpos : 1 ≤ s.m_executionCountTotalInNsec := by
    rw [h.total]
    obtain ⟨c, cs, hcs⟩ := List.exists_cons_of_ne_nil hv
    have hc := h.entries c (by rw [hcs]; exact List.mem_cons_self c cs)
    rw [hcs, List.sum_cons]; omega
  refine ⟨hpos, ?_⟩
  have h1 : ((1 : Nat) : ℚ) ≤ (s.m_executionCountTotalInNsec : ℚ) := by exact_mod_cast hpos
  have := le_roundDouble (s.m_executionCountTotalInNsec : ℚ) 1 (by norm_num) h1
  simpa using this

/-! ## C5: the vector never exceeds its capacity -/

/-- C5. For every tracker built by the constructor and every sequence of
`set`/`get`/`stop` calls, the capacity `m_vecExecutionDepth` is the quotient of the two
configured intervals and stays as constructed, the vector is strictly shorter than the
capacity after every call, and at the two points inside an operation where the vector
has just grown (after the push in `get` and after the unchecked push in `stop`) its
length is at most the capacity. Every other point inside an operation has the vector
of the state before the call or the empty vector left by `getReport`. -/
theorem vector_within_capacity (R E : Nat) (p u : String) (cs : List Call) :
    (TimeTracker.create R E p u).m_vecExecutionDepth
      = (TimeTracker.create R E p u).m_reportIntervalInSeconds
        / (TimeTracker.create R E p u).m_executionCountIntervalInSeconds
    ∧ ((TimeTracker.create R E p u).run cs).m_vecExecutionDepth
      = (TimeTracker.create R E p u).m_vecExecutionDepth
    ∧ ((TimeTracker.create R E p u).run cs).m_vecExecutionOneSec.length
      < (TimeTracker.create R E p u).m_vecExecutionDepth
    ∧ (∀ now : Int,
        (((TimeTracker.create R E p u).run cs).rendered now).m_vecExecutionOneSec.length
          ≤ (TimeTracker.create R E p u).m_vecExecutionDepth)
    ∧ ((TimeTracker.create R E p u).run cs).flush.m_vecExecutionOneSec.length
        ≤ (TimeTracker.create R E p u).m_vecExecutionDepth
    ∧ (∀ out_str : StringStream,
        (((TimeTracker.create R E p u).run cs).flush.getReport out_str).2.1.m_vecExecutionOneSec
          = [])
    ∧ ((TimeTracker.create R E p u).run cs).stop.2.m_vecExecutionOneSec = [] := by
  have hroom := (TimeTracker.create R E p u).run_room cs (TimeTracker.create_room R E p u)
  have hcfg := ((TimeTracker.create R E p u).run_config cs).1
  rw [hcfg] at hroom
  refine ⟨rfl, hcfg, hroom, fun now => ?_, ?_, fun out_str => TimeTracker.getReport_vec _ _,
    (TimeTracker.stop_frame _).2.2.2.2.2.2.1⟩
  · rw [TimeTracker.rendered_vec, List.length_append, List.length_singleton]; omega
  · simp only [TimeTracker.flush]
    split_ifs
    · simp only [TimeTracker.pushCount, List.length_append, List.length_singleton]; omega
    · omega

/-! ## C6: `get` before any `set` -/

/-- The mode after a `get` call. -/
theorem TimeTracker.get_mode (s : TimeTracker) (now : Int) (out_ss : Option StringStream) :
    (s.get now out_ss).2.1.m_mode = if s.m_timeStart = 0 then MODE_LOOP else s.m_mode := by
  have f := ({ s with m_timeEnd := now } : TimeTracker).record_frame
  by_cases h0 : s.m_timeStart = 0
  · rw [s.get_first now out_ss h0, if_pos h0]
  · rw [if_neg h0]
    by_cases hr : s.rollsOver now
    · by_cases hd : s.m_vecExecutionOneSec.length + 1 < s.m_vecExecutionDepth
      · rw [s.get_roll now out_ss h0 hr hd]; exact f.1
      · cases out_ss with
        | none => rw [s.get_report_none now h0 hr (by omega)]; exact f.1
        | some content => rw [s.get_report_some now content h0 hr (by omega)]; exact f.1
    · rw [s.get_quiet now out_ss h0 hr]; exact f.1

/-- In loop mode `set` changes nothing. -/
theorem TimeTracker.set_of_loop (s : TimeTracker) (now : Int) (h : s.m_mode = MODE_LOOP) :
    s.set now = s := by
  simp [TimeTracker.set, h, MODE_LOOP, MODE_PERFORMANCE]

/-- Loop mode is never left. -/
theorem TimeTracker.step_loop (s : TimeTracker) (c : Call) (h : s.m_mode = MODE_LOOP) :
    (s.step c).m_mode = MODE_LOOP := by
  cases c with
  | set now => show (s.set now).m_mode = _; rw [s.set_of_loop now h]; exact h
  | get now out_ss =>
    show (s.get now out_ss).2.1.m_mode = _
    rw [s.get_mode now out_ss]; split_ifs
    · rfl
    · exact h
  | stop => show s.stop.2.m_mode = _; rw [s.stop_frame.2.1]; exact h

theorem TimeTracker.run_loop (s : TimeTracker) (cs : List Call) (h : s.m_mode = MODE_LOOP) :
    (s.run cs).m_mode = MODE_LOOP := by
  induction cs generalizing s with
  | nil => exact h
  | cons c cs ih => rw [TimeTracker.run_cons]; exact ih (s.step c) (s.step_loop c h)

/-- C6. On a freshly constructed tracker a `get` call, at any clock reading, returns
false, records no sample, switches the mode to `MODE_LOOP` and leaves the counters, the
duration total, minimum, maximum, the vector and both report streams as they were.
After any further sequence of calls the mode is still `MODE_LOOP`, and every `set` call
made then returns the tracker unchanged. -/
theorem get_before_set_enters_loop (R E : Nat) (p u : String) (now : Int)
    (out_ss : Option StringStream) (cs : List Call) (t : Int) :
    ((TimeTracker.create R E p u).get now out_ss).1 = false
    ∧ (TimeTracker.create R E p u).recordsSample (Call.get now out_ss) = false
    ∧ ((TimeTracker.create R E p u).get now out_ss).2.1.m_mode = MODE_LOOP
    ∧ ((TimeTracker.create R E p u).get now out_ss).2.1.m_executionCountTotalAllTheTime = 0
    ∧ ((TimeTracker.create R E p u).get now out_ss).2.1.m_executionCountTotalInOneSec = 0
    ∧ ((TimeTracker.create R E p u).get now out_ss).2.1.m_executionCountTotalInNsec = 0
    ∧ ((TimeTracker.create R E p u).get now out_ss).2.1.m_executionTimeTotalInMilliseconds = 0
    ∧ ((TimeTracker.create R E p u).get now out_ss).2.1.m_timeMin = DBL_MAX
    ∧ ((TimeTracker.create R E p u).get now out_ss).2.1.m_timeMax = DBL_MIN
    ∧ ((TimeTracker.create R E p u).get now out_ss).2.1.m_vecExecutionOneSec = []
    ∧ ((TimeTracker.create R E p u).get now out_ss).2.1.m_report = StringStream.empty
    ∧ ((TimeTracker.create R E p u).get now out_ss).2.2 = out_ss
    ∧ (((TimeTracker.create R E p u).get now out_ss).2.1.run cs).m_mode = MODE_LOOP
    ∧ (((TimeTracker.create R E p u).get now out_ss).2.1.run cs).set t
        = ((TimeTracker.create R E p u).get now out_ss).2.1.run cs := by
  have h0 : (TimeTracker.create R E p u).m_timeStart = 0 := rfl
  have hm : ((TimeTracker.create R E p u).get now out_ss).2.1.m_mode = MODE_LOOP := by
    rw [TimeTracker.get_mode, if_pos h0]
  have hl := TimeTracker.run_loop _ cs hm
  refine ⟨?_, ?_, hm, ?_, ?_, ?_, ?_, ?_, ?_, ?_, ?_, ?_, hl, TimeTracker.set_of_loop _ t hl⟩
  · rw [TimeTracker.get_first _ now out_ss h0]
  · simp [TimeTracker.recordsSample, h0]
  all_goals first
    | (rw [TimeTracker.get_first _ now out_ss h0]; done)
    | (rw [TimeTracker.get_first _ now out_ss h0]; rfl)

/-! ## C7 and C8: which duration a `get` call measures -/

theorem lastSet_snoc (cs : List Call) (c : Call) :
    lastSet (cs ++ [c]) = match c with
      | .set now => some now
      | _ => lastSet cs := by
  simp only [lastSet, List.foldl_append, List.foldl_cons, List.foldl_nil]

theorem lastGet_snoc (cs : List Call) (c : Call) :
    lastGet (cs ++ [c]) = match c with
      | .get now _ => some now
      | _ => lastGet cs := by
  simp only [lastGet, List.foldl_append, List.foldl_cons, List.foldl_nil]

/-- The start time after a `get` call. -/
theorem TimeTracker.get_timeStart (s : TimeTracker) (now : Int) (out_ss : Option StringStream) :
    (s.get now out_ss).2.1.m_timeStart
      = if s.m_timeStart = 0 then now else if s.m_mode = MODE_LOOP then now else s.m_timeStart := by
  have f := (s.rendered_frame now).2.2.2.2.2.2.2
  have g := ({ s with m_timeEnd := now } : TimeTracker).record_timeStart
  by_cases h0 : s.m_timeStart = 0
  · rw [s.get_first now out_ss h0, if_pos h0]
  · rw [if_neg h0]
    by_cases hr : s.rollsOver now
    · by_cases hd : s.m_vecExecutionOneSec.length + 1 < s.m_vecExecutionDepth
      · rw [s.get_roll now out_ss h0 hr hd]; exact f
      · cases out_ss with
        | none => rw [s.get_report_none now h0 hr (by omega)]; exact f
        | some content => rw [s.get_report_some now content h0 hr (by omega)]; exact f
    · rw [s.get_quiet now out_ss h0 hr]; exact g

/-- The end time and, when a sample is recorded, the measured duration after a `get`
call. -/
theorem TimeTracker.get_measure (s : TimeTracker) (now : Int) (out_ss : Option StringStream) :
    (s.get now out_ss).2.1.m_timeEnd = now
    ∧ (s.m_timeStart ≠ 0 →
        (s.get now out_ss).2.1.m_executionTime = toMilliseconds (now - s.m_timeStart)) := by
  have f := s.rendered_frame now
  have g := ({ s with m_timeEnd := now } : TimeTracker).record_frame
  have e := ({ s with m_timeEnd := now } : TimeTracker).record_executionTime
  by_cases h0 : s.m_timeStart = 0
  · rw [s.get_first now out_ss h0]; exact ⟨rfl, fun h => absurd h0 h⟩
  · by_cases hr : s.rollsOver now
    · by_cases hd : s.m_vecExecutionOneSec.length + 1 < s.m_vecExecutionDepth
      · rw [s.get_roll now out_ss h0 hr hd]; exact ⟨f.2.1, fun _ => f.2.2.2.2.2.2.1⟩
      · cases out_ss with
        | none =>
          rw [s.get_report_none now h0 hr (by omega)]; exact ⟨f.2.1, fun _ => f.2.2.2.2.2.2.1⟩
        | some content =>
          rw [s.get_report_some now content h0 hr (by omega)]
          exact ⟨f.2.1, fun _ => f.2.2.2.2.2.2.1⟩
    · rw [s.get_quiet now out_ss h0 hr]; exact ⟨g.2.2.2.2.2.1, fun _ => e⟩

/-- The set fields after a `set` call in performance mode. -/
theorem TimeTracker.set_of_performance (s : TimeTracker) (now : Int)
    (h : s.m_mode = MODE_PERFORMANCE) : (s.set now).m_timeStart = now := by
  simp only [TimeTracker.set, h, if_true]
  split_ifs <;> rfl

/-- How the mode and the two time stamps of a tracker relate to the calls made on it
since construction. -/
theorem TimeTracker.run_times (R E : Nat) (p u : String) (cs : List Call) :
    (((TimeTracker.create R E p u).run cs).m_mode = MODE_PERFORMANCE
      ∨ ((TimeTracker.create R E p u).run cs).m_mode = MODE_LOOP)
    ∧ (((TimeTracker.create R E p u).run cs).m_mode = MODE_PERFORMANCE →
        ((TimeTracker.create R E p u).run cs).m_timeStart = (lastSet cs).getD 0)
    ∧ ((TimeTracker.create R E p u).run cs).m_timeEnd = (lastGet cs).getD 0
    ∧ (((TimeTracker.create R E p u).run cs).m_mode = MODE_LOOP →
        ((TimeTracker.create R E p u).run cs).m_timeStart
          = ((TimeTracker.create R E p u).run cs).m_timeEnd
        ∧ lastGet cs ≠ none) := by
  have hne : MODE_LOOP ≠ MODE_PERFORMANCE := by decide
  induction cs using List.reverseRecOn with
  | nil =>
    exact ⟨Or.inl rfl, fun _ => rfl, rfl,
      fun h => absurd h hne.symm⟩
  | append_singleton cs c ih =>
    obtain ⟨hmode, hperf, hend, hloop⟩ := ih
    rw [TimeTracker.run_snoc, lastSet_snoc, lastGet_snoc]
    generalize (TimeTracker.create R E p u).run cs = s at hmode hperf hend hloop ⊢
    cases c with
    | set now =>
      have f := s.set_frame now
      show ((s.set now).m_mode = _ ∨ (s.set now).m_mode = _)
        ∧ ((s.set now).m_mode = _ → (s.set now).m_timeStart = _)
        ∧ (s.set now).m_timeEnd = _
        ∧ ((s.set now).m_mode = _ → (s.set now).m_timeStart = (s.set now).m_timeEnd ∧ _)
      refine ⟨by rw [f.2.2.1]; exact hmode, fun h => ?_, by rw [f.2.2.2.1]; exact hend,
        fun h => ?_⟩
      · rw [f.2.2.1] at h
        exact s.set_of_performance now h
      · rw [f.2.2.1] at h
        rw [s.set_of_loop now h]
        exact hloop h
    | get now out_ss =>
      have hm := s.get_mode now out_ss
      have ht := s.get_timeStart now out_ss
      have he := (s.get_measure now out_ss).1
      show ((s.get now out_ss).2.1.m_mode = _ ∨ (s.get now out_ss).2.1.m_mode = _)
        ∧ ((s.get now out_ss).2.1.m_mode = _ → (s.get now out_ss).2.1.m_timeStart = _)
        ∧ (s.get now out_ss).2.1.m_timeEnd = _
        ∧ ((s.get now out_ss).2.1.m_mode = _ →
            (s.get now out_ss).2.1.m_timeStart = (s.get now out_ss).2.1.m_timeEnd ∧ _)
      rw [hm, ht, he]
      by_cases h0 : s.m_timeStart = 0
      · rw [if_pos h0, if_pos h0]
        exact ⟨Or.inr rfl, fun h => absurd h hne, rfl, fun _ => ⟨rfl, by simp⟩⟩
      · rw [if_neg h0, if_neg h0]
        refine ⟨hmode, fun h => ?_, rfl, fun h => ?_⟩
        · rw [if_neg (by rw [h]; exact hne.symm)]; exact hperf h
        · rw [if_pos h]; exact ⟨rfl, by simp⟩
    | stop =>
      have f := s.stop_frame
      show (s.stop.2.m_mode = _ ∨ s.stop.2.m_mode = _)
        ∧ (s.stop.2.m_mode = _ → s.stop.2.m_timeStart = _)
        ∧ s.stop.2.m_timeEnd = _
        ∧ (s.stop.2.m_mode = _ → s.stop.2.m_timeStart = s.stop.2.m_timeEnd ∧ _)
      rw [f.2.1, f.2.2.1, f.2.2.2.1]
      exact ⟨hmode, hperf, hend, hloop⟩

/-- Before the first `get` call the tracker is in performance mode. -/
theorem TimeTracker.run_performance (R E : Nat) (p u : String) (cs : List Call)
    (h : ∀ c ∈ cs, c.isGet = false) :
    ((TimeTracker.create R E p u).run cs).m_mode = MODE_PERFORMANCE := by
  induction cs using List.reverseRecOn with
  | nil => rfl
  | append_singleton cs c ih =>
    have h1 := ih (fun d hd => h d (List.mem_append_left _ hd))
    have h2 := h c (by simp)
    rw [TimeTracker.run_snoc]
    cases c with
    | set now => exact ((TimeTracker.set_frame _ now).2.2.1).trans h1
    | get now out_ss => simp [Call.isGet] at h2
    | stop => exact ((TimeTracker.stop_frame _).2.1).trans h1

/-- C7, as stated, fails: when the clock reading obtained by `set` is the sentinel 0,
the following `get` takes the tracker for never started, records no sample and switches
to loop mode although a `set` preceded it. -/
theorem set_reading_zero_enters_loop :
    lastSet [Call.set 0] = some 0
    ∧ ((TimeTracker.create 10 1 "" "ms").run [Call.set 0]).recordsSample (Call.get 5 none) = false
    ∧ (((TimeTracker.create 10 1 "" "ms").run [Call.set 0]).get 5 none).2.1.m_mode = MODE_LOOP
    ∧ (((TimeTracker.create 10 1 "" "ms").run [Call.set 0]).get 5 none).2.1.m_mode
        ≠ MODE_PERFORMANCE
    ∧ (((TimeTracker.create 10 1 "" "ms").run [Call.set 0]).get 5
        none).2.1.m_executionCountTotalInOneSec = 0
    ∧ (((TimeTracker.create 10 1 "" "ms").run [Call.set 0]).get 5 none).2.1.m_executionTime
        ≠ toMilliseconds (5 - 0) := by
  rw [TimeTracker.run_cons, TimeTracker.run_nil, TimeTracker.step_set]
  have h0 : ((TimeTracker.create 10 1 "" "ms").set 0).m_timeStart = 0 :=
    TimeTracker.set_of_performance _ 0 rfl
  have hpos : (0 : ℚ) < toMilliseconds (5 - 0) := toMilliseconds_pos (5 - 0) (by decide)
  rw [TimeTracker.get_first _ 5 none h0]
  refine ⟨rfl, ?_, rfl, by decide, ?_, ?_⟩
  · simp only [TimeTracker.recordsSample, h0, ne_eq, not_true_eq_false, decide_False]
  · exact (TimeTracker.set_stats _ 0).2.2
  · show ((TimeTracker.create 10 1 "" "ms").set 0).m_executionTime ≠ _
    rw [TimeTracker.set_executionTime]
    exact ne_of_lt hpos

/-- C7, amended. Before the first `get` call the tracker is in performance mode. A `get`
call made in performance mode switches to `MODE_LOOP` exactly when no `set` call
preceded it or the last preceding `set` obtained the clock reading 0; when the last
preceding `set` obtained a reading `t` other than 0, the `get` call records a sample of
duration `now - t` and the mode remains `MODE_PERFORMANCE`. -/
theorem get_after_nonzero_set_measures (R E : Nat) (p u : String) (cs : List Call) (now : Int)
    (out_ss : Option StringStream) :
    ((∀ c ∈ cs, c.isGet = false) →
        ((TimeTracker.create R E p u).run cs).m_mode = MODE_PERFORMANCE)
    ∧ (((TimeTracker.create R E p u).run cs).m_mode = MODE_PERFORMANCE →
        ((((TimeTracker.create R E p u).run cs).get now out_ss).2.1.m_mode = MODE_LOOP
          ↔ (lastSet cs = none ∨ lastSet cs = some 0))
        ∧ ∀ t : Int, lastSet cs = some t → t ≠ 0 →
            ((TimeTracker.create R E p u).run cs).recordsSample (Call.get now out_ss) = true
            ∧ (((TimeTracker.create R E p u).run cs).get now out_ss).2.1.m_executionTime
                = toMilliseconds (now - t)
            ∧ (((TimeTracker.create R E p u).run cs).get now out_ss).2.1.m_mode
                = MODE_PERFORMANCE) := by
  have hne : MODE_PERFORMANCE ≠ MODE_LOOP := by decide
  refine ⟨TimeTracker.run_performance R E p u cs, fun hperf => ?_⟩
  have hstart := (TimeTracker.run_times R E p u cs).2.1 hperf
  generalize (TimeTracker.create R E p u).run cs = s at hperf hstart ⊢
  rw [s.get_mode now out_ss]
  constructor
  · constructor
    · intro h
      by_cases h0 : s.m_timeStart = 0
      · rw [h0] at hstart
        cases hl : lastSet cs with
        | none => exact Or.inl rfl
        | some t =>
          rw [hl] at hstart
          exact Or.inr (by rw [show t = 0 from hstart.symm])
      · rw [if_neg h0, hperf] at h
        exact absurd h hne
    · intro h
      have h0 : s.m_timeStart = 0 := by
        rcases h with h | h <;> rw [hstart, h] <;> rfl
      rw [if_pos h0]
  · intro t hl ht
    rw [hl] at hstart
    have h0 : s.m_timeStart ≠ 0 := by rw [hstart]; exact ht
    refine ⟨by simp [TimeTracker.recordsSample, h0], ?_, by rw [if_neg h0]; exact hperf⟩
    rw [(s.get_measure now out_ss).2 h0, hstart]; rfl

/-- Instance of amended C7: `set` at tick 7, `get` at tick 12. -/
theorem get_after_nonzero_set_measures_witness :
    (∀ c ∈ [Call.set 7], c.isGet = false)
    ∧ lastSet [Call.set 7] = some 7 ∧ (7 : Int) ≠ 0
    ∧ ((TimeTracker.create 10 1 "" "ms").run [Call.set 7]).recordsSample (Call.get 12 none) = true
    ∧ (((TimeTracker.create 10 1 "" "ms").run [Call.set 7]).get 12 none).2.1.m_executionTime
        = toMilliseconds (12 - 7)
    ∧ (((TimeTracker.create 10 1 "" "ms").run [Call.set 7]).get 12 none).2.1.m_mode
        = MODE_PERFORMANCE :=
  have hget : ∀ c ∈ [Call.set 7], c.isGet = false := by
    intro c hc; rw [List.mem_singleton.mp hc]; rfl
  have h := get_after_nonzero_set_measures 10 1 "" "ms" [Call.set 7] 12 none
  ⟨hget, rfl, by decide, (h.2 (h.1 hget)).2 7 rfl (by decide)⟩

/-- C8. Loop-mode gap measurement. On a fresh tracker, for all clock readings `t0` and
`t1` with `t0` other than the sentinel 0 (in particular for `t0 < t1`), `get` at `t0`
returns false and sets `MODE_LOOP`, and the following `get` at `t1` records a sample
whose duration is `t1 - t0` and moves `m_timeStart` to `t1`. In general, after any
sequence of calls, a `get` call that records a sample in loop mode measures the
difference between its own clock reading and the reading of the previous `get` call,
and moves `m_timeStart` to its own reading. -/
theorem loop_mode_measures_gap (R E : Nat) (p u : String) (t0 t1 : Int)
    (o0 o1 : Option StringStream) (cs : List Call) (now : Int) (out_ss : Option StringStream) :
    (t0 ≠ 0 →
      ((TimeTracker.create R E p u).get t0 o0).1 = false
      ∧ ((TimeTracker.create R E p u).get t0 o0).2.1.m_mode = MODE_LOOP
      ∧ ((TimeTracker.create R E p u).get t0 o0).2.1.recordsSample (Call.get t1 o1) = true
      ∧ (((TimeTracker.create R E p u).get t0 o0).2.1.get t1 o1).2.1.m_executionTime
          = toMilliseconds (t1 - t0)
      ∧ (((TimeTracker.create R E p u).get t0 o0).2.1.get t1 o1).2.1.m_timeStart = t1)
    ∧ (((TimeTracker.create R E p u).run cs).m_mode = MODE_LOOP →
        ((TimeTracker.create R E p u).run cs).recordsSample (Call.get now out_ss) = true →
        ∃ t : Int, lastGet cs = some t
          ∧ (((TimeTracker.create R E p u).run cs).get now out_ss).2.1.m_executionTime
              = toMilliseconds (now - t)
          ∧ (((TimeTracker.create R E p u).run cs).get now out_ss).2.1.m_timeStart = now) := by
  constructor
  · intro ht0
    have h0 : (TimeTracker.create R E p u).m_timeStart = 0 := rfl
    have hfirst := (TimeTracker.create R E p u).get_first t0 o0 h0
    have hstart : ((TimeTracker.create R E p u).get t0 o0).2.1.m_timeStart = t0 := by
      rw [hfirst]
    have hmode : ((TimeTracker.create R E p u).get t0 o0).2.1.m_mode = MODE_LOOP := by
      rw [hfirst]
    have hne : ((TimeTracker.create R E p u).get t0 o0).2.1.m_timeStart ≠ 0 := by
      rw [hstart]; exact ht0
    refine ⟨by rw [hfirst], hmode, by simp [TimeTracker.recordsSample, hne], ?_, ?_⟩
    · rw [(TimeTracker.get_measure _ t1 o1).2 hne, hstart]
    · rw [TimeTracker.get_timeStart, if_neg hne, if_pos hmode]
  · intro hloop hrec
    obtain ⟨-, -, hend, hl⟩ := TimeTracker.run_times R E p u cs
    obtain ⟨hse, hsome⟩ := hl hloop
    generalize (TimeTracker.create R E p u).run cs = s at hloop hrec hend hse ⊢
    have h0 : s.m_timeStart ≠ 0 := by
      simpa [TimeTracker.recordsSample] using hrec
    cases hg : lastGet cs with
    | none => exact absurd hg hsome
    | some t =>
      rw [hg] at hend
      have hst : s.m_timeStart = t := by rw [hse, hend]; rfl
      refine ⟨t, rfl, ?_, ?_⟩
      · rw [(s.get_measure now out_ss).2 h0, hst]
      · rw [s.get_timeStart, if_neg h0, if_pos hloop]

/-- Instance of C8: `get` at ticks 3, 8 and 20 on a fresh tracker. -/
theorem loop_mode_measures_gap_witness :
    (3 : Int) ≠ 0
    ∧ ((TimeTracker.create 10 1 "" "ms").get 3 none).1 = false
    ∧ ((TimeTracker.create 10 1 "" "ms").get 3 none).2.1.m_mode = MODE_LOOP
    ∧ (((TimeTracker.create 10 1 "" "ms").get 3 none).2.1.get 8 none).2.1.m_executionTime
        = toMilliseconds (8 - 3)
    ∧ (((TimeTracker.create 10 1 "" "ms").get 3 none).2.1.get 8 none).2.1.m_timeStart = 8
    ∧ ((TimeTracker.create 10 1 "" "ms").run [Call.get 3 none, Call.get 8 none]).m_mode = MODE_LOOP
    ∧ ((TimeTracker.create 10 1 "" "ms").run
        [Call.get 3 none, Call.get 8 none]).recordsSample (Call.get 20 none) = true
    ∧ ∃ t : Int, lastGet [Call.get 3 none, Call.get 8 none] = some t
        ∧ (((TimeTracker.create 10 1 "" "ms").run
            [Call.get 3 none, Call.get 8 none]).get 20 none).2.1.m_executionTime
          = toMilliseconds (20 - t) := by
  have h := loop_mode_measures_gap 10 1 "" "ms" 3 8 none none [Call.get 3 none, Call.get 8 none]
    20 none
  have hm : ((TimeTracker.create 10 1 "" "ms").run
      [Call.get 3 none, Call.get 8 none]).m_mode = MODE_LOOP := by
    rw [TimeTracker.run_cons, TimeTracker.step_get]
    exact TimeTracker.run_loop _ _ (h.1 (by decide)).2.1
  have hr : ((TimeTracker.create 10 1 "" "ms").run
      [Call.get 3 none, Call.get 8 none]).recordsSample (Call.get 20 none) = true := by
    rw [TimeTracker.run_cons, TimeTracker.run_cons, TimeTracker.run_nil, TimeTracker.step_get,
      TimeTracker.step_get]
    simp only [TimeTracker.recordsSample, (h.1 (by decide)).2.2.2.2]
    decide
  obtain ⟨t, ht, he, -⟩ := h.2 hm hr
  exact ⟨by decide, (h.1 (by decide)).1, (h.1 (by decide)).2.1, (h.1 (by decide)).2.2.2.1,
    (h.1 (by decide)).2.2.2.2, hm, hr, t, ht, he⟩

/-! ## C9: `stop` twice in a row -/

/-- C9. For every tracker state, hence for every reachable one, a second `stop` call
made right after a first one renders no report (`getReport` returns false at line 321)
and leaves every data member, the lifetime total included, as the first call left it. -/
theorem stop_twice_renders_nothing (s : TimeTracker) :
    (s.stop.2.flush.getReport s.stop.2.flush.m_report).1 = false
    ∧ s.stop.2.stop.1 = false
    ∧ s.stop.2.stop.2 = s.stop.2
    ∧ s.stop.2.stop.2.m_executionCountTotalAllTheTime = s.stop.2.m_executionCountTotalAllTheTime := by
  have f := s.stop_frame
  have hflush : s.stop.2.flush = s.stop.2 := by
    simp only [TimeTracker.flush, f.2.2.2.2.2.2.2, ne_eq, not_true_eq_false, if_false]
  have hrep : s.stop.2.getReport s.stop.2.m_report = (false, s.stop.2, s.stop.2.m_report) :=
    TimeTracker.getReport_empty _ _ f.2.2.2.2.2.2.1
  have hstop : s.stop.2.stop = (false, s.stop.2) := by
    show ((s.stop.2.flush.getReport s.stop.2.flush.m_report).1,
      ({ (s.stop.2.flush.getReport s.stop.2.flush.m_report).2.1 with
          m_report := (s.stop.2.flush.getReport s.stop.2.flush.m_report).2.2 } : TimeTracker))
      = (false, s.stop.2)
    rw [hflush, hrep]
  refine ⟨by rw [hflush, hrep], by rw [hstop], by rw [hstop], by rw [hstop]⟩

/-! ## C10: the lifetime total -/

/-- C10. In every state reached from the constructor (fewer than `2^64` samples
recorded, which is what ignoring the 64-bit wrap means) the lifetime total, the period
count total and the count of the current sub-interval add up to the number of `get`
calls that recorded a sample; a `stop` call records no sample, and right after it the
lifetime total alone equals that number. -/
theorem lifetime_total_counts_samples (R E : Nat) (p u : String) (cs : List Call)
    (hn : (TimeTracker.create R E p u).samples cs < 2 ^ 64) :
    ((TimeTracker.create R E p u).run cs).m_executionCountTotalAllTheTime
      + ((TimeTracker.create R E p u).run cs).m_executionCountTotalInNsec
      + ((TimeTracker.create R E p u).run cs).m_executionCountTotalInOneSec
      = (TimeTracker.create R E p u).samples cs
    ∧ (TimeTracker.create R E p u).samples (cs ++ [Call.stop])
      = (TimeTracker.create R E p u).samples cs
    ∧ ((TimeTracker.create R E p u).run (cs ++ [Call.stop])).m_executionCountTotalAllTheTime
      = (TimeTracker.create R E p u).samples cs := by
  obtain ⟨hinv, -⟩ := TimeTracker.run_inv R E p u cs hn
  have hs := TimeTracker.stop_inv hinv hn
  have f := ((TimeTracker.create R E p u).run cs).stop_frame
  have hc := hs.count
  have ht := hs.total
  rw [f.2.2.2.2.2.2.1, List.sum_nil] at ht
  rw [ht, f.2.2.2.2.2.2.2] at hc
  refine ⟨hinv.count, by simp [TimeTracker.samples_snoc, TimeTracker.recordsSample], ?_⟩
  rw [TimeTracker.run_snoc]
  exact hc

/-- Instance of C10: one recorded sample, then `stop`; the lifetime total is 1. -/
theorem lifetime_total_counts_samples_witness :
    (TimeTracker.create 2 1 "" "ms").samples [Call.set 1, Call.get 3000001 none] < 2 ^ 64
    ∧ (TimeTracker.create 2 1 "" "ms").samples [Call.set 1, Call.get 3000001 none] = 1
    ∧ ((TimeTracker.create 2 1 "" "ms").run
        ([Call.set 1, Call.get 3000001 none] ++ [Call.stop])).m_executionCountTotalAllTheTime
      = 1 := by
  have hn : (TimeTracker.create 2 1 "" "ms").samples [Call.set 1, Call.get 3000001 none]
      < 2 ^ 64 :=
    lt_of_le_of_lt (TimeTracker.samples_le_length _ _) (by decide)
  have hv : (TimeTracker.create 2 1 "" "ms").samples [Call.set 1, Call.get 3000001 none] = 1 := by
    norm_num [TimeTracker.samples, TimeTracker.recordsSample, TimeTracker.step, TimeTracker.set,
      TimeTracker.create, MODE_PERFORMANCE]
  have h := lifetime_total_counts_samples 2 1 "" "ms" [Call.set 1, Call.get 3000001 none] hn
  exact ⟨hn, hv, h.2.2.trans hv⟩

/-- Lookup of a name that is none of the three keys fails in the scale table. -/
theorem lookup_scale_other (u : String) (h1 : u ≠ "ms") (h2 : u ≠ "us") (h3 : u ≠ "ns") :
    m_timeUnitScaleRatio.lookup u = none := by
  have e1 : (u == "ms") = false := by simpa using h1
  have e2 : (u == "us") = false := by simpa using h2
  have e3 : (u == "ns") = false := by simpa using h3
  simp [m_timeUnitScaleRatio, List.lookup, e1, e2, e3]

/-- Lookup of a name that is none of the three keys fails in the precision table. -/
theorem lookup_precision_other (u : String) (h1 : u ≠ "ms") (h2 : u ≠ "us") (h3 : u ≠ "ns") :
    m_timeUnitPrecision.lookup u = none := by
  have e1 : (u == "ms") = false := by simpa using h1
  have e2 : (u == "us") = false := by simpa using h2
  have e3 : (u == "ns") = false := by simpa using h3
  simp [m_timeUnitPrecision, List.lookup, e1, e2, e3]

/-! ## C12 and C13: the intervals chosen by the constructor -/

/-- C12. Constructor interval normalisation: for all inputs `(R, S)`, if `R = 0` the
effective configuration is report interval 1, sub-interval 1 and capacity 1; otherwise
the report interval is `R`, and the sub-interval is 1 if `S = 0` or `S > R` or
`R % S != 0`, and `S` unchanged in every other case. -/
theorem constructor_normalises_intervals (R S : Nat) (p u : String) :
    (R = 0 →
      (TimeTracker.create R S p u).m_reportIntervalInSeconds = 1
      ∧ (TimeTracker.create R S p u).m_executionCountIntervalInSeconds = 1
      ∧ (TimeTracker.create R S p u).m_vecExecutionDepth = 1)
    ∧ (R ≠ 0 →
      (TimeTracker.create R S p u).m_reportIntervalInSeconds = R
      ∧ ((S = 0 ∨ R < S ∨ R % S ≠ 0) →
          (TimeTracker.create R S p u).m_executionCountIntervalInSeconds = 1)
      ∧ (¬ (S = 0 ∨ R < S ∨ R % S ≠ 0) →
          (TimeTracker.create R S p u).m_executionCountIntervalInSeconds = S)) := by
  refine ⟨fun h => ?_, fun h => ⟨?_, fun hs => ?_, fun hs => ?_⟩⟩
  · simp [TimeTracker.create, h]
  · simp [TimeTracker.create, h]
  · simp only [TimeTracker.create, h, if_false, hs, if_true]
  · simp only [TimeTracker.create, h, if_false, hs]

/-- Instance of C12: the pairs (0, 7), (10, 3), (10, 0), (3, 6) and (10, 5). -/
theorem constructor_normalises_intervals_witness :
    ((TimeTracker.create 0 7 "" "ms").m_reportIntervalInSeconds = 1
      ∧ (TimeTracker.create 0 7 "" "ms").m_executionCountIntervalInSeconds = 1
      ∧ (TimeTracker.create 0 7 "" "ms").m_vecExecutionDepth = 1)
    ∧ (TimeTracker.create 10 3 "" "ms").m_executionCountIntervalInSeconds = 1
    ∧ (TimeTracker.create 10 0 "" "ms").m_executionCountIntervalInSeconds = 1
    ∧ (TimeTracker.create 3 6 "" "ms").m_executionCountIntervalInSeconds = 1
    ∧ (TimeTracker.create 10 5 "" "ms").m_reportIntervalInSeconds = 10
    ∧ (TimeTracker.create 10 5 "" "ms").m_executionCountIntervalInSeconds = 5 :=
  ⟨(constructor_normalises_intervals 0 7 "" "ms").1 rfl,
   ((constructor_normalises_intervals 10 3 "" "ms").2 (by decide)).2.1 (by decide),
   ((constructor_normalises_intervals 10 0 "" "ms").2 (by decide)).2.1 (by decide),
   ((constructor_normalises_intervals 3 6 "" "ms").2 (by decide)).2.1 (by decide),
   ((constructor_normalises_intervals 10 5 "" "ms").2 (by decide)).1,
   ((constructor_normalises_intervals 10 5 "" "ms").2 (by decide)).2.2 (by decide)⟩

/-- The effective intervals chosen by the constructor are well formed. -/
theorem TimeTracker.create_wellformed (R S : Nat) (p u : String) :
    1 ≤ (TimeTracker.create R S p u).m_executionCountIntervalInSeconds
    ∧ (TimeTracker.create R S p u).m_executionCountIntervalInSeconds
        ≤ (TimeTracker.create R S p u).m_reportIntervalInSeconds
    ∧ (TimeTracker.create R S p u).m_reportIntervalInSeconds
        % (TimeTracker.create R S p u).m_executionCountIntervalInSeconds = 0 := by
  by_cases hR : R = 0
  · simp [TimeTracker.create, hR]
  · by_cases hs : S = 0 ∨ R < S ∨ R % S ≠ 0
    · simp only [TimeTracker.create, hR, if_false, hs, if_true, Nat.mod_one]
      exact ⟨le_refl 1, by omega, trivial⟩
    · simp only [TimeTracker.create, hR, if_false, hs]
      exact ⟨by omega, by omega, by omega⟩

/-- C13. Configuration invariant: for every pair of constructor arguments (in
particular every pair of 32-bit unsigned values) the effective configuration satisfies
report interval >= 1, 1 <= sub-interval <= report interval, report interval divisible
by the sub-interval, capacity = report interval / sub-interval >= 1 and
capacity * sub-interval = report interval; and after any sequence of
`set`/`get`/`stop` calls the three values are the ones the constructor chose. -/
theorem configuration_invariant (R S : Nat) (p u : String) (cs : List Call) :
    1 ≤ (TimeTracker.create R S p u).m_reportIntervalInSeconds
    ∧ 1 ≤ (TimeTracker.create R S p u).m_executionCountIntervalInSeconds
    ∧ (TimeTracker.create R S p u).m_executionCountIntervalInSeconds
        ≤ (TimeTracker.create R S p u).m_reportIntervalInSeconds
    ∧ (TimeTracker.create R S p u).m_reportIntervalInSeconds
        % (TimeTracker.create R S p u).m_executionCountIntervalInSeconds = 0
    ∧ (TimeTracker.create R S p u).m_vecExecutionDepth
        = (TimeTracker.create R S p u).m_reportIntervalInSeconds
          / (TimeTracker.create R S p u).m_executionCountIntervalInSeconds
    ∧ 1 ≤ (TimeTracker.create R S p u).m_vecExecutionDepth
    ∧ (TimeTracker.create R S p u).m_vecExecutionDepth
        * (TimeTracker.create R S p u).m_executionCountIntervalInSeconds
        = (TimeTracker.create R S p u).m_reportIntervalInSeconds
    ∧ ((TimeTracker.create R S p u).run cs).m_reportIntervalInSeconds
        = (TimeTracker.create R S p u).m_reportIntervalInSeconds
    ∧ ((TimeTracker.create R S p u).run cs).m_executionCountIntervalInSeconds
        = (TimeTracker.create R S p u).m_executionCountIntervalInSeconds
    ∧ ((TimeTracker.create R S p u).run cs).m_vecExecutionDepth
        = (TimeTracker.create R S p u).m_vecExecutionDepth := by
  obtain ⟨h1, h2, h3⟩ := TimeTracker.create_wellformed R S p u
  have hcfg := (TimeTracker.create R S p u).run_config cs
  have hd : (TimeTracker.create R S p u).m_vecExecutionDepth
      = (TimeTracker.create R S p u).m_reportIntervalInSeconds
        / (TimeTracker.create R S p u).m_executionCountIntervalInSeconds := rfl
  refine ⟨by omega, h1, h2, h3, hd, TimeTracker.create_depth_pos R S p u, ?_,
    hcfg.2.2, hcfg.2.1, hcfg.1⟩
  rw [hd]
  exact Nat.div_mul_cancel (Nat.dvd_of_mod_eq_zero h3)

/-! ## C14: the time unit chosen by the constructor -/

/-- C14. Time-unit selection: the constructor yields (unit name, scale, precision) =
("ms", 1, 2) for "ms", ("us", 1000, 2) for "us", ("ns", 1000000, 0) for "ns", and
("ms", 1, 2) for every other string. -/
theorem time_unit_selection (R S : Nat) (p u : String) :
    ((TimeTracker.create R S p "ms").m_timeUnitName = "ms"
      ∧ (TimeTracker.create R S p "ms").m_scaleRatio = 1
      ∧ (TimeTracker.create R S p "ms").m_reportPrecision = 2)
    ∧ ((TimeTracker.create R S p "us").m_timeUnitName = "us"
      ∧ (TimeTracker.create R S p "us").m_scaleRatio = 1000
      ∧ (TimeTracker.create R S p "us").m_reportPrecision = 2)
    ∧ ((TimeTracker.create R S p "ns").m_timeUnitName = "ns"
      ∧ (TimeTracker.create R S p "ns").m_scaleRatio = 1000000
      ∧ (TimeTracker.create R S p "ns").m_reportPrecision = 0)
    ∧ (u ≠ "ms" → u ≠ "us" → u ≠ "ns" →
      (TimeTracker.create R S p u).m_timeUnitName = "ms"
      ∧ (TimeTracker.create R S p u).m_scaleRatio = 1
      ∧ (TimeTracker.create R S p u).m_reportPrecision = 2) := by
  refine ⟨?_, ?_, ?_, fun h1 h2 h3 => ?_⟩
  · simp [TimeTracker.create, m_timeUnitScaleRatio, m_timeUnitPrecision, List.lookup]
  · simp [TimeTracker.create, m_timeUnitScaleRatio, m_timeUnitPrecision, List.lookup]
  · simp [TimeTracker.create, m_timeUnitScaleRatio, m_timeUnitPrecision, List.lookup]
  · simp only [TimeTracker.create, lookup_scale_other u h1 h2 h3,
      lookup_precision_other u h1 h2 h3, and_self]

/-- Instance of C14: the unrecognised unit name "bogus". -/
theorem time_unit_selection_witness :
    "bogus" ≠ "ms" ∧ "bogus" ≠ "us" ∧ "bogus" ≠ "ns"
    ∧ (TimeTracker.create 10 1 "" "bogus").m_timeUnitName = "ms"
    ∧ (TimeTracker.create 10 1 "" "bogus").m_scaleRatio = 1
    ∧ (TimeTracker.create 10 1 "" "bogus").m_reportPrecision = 2 :=
  ⟨by decide, by decide, by decide,
    (time_unit_selection 10 1 "" "bogus").2.2.2 (by decide) (by decide) (by decide)⟩

/-! ## C20: stored counts are positive and the average never divides by zero -/

/-- C20. In every state reached from the constructor (fewer than `2^64` samples
recorded, which is what ignoring the 64-bit wrap means) every entry of
`m_vecExecutionOneSec` is at least 1. Whenever `getReport` computes the average, in
`stop` or in a `get` call that returns true, the vector it renders is not empty, all
its entries are at least 1 and the count total it divides by is at least 1, so the
divisor is not zero and the report shows neither a `[0]` entry nor a total of 0. -/
theorem stored_counts_positive (R E : Nat) (p u : String) (cs : List Call)
    (hn : (TimeTracker.create R E p u).samples cs < 2 ^ 64) :
    (∀ c ∈ ((TimeTracker.create R E p u).run cs).m_vecExecutionOneSec, 1 ≤ c)
    ∧ (((TimeTracker.create R E p u).run cs).stop.1 = true →
        ((TimeTracker.create R E p u).run cs).stop.2.m_report
          = ((TimeTracker.create R E p u).run cs).flush.reportOn
              ((TimeTracker.create R E p u).run cs).m_report
        ∧ ((TimeTracker.create R E p u).run cs).flush.m_vecExecutionOneSec ≠ []
        ∧ (∀ c ∈ ((TimeTracker.create R E p u).run cs).flush.m_vecExecutionOneSec, 1 ≤ c)
        ∧ 1 ≤ ((TimeTracker.create R E p u).run cs).flush.m_executionCountTotalInNsec
        ∧ ((((TimeTracker.create R E p u).run cs).flush.m_executionCountTotalInNsec : Nat) : ℚ)
            ≠ 0
        ∧ roundDouble
            ((((TimeTracker.create R E p u).run cs).flush.m_executionCountTotalInNsec : Nat) : ℚ)
            ≠ 0)
    ∧ (∀ (now : Int) (out_ss : Option StringStream),
        (TimeTracker.create R E p u).samples (cs ++ [Call.get now out_ss]) < 2 ^ 64 →
        (((TimeTracker.create R E p u).run cs).get now out_ss).1 = true →
        deliveredReport (((TimeTracker.create R E p u).run cs).get now out_ss)
          = ((((TimeTracker.create R E p u).run cs).rendered now).reportOn
            (((TimeTracker.create R E p u).run cs).sink out_ss)).str
        ∧ (((TimeTracker.create R E p u).run cs).rendered now).m_vecExecutionOneSec ≠ []
        ∧ (∀ c ∈ (((TimeTracker.create R E p u).run cs).rendered now).m_vecExecutionOneSec,
            1 ≤ c)
        ∧ 1 ≤ (((TimeTracker.create R E p u).run cs).rendered now).m_executionCountTotalInNsec
        ∧ (((((TimeTracker.create R E p u).run cs).rendered now).m_executionCountTotalInNsec
            : Nat) : ℚ) ≠ 0
        ∧ roundDouble
            (((((TimeTracker.create R E p u).run cs).rendered now).m_executionCountTotalInNsec
              : Nat) : ℚ) ≠ 0) := by
  obtain ⟨hinv, -⟩ := TimeTracker.run_inv R E p u cs hn
  refine ⟨hinv.entries, fun hs => ?_, fun now out_ss hn2 hret => ?_⟩
  · have hf := TimeTracker.flush_inv hinv hn
    have hr := TimeTracker.stop_rendered hs
    have hb := hf.count_pos hr.2
    exact ⟨hr.1, hr.2, hf.entries, hb.1, by exact_mod_cast Nat.one_le_iff_ne_zero.mp hb.1,
      by linarith [hb.2]⟩
  · obtain ⟨h0, -, -⟩ := TimeTracker.get_true_cases hret
    rw [TimeTracker.samples_snoc] at hn2
    simp only [TimeTracker.recordsSample, h0, ne_eq, not_false_eq_true, decide_True,
      if_true] at hn2
    have hren := TimeTracker.rendered_inv hinv hn2 now
    have hb := hren.count_pos (TimeTracker.rendered_ne_nil _ now)
    exact ⟨TimeTracker.get_delivered hret, TimeTracker.rendered_ne_nil _ now, hren.entries, hb.1,
      by exact_mod_cast Nat.one_le_iff_ne_zero.mp hb.1, by linarith [hb.2]⟩

/-- Instance of C20: one sample, then `stop` renders a report with the single entry 1. -/
theorem stored_counts_positive_witness :
    (TimeTracker.create 2 1 "" "ms").samples [Call.set 1, Call.get 3000001 none] < 2 ^ 64
    ∧ ((TimeTracker.create 2 1 "" "ms").run [Call.set 1, Call.get 3000001 none]).stop.1 = true
    ∧ ((TimeTracker.create 2 1 "" "ms").run
        [Call.set 1, Call.get 3000001 none]).flush.m_vecExecutionOneSec ≠ []
    ∧ 1 ≤ ((TimeTracker.create 2 1 "" "ms").run
        [Call.set 1, Call.get 3000001 none]).flush.m_executionCountTotalInNsec := by
  have hn : (TimeTracker.create 2 1 "" "ms").samples [Call.set 1, Call.get 3000001 none]
      < 2 ^ 64 :=
    lt_of_le_of_lt (TimeTracker.samples_le_length _ _) (by decide)
  have hs := one_sample_stop.1
  have h := (stored_counts_positive 2 1 "" "ms" [Call.set 1, Call.get 3000001 none] hn).2.1 hs
  exact ⟨hn, hs, h.2.1, h.2.2.2.1⟩

/-! ## The text written by `getReport` -/

theorem String.foldl_append_eq (l : List String) (acc : String) :
    l.foldl (fun r s => r ++ s) acc = acc ++ l.foldl (fun r s => r ++ s) "" := by
  induction l generalizing acc with
  | nil => simp
  | cons a l ih =>
    rw [List.foldl_cons, List.foldl_cons, ih (acc ++ a), ih ("" ++ a), String.empty_append,
      String.append_assoc]

theorem String.join_cons_eq (a : String) (l : List String) :
    String.join (a :: l) = a ++ String.join l := by
  show (a :: l).foldl (fun r s => r ++ s) "" = a ++ l.foldl (fun r s => r ++ s) ""
  rw [List.foldl_cons, String.foldl_append_eq, String.empty_append]

/-- With no pending field width an item is written without padding. -/
theorem StringStream.padded_of_width_zero (out : StringStream) (text : String)
    (h : out.width = 0) : out.padded text = text := by
  simp only [StringStream.padded, StringStream.padding, h, Nat.zero_sub, List.replicate_zero]
  split_ifs
  · exact String.append_empty text
  · exact String.empty_append text

/-- An insertion of a string, on the fields of the stream. -/
theorem StringStream.insert_mk (str : String) (width : Nat) (fill : Char) (adjustfield : Adjust)
    (showpos showpoint : Bool) (text : String) :
    (StringStream.mk str width fill adjustfield showpos showpoint).insert text
      = StringStream.mk
          (str ++ (StringStream.mk "" width fill adjustfield showpos showpoint).padded text)
          0 fill adjustfield showpos showpoint := rfl

/-- An insertion of an unsigned integer, on the fields of the stream. -/
theorem StringStream.insertUnsigned_mk (str : String) (width : Nat) (fill : Char)
    (adjustfield : Adjust) (showpos showpoint : Bool) (n : Nat) :
    (StringStream.mk str width fill adjustfield showpos showpoint).insertUnsigned n
      = StringStream.mk
          (str ++ (StringStream.mk "" width fill adjustfield showpos showpoint).padded
            (toString n))
          0 fill adjustfield showpos showpoint := rfl

/-- An insertion of a double, on the fields of the stream. -/
theorem StringStream.insertFixed_mk (str : String) (width : Nat) (fill : Char)
    (adjustfield : Adjust) (showpos showpoint : Bool) (precision : Nat) (x : ℚ) :
    (StringStream.mk str width fill adjustfield showpos showpoint).insertFixed precision x
      = StringStream.mk
          (str ++ (StringStream.mk "" width fill adjustfield showpos showpoint).fixedField
            precision x)
          0 fill adjustfield showpos showpoint := rfl

theorem StringStream.setw_mk (str : String) (width : Nat) (fill : Char) (adjustfield : Adjust)
    (showpos showpoint : Bool) (w : Nat) :
    (StringStream.mk str width fill adjustfield showpos showpoint).setw w
      = StringStream.mk str w fill adjustfield showpos showpoint := rfl

/-- The loop of lines 210-212 appends the bracketed counts. -/
theorem StringStream.foldl_counts (counts : List Nat) (str : String) (fill : Char)
    (adjustfield : Adjust) (showpos showpoint : Bool) :
    counts.foldl (fun out itr => ((out.insert "[").insertUnsigned itr).insert "]")
        (StringStream.mk str 0 fill adjustfield showpos showpoint)
      = StringStream.mk (str ++ String.join (counts.map fun c => "[" ++ toString c ++ "]"))
          0 fill adjustfield showpos showpoint := by
  induction counts generalizing str with
  | nil => simp [String.join]
  | cons c cs ih =>
    rw [List.foldl_cons, List.map_cons, String.join_cons_eq]
    simp only [StringStream.insertUnsigned_mk, StringStream.insert_mk,
      StringStream.padded_of_width_zero]
    rw [ih]
    simp only [String.append_assoc]

/-- The stream after lines 205-215, in closed form: the content is the text of the
report and the pending width is 0; fill character and flags are those of the stream
before. -/
theorem TimeTracker.reportOn_eq (s : TimeTracker) (out_str : StringStream) :
    s.reportOn out_str
      = { out_str with
          width := 0
          str := (out_str.padded s.m_reportPrefix ++ " Exec count "
              ++ String.join (s.m_vecExecutionOneSec.map fun c => "[" ++ toString c ++ "]")
              ++ "(" ++ toString s.m_executionCountTotalInNsec ++ ")"
              ++ " Exec time(" ++ s.m_timeUnitName ++ ")")
            ++ (" ("
              ++ (out_str.setw REPORT_WIDTH).fixedField s.m_reportPrecision
                  (roundDouble (s.m_timeMin * s.m_scaleRatio))
              ++ "," ++ (out_str.setw 0).fixedField s.m_reportPrecision
                  (roundDouble (s.average * s.m_scaleRatio))
              ++ "," ++ (out_str.setw 0).fixedField s.m_reportPrecision
                  (roundDouble (s.m_timeMax * s.m_scaleRatio))
              ++ ")") } := by
  have hs : ") Exec time(" = ")" ++ " Exec time(" := by decide
  cases out_str with
  | mk str width fill adjustfield showpos showpoint =>
    simp only [TimeTracker.reportOn, StringStream.insert_mk, StringStream.foldl_counts,
      StringStream.insertUnsigned_mk, StringStream.insertFixed_mk, StringStream.setw_mk,
      StringStream.padded_of_width_zero, String.empty_append, String.append_assoc, hs]
    rfl

/-- The text of the report written by lines 205-215. -/
theorem TimeTracker.reportOn_str (s : TimeTracker) (out_str : StringStream) :
    (s.reportOn out_str).str
      = (out_str.padded s.m_reportPrefix ++ " Exec count "
          ++ String.join (s.m_vecExecutionOneSec.map fun c => "[" ++ toString c ++ "]")
          ++ "(" ++ toString s.m_executionCountTotalInNsec ++ ")"
          ++ " Exec time(" ++ s.m_timeUnitName ++ ")")
        ++ (" ("
          ++ (out_str.setw REPORT_WIDTH).fixedField s.m_reportPrecision
              (roundDouble (s.m_timeMin * s.m_scaleRatio))
          ++ "," ++ (out_str.setw 0).fixedField s.m_reportPrecision
              (roundDouble (s.average * s.m_scaleRatio))
          ++ "," ++ (out_str.setw 0).fixedField s.m_reportPrecision
              (roundDouble (s.m_timeMax * s.m_scaleRatio))
          ++ ")") := by
  rw [TimeTracker.reportOn_eq]

/-- A non-negative value below one half rounds to zero. -/
theorem roundHalfEven_of_lt_half (q : ℚ) (h0 : 0 ≤ q) (h1 : q < 1 / 2) : roundHalfEven q = 0 := by
  have hf : q.floor = 0 := by
    show ⌊q⌋ = 0
    rw [Int.floor_eq_zero_iff]
    exact ⟨h0, by linarith⟩
  simp only [roundHalfEven, hf, Int.toNat_zero, Nat.cast_zero, sub_zero, if_pos h1]

/-- Digits of a non-negative value whose scaled magnitude is the natural number `n`. -/
theorem fixedDigits_of_scaled (precision : Nat) (x : ℚ) (n : Nat) (h0 : 0 ≤ x)
    (h : x * 10 ^ precision = (n : ℚ)) :
    fixedDigits precision x
      = toString (n / 10 ^ precision) ++
        (if precision = 0 then ""
         else "." ++ String.mk (List.replicate
            (precision - (toString (n % 10 ^ precision)).length) '0')
           ++ toString (n % 10 ^ precision)) := by
  have hr : roundHalfEven (|x| * 10 ^ precision) = n := by
    rw [abs_of_nonneg h0, h, roundHalfEven_natCast]
  simp only [fixedDigits, hr]

/-- Digits of a non-negative value that rounds to zero at the given precision. -/
theorem fixedDigits_of_small (precision : Nat) (x : ℚ) (h0 : 0 ≤ x)
    (h : x * 10 ^ precision < 1 / 2) :
    fixedDigits precision x
      = toString (0 / 10 ^ precision) ++
        (if precision = 0 then ""
         else "." ++ String.mk (List.replicate
            (precision - (toString (0 % 10 ^ precision)).length) '0')
           ++ toString (0 % 10 ^ precision)) := by
  have hr : roundHalfEven (|x| * 10 ^ precision) = 0 := by
    rw [abs_of_nonneg h0]
    exact roundHalfEven_of_lt_half _ (by positivity) h
  simp only [fixedDigits, hr]

/-- A non-negative double as a right-adjusted stream without `showpos` and `showpoint`
writes it: its digits, padded on the left to the pending field width. -/
theorem StringStream.fixedField_of_nonneg (str : String) (width : Nat) (fill : Char)
    (precision : Nat) (x : ℚ) (h0 : 0 ≤ x) :
    (StringStream.mk str width fill Adjust.right false false).fixedField precision x
      = String.mk (List.replicate (width - (fixedDigits precision x).utf8ByteSize) fill)
        ++ fixedDigits precision x := by
  have hneg : ¬ (x < 0) := not_lt.mpr h0
  have hz : "".utf8ByteSize = 0 := by decide
  simp [StringStream.fixedField, StringStream.padding, hneg, hz]

/-- The text of a report in unit `ms` on a right-adjusted stream without `showpos` and
`showpoint`, from the texts of its parts: `counts` the bracketed counts, `total` the
count total and `a`, `b`, `c` the digits of minimum, average and maximum. -/
theorem report_text_aux (r : TimeTracker) (str : String) (width : Nat) (fill : Char)
    (lo avg hi : ℚ) (counts total a b c : String)
    (h2 : String.join (r.m_vecExecutionOneSec.map fun c => "[" ++ toString c ++ "]") = counts)
    (h3 : toString r.m_executionCountTotalInNsec = total) (h4 : r.m_timeUnitName = "ms")
    (h5 : r.m_scaleRatio = 1) (h6 : r.m_reportPrecision = 2) (hmin : r.m_timeMin = lo)
    (havg : r.average = avg) (hmax : r.m_timeMax = hi)
    (ha : 0 ≤ roundDouble (lo * 1) ∧ fixedDigits 2 (roundDouble (lo * 1)) = a)
    (hb : 0 ≤ roundDouble (avg * 1) ∧ fixedDigits 2 (roundDouble (avg * 1)) = b)
    (hc : 0 ≤ roundDouble (hi * 1) ∧ fixedDigits 2 (roundDouble (hi * 1)) = c) :
    (r.reportOn (StringStream.mk str width fill Adjust.right false false)).str
      = String.mk (List.replicate (width - r.m_reportPrefix.utf8ByteSize) fill)
        ++ r.m_reportPrefix ++ " Exec count " ++ counts ++ "(" ++ total ++ ") Exec time(ms) ("
        ++ String.mk (List.replicate (5 - a.utf8ByteSize) fill) ++ a ++ "," ++ b ++ "," ++ c
        ++ ")" := by
  have e1 : ∀ text : String,
      (StringStream.mk str width fill Adjust.right false false).padded text
        = String.mk (List.replicate (width - text.utf8ByteSize) fill) ++ text := by
    intro text
    simp [StringStream.padded, StringStream.padding]
  have e2 : ") Exec time(ms) (" = ")" ++ " Exec time(" ++ "ms" ++ ")" ++ " (" := by decide
  have e3 : (String.mk [] : String) = "" := rfl
  rw [TimeTracker.reportOn_str, h2, h3, h4, h5, h6, hmin, havg, hmax, e1, e2]
  simp only [StringStream.setw_mk, REPORT_WIDTH]
  rw [StringStream.fixedField_of_nonneg _ _ _ _ _ ha.1,
    StringStream.fixedField_of_nonneg _ _ _ _ _ hb.1,
    StringStream.fixedField_of_nonneg _ _ _ _ _ hc.1, ha.2, hb.2, hc.2]
  simp only [Nat.zero_sub, List.replicate_zero, String.append_assoc, e3, String.empty_append]

/-! ## C15: the count part of the report text -/

theorem roundDouble_DBL_MIN : roundDouble DBL_MIN = DBL_MIN := by
  have h : DBL_MIN = ((1 : Nat) : ℚ) * 2 ^ (-1022 : Int) := by
    rw [DBL_MIN, Nat.cast_one, one_mul, zpow_neg, one_div]
    norm_cast
  rw [h]
  exact roundDouble_of_exact 1 (-1022) (by norm_num) (by norm_num)

/-- The run `set`, `get`, `set` and the state from which the following `get` renders, on
a fresh tracker with report interval and sub-interval 1 s. The first `get` records a
sample of duration `d1` before the sub-interval is over, the second one a sample of
duration `d2` when the sub-interval is over, and returns true. -/
theorem two_sample_run_aux (s : TimeTracker) (t1 t2 t3 t4 : Int) (d1 d2 e lo hi tot avg : ℚ)
    (hf : s.Fresh) (c1 : s.m_executionCountIntervalInSeconds = 1)
    (c2 : s.m_vecExecutionDepth = 1) (ht1 : t1 ≠ 0) (ht3 : t3 ≠ 0)
    (h21 : toMilliseconds (t2 - t1) = d1) (h43 : toMilliseconds (t4 - t3) = d2)
    (h41 : toMilliseconds (t4 - t1) = e) (hd1 : d1 < 1000) (he : 1000 ≤ e)
    (hlo : (if d2 < (if d1 < DBL_MAX then d1 else DBL_MAX) then d2
           else if d1 < DBL_MAX then d1 else DBL_MAX) = lo)
    (hhi : (if d2 > (if d1 > DBL_MIN then d1 else DBL_MIN) then d2
           else if d1 > DBL_MIN then d1 else DBL_MIN) = hi)
    (htot : roundDouble (roundDouble (0 + d1) + d2) = tot)
    (havg : roundDouble (tot / roundDouble 2) = avg) :
    ((((s.set t1).get t2 none).2.1.set t3).get t4 none).1 = true
    ∧ ((((s.set t1).get t2 none).2.1.set t3).rendered t4).m_timeMin = lo
    ∧ ((((s.set t1).get t2 none).2.1.set t3).rendered t4).m_timeMax = hi
    ∧ ((((s.set t1).get t2 none).2.1.set t3).rendered t4).average = avg
    ∧ ((((s.set t1).get t2 none).2.1.set t3).rendered t4).m_vecExecutionOneSec = [2]
    ∧ ((((s.set t1).get t2 none).2.1.set t3).rendered t4).m_executionCountTotalInNsec = 2
    ∧ ((((s.set t1).get t2 none).2.1.set t3).rendered t4).m_reportPrefix = s.m_reportPrefix
    ∧ ((((s.set t1).get t2 none).2.1.set t3).rendered t4).m_timeUnitName = s.m_timeUnitName
    ∧ ((((s.set t1).get t2 none).2.1.set t3).rendered t4).m_scaleRatio = s.m_scaleRatio
    ∧ ((((s.set t1).get t2 none).2.1.set t3).rendered t4).m_reportPrecision
        = s.m_reportPrecision
    ∧ (((s.set t1).get t2 none).2.1.set t3).sink none = StringStream.empty
    ∧ (if ((s.set t1).get t2 none).1 then []
        else if (s.set t1).m_timeStart = 0 then ([] : List ℚ)
        else [] ++ [toMilliseconds (t2 - (s.set t1).m_timeStart)])
        ++ [toMilliseconds (t4 - (((s.set t1).get t2 none).2.1.set t3).m_timeStart)]
        = [d1, d2] := by
  have hd1 : ¬ (1000 ≤ d1) := not_le.mpr hd1
  subst hlo hhi havg htot
  norm_num [TimeTracker.get_eq, TimeTracker.set_eq, TimeTracker.rendered, TimeTracker.pushCount,
    TimeTracker.record_eq, TimeTracker.getReport, TimeTracker.reset, TimeTracker.average,
    TimeTracker.sink, hf.mode, hf.timeStart,
    hf.elapseTimeStart, hf.inOneSec, hf.inNsec, hf.timeTotal, hf.timeMin, hf.timeMax, hf.vec,
    hf.report, c1, c2, ht1, ht3, h21, h43, h41, hd1, he, ONE_SEC_IN_MILLISECOND,
    MODE_PERFORMANCE, MODE_LOOP, wrap64]

/-- The state from which `get` renders after two samples of duration zero. -/
theorem zero_samples_rendered :
    (((TimeTracker.create 1 1 "" "ms").run
        [Call.set 1, Call.get 1 none, Call.set 1000000001]).get 1000000001 none).1 = true
    ∧ (((TimeTracker.create 1 1 "" "ms").run
        [Call.set 1, Call.get 1 none, Call.set 1000000001]).rendered 1000000001).m_timeMin = 0
    ∧ (((TimeTracker.create 1 1 "" "ms").run
        [Call.set 1, Call.get 1 none, Call.set 1000000001]).rendered 1000000001).m_timeMax
        = DBL_MIN
    ∧ (((TimeTracker.create 1 1 "" "ms").run
        [Call.set 1, Call.get 1 none, Call.set 1000000001]).rendered 1000000001).average = 0
    ∧ (((TimeTracker.create 1 1 "" "ms").run
        [Call.set 1, Call.get 1 none, Call.set 1000000001]).rendered
          1000000001).m_vecExecutionOneSec = [2]
    ∧ (((TimeTracker.create 1 1 "" "ms").run
        [Call.set 1, Call.get 1 none, Call.set 1000000001]).rendered
          1000000001).m_executionCountTotalInNsec = 2
    ∧ (((TimeTracker.create 1 1 "" "ms").run
        [Call.set 1, Call.get 1 none, Call.set 1000000001]).rendered 1000000001).m_reportPrefix
        = (TimeTracker.create 1 1 "" "ms").m_reportPrefix
    ∧ (((TimeTracker.create 1 1 "" "ms").run
        [Call.set 1, Call.get 1 none, Call.set 1000000001]).rendered 1000000001).m_timeUnitName
        = (TimeTracker.create 1 1 "" "ms").m_timeUnitName
    ∧ (((TimeTracker.create 1 1 "" "ms").run
        [Call.set 1, Call.get 1 none, Call.set 1000000001]).rendered 1000000001).m_scaleRatio
        = (TimeTracker.create 1 1 "" "ms").m_scaleRatio
    ∧ (((TimeTracker.create 1 1 "" "ms").run
        [Call.set 1, Call.get 1 none, Call.set 1000000001]).rendered
          1000000001).m_reportPrecision = (TimeTracker.create 1 1 "" "ms").m_reportPrecision
    ∧ ((TimeTracker.create 1 1 "" "ms").run
        [Call.set 1, Call.get 1 none, Call.set 1000000001]).sink none = StringStream.empty
    ∧ (TimeTracker.create 1 1 "" "ms").periodDurations []
          [Call.set 1, Call.get 1 none, Call.set 1000000001]
        ++ [toMilliseconds (1000000001 - ((TimeTracker.create 1 1 "" "ms").run
            [Call.set 1, Call.get 1 none, Call.set 1000000001]).m_timeStart)] = [0, 0] := by
  rw [TimeTracker.run_cons, TimeTracker.run_cons, TimeTracker.run_cons, TimeTracker.run_nil,
    TimeTracker.periodDurations_cons, TimeTracker.periodDurations_cons,
    TimeTracker.periodDurations_cons, TimeTracker.periodDurations_nil,
    TimeTracker.durationsStep_set, TimeTracker.durationsStep_get,
    TimeTracker.durationsStep_set,
    TimeTracker.step_set, TimeTracker.step_get, TimeTracker.step_set]
  exact two_sample_run_aux _ 1 1 1000000001 1000000001 0 0 1000 0 DBL_MIN 0 0
    (TimeTracker.create_fresh 1 1 "" "ms") rfl rfl (by decide) (by decide)
    (by norm_num [toMilliseconds_zero]) (by norm_num [toMilliseconds_zero])
    (by norm_num [toMilliseconds_1s]) (by norm_num) (by norm_num)
    (by norm_num [DBL_MAX]) (by norm_num [DBL_MIN])
    (by norm_num [roundDouble_zero]) (by norm_num [roundDouble_zero])

/-- The text of the report rendered after two samples of duration zero. -/
theorem zero_samples_text :
    deliveredReport (((TimeTracker.create 1 1 "" "ms").run
        [Call.set 1, Call.get 1 none, Call.set 1000000001]).get 1000000001 none)
      = " Exec count [2](2) Exec time(ms) ( 0.00,0.00,0.00)" := by
  obtain ⟨hret, hmin, hmax, havg, h2, h3, h1, h4, h5, h6, hsink, -⟩ := zero_samples_rendered
  rw [TimeTracker.get_delivered hret, hsink, StringStream.empty]
  rw [report_text_aux _ _ _ _ 0 0 DBL_MIN "[2]" "2" "0.00" "0.00" "0.00" (by rw [h2]; decide)
    (by rw [h3]; decide) h4 h5 h6 hmin havg hmax, h1]
  · decide
  · rw [zero_mul, roundDouble_zero]
    exact ⟨le_refl 0, by rw [fixedDigits_of_scaled 2 0 0 (le_refl 0) (by norm_num)]; decide⟩
  · rw [zero_mul, roundDouble_zero]
    exact ⟨le_refl 0, by rw [fixedDigits_of_scaled 2 0 0 (le_refl 0) (by norm_num)]; decide⟩
  · rw [mul_one, roundDouble_DBL_MIN]
    exact ⟨le_of_lt DBL_MIN_pos, by
      rw [fixedDigits_of_small 2 DBL_MIN (le_of_lt DBL_MIN_pos) (by norm_num [DBL_MIN])]
      decide⟩

/-- The state from which `get` renders after one sample of 1 ms and one of 2 ms. -/
theorem two_samples_rendered :
    (((TimeTracker.create 1 1 "" "ms").run
        [Call.set 1, Call.get 1000001 none, Call.set 1000000001]).get 1002000001 none).1 = true
    ∧ (((TimeTracker.create 1 1 "" "ms").run
        [Call.set 1, Call.get 1000001 none, Call.set 1000000001]).rendered 1002000001).m_timeMin
        = 1
    ∧ (((TimeTracker.create 1 1 "" "ms").run
        [Call.set 1, Call.get 1000001 none, Call.set 1000000001]).rendered 1002000001).m_timeMax
        = 2
    ∧ (((TimeTracker.create 1 1 "" "ms").run
        [Call.set 1, Call.get 1000001 none, Call.set 1000000001]).rendered 1002000001).average
        = 3 / 2
    ∧ (((TimeTracker.create 1 1 "" "ms").run
        [Call.set 1, Call.get 1000001 none, Call.set 1000000001]).rendered
          1002000001).m_vecExecutionOneSec = [2]
    ∧ (((TimeTracker.create 1 1 "" "ms").run
        [Call.set 1, Call.get 1000001 none, Call.set 1000000001]).rendered
          1002000001).m_executionCountTotalInNsec = 2
    ∧ (((TimeTracker.create 1 1 "" "ms").run
        [Call.set 1, Call.get 1000001 none, Call.set 1000000001]).rendered
          1002000001).m_reportPrefix = (TimeTracker.create 1 1 "" "ms").m_reportPrefix
    ∧ (((TimeTracker.create 1 1 "" "ms").run
        [Call.set 1, Call.get 1000001 none, Call.set 1000000001]).rendered
          1002000001).m_timeUnitName = (TimeTracker.create 1 1 "" "ms").m_timeUnitName
    ∧ (((TimeTracker.create 1 1 "" "ms").run
        [Call.set 1, Call.get 1000001 none, Call.set 1000000001]).rendered
          1002000001).m_scaleRatio = (TimeTracker.create 1 1 "" "ms").m_scaleRatio
    ∧ (((TimeTracker.create 1 1 "" "ms").run
        [Call.set 1, Call.get 1000001 none, Call.set 1000000001]).rendered
          1002000001).m_reportPrecision = (TimeTracker.create 1 1 "" "ms").m_reportPrecision
    ∧ ((TimeTracker.create 1 1 "" "ms").run
        [Call.set 1, Call.get 1000001 none, Call.set 1000000001]).sink none = StringStream.empty
    ∧ (TimeTracker.create 1 1 "" "ms").periodDurations []
          [Call.set 1, Call.get 1000001 none, Call.set 1000000001]
        ++ [toMilliseconds (1002000001 - ((TimeTracker.create 1 1 "" "ms").run
            [Call.set 1, Call.get 1000001 none, Call.set 1000000001]).m_timeStart)] = [1, 2] := by
  rw [TimeTracker.run_cons, TimeTracker.run_cons, TimeTracker.run_cons, TimeTracker.run_nil,
    TimeTracker.periodDurations_cons, TimeTracker.periodDurations_cons,
    TimeTracker.periodDurations_cons, TimeTracker.periodDurations_nil,
    TimeTracker.durationsStep_set, TimeTracker.durationsStep_get,
    TimeTracker.durationsStep_set,
    TimeTracker.step_set, TimeTracker.step_get, TimeTracker.step_set]
  exact two_sample_run_aux _ 1 1000001 1000000001 1002000001 1 2 1002 1 2 3 (3 / 2)
    (TimeTracker.create_fresh 1 1 "" "ms") rfl rfl (by decide) (by decide)
    (by norm_num [toMilliseconds_1ms]) (by norm_num [toMilliseconds_2ms])
    (by norm_num [toMilliseconds_1002ms]) (by norm_num) (by norm_num)
    (by norm_num [DBL_MAX]) (by norm_num [DBL_MIN])
    (by norm_num [roundDouble_one, roundDouble_three])
    (by norm_num [roundDouble_two, roundDouble_three_halves])

/-- The text of the report rendered after one sample of 1 ms and one of 2 ms. -/
theorem two_samples_text :
    deliveredReport (((TimeTracker.create 1 1 "" "ms").run
        [Call.set 1, Call.get 1000001 none, Call.set 1000000001]).get 1002000001 none)
      = " Exec count [2](2) Exec time(ms) ( 1.00,1.50,2.00)" := by
  obtain ⟨hret, hmin, hmax, havg, h2, h3, h1, h4, h5, h6, hsink, -⟩ := two_samples_rendered
  rw [TimeTracker.get_delivered hret, hsink, StringStream.empty]
  rw [report_text_aux _ _ _ _ 1 (3 / 2) 2 "[2]" "2" "1.00" "1.50" "2.00" (by rw [h2]; decide)
    (by rw [h3]; decide) h4 h5 h6 hmin havg hmax, h1]
  · decide
  · rw [mul_one, roundDouble_one]
    exact ⟨zero_le_one, by rw [fixedDigits_of_scaled 2 1 100 zero_le_one (by norm_num)]; decide⟩
  · rw [mul_one, roundDouble_three_halves]
    exact ⟨by norm_num, by
      rw [fixedDigits_of_scaled 2 (3 / 2) 150 (by norm_num) (by norm_num)]; decide⟩
  · rw [mul_one, roundDouble_two]
    exact ⟨zero_le_two, by rw [fixedDigits_of_scaled 2 2 200 zero_le_two (by norm_num)]; decide⟩

/-- C11, at a failing input. Two samples of duration zero are recorded (the clock gives
`set` and the following `get` the same reading) and the second `get` renders the
report. The durations of the period are 0 and 0 and `m_timeMin` is their minimum 0,
but `m_timeMax` is still its initial value `std::numeric_limits<double>::min()`, the
smallest positive double, and not their maximum 0. -/
theorem maximum_of_zero_samples :
    (((TimeTracker.create 1 1 "" "ms").run
        [Call.set 1, Call.get 1 none, Call.set 1000000001]).get 1000000001 none).1 = true
    ∧ (TimeTracker.create 1 1 "" "ms").periodDurations []
          [Call.set 1, Call.get 1 none, Call.set 1000000001]
        ++ [toMilliseconds (1000000001 - ((TimeTracker.create 1 1 "" "ms").run
            [Call.set 1, Call.get 1 none, Call.set 1000000001]).m_timeStart)] = [0, 0]
    ∧ (((TimeTracker.create 1 1 "" "ms").run
        [Call.set 1, Call.get 1 none, Call.set 1000000001]).rendered 1000000001).m_timeMin = 0
    ∧ (((TimeTracker.create 1 1 "" "ms").run
        [Call.set 1, Call.get 1 none, Call.set 1000000001]).rendered 1000000001).m_timeMax
        = DBL_MIN
    ∧ (((TimeTracker.create 1 1 "" "ms").run
        [Call.set 1, Call.get 1 none, Call.set 1000000001]).rendered 1000000001).m_timeMax
        ≠ 0 := by
  obtain ⟨hret, hmin, hmax, -, -, -, -, -, -, -, -, hd⟩ := zero_samples_rendered
  refine ⟨hret, hd, hmin, hmax, ?_⟩
  rw [hmax]; exact ne_of_gt DBL_MIN_pos

/-- C16, at two failing inputs. After two samples of duration zero the report ends in
`( 0.00,0.00,0.00)`, and after one sample of 1 ms and one of 2 ms in
`( 1.00,1.50,2.00)`: only the minimum is padded to five characters, the average and
the maximum occupy four. -/
theorem report_pads_minimum_only :
    ((((TimeTracker.create 1 1 "" "ms").run
          [Call.set 1, Call.get 1 none, Call.set 1000000001]).get 1000000001 none).1 = true
      ∧ deliveredReport (((TimeTracker.create 1 1 "" "ms").run
          [Call.set 1, Call.get 1 none, Call.set 1000000001]).get 1000000001 none)
        = " Exec count [2](2) Exec time(ms) ( 0.00,0.00,0.00)")
    ∧ ((((TimeTracker.create 1 1 "" "ms").run
          [Call.set 1, Call.get 1000001 none, Call.set 1000000001]).get 1002000001 none).1 = true
      ∧ deliveredReport (((TimeTracker.create 1 1 "" "ms").run
          [Call.set 1, Call.get 1000001 none, Call.set 1000000001]).get 1002000001 none)
        = " Exec count [2](2) Exec time(ms) ( 1.00,1.50,2.00)") :=
  ⟨⟨zero_samples_rendered.1, zero_samples_text⟩, ⟨two_samples_rendered.1, two_samples_text⟩⟩

/-! ## C4, C17 and C18: the samples of a report period -/

theorem doubleSum_snoc (d : List ℚ) (x : ℚ) :
    doubleSum (d ++ [x]) = roundDouble (doubleSum d + x) := by
  simp only [doubleSum, List.foldl_append, List.foldl_cons, List.foldl_nil]

/-- The exact mean of a non-empty list lies between any two bounds of its members. -/
theorem mean_bounds (d : List ℚ) (lo hi : ℚ) (hd : 1 ≤ d.length)
    (hlo : ∀ x ∈ d, lo ≤ x) (hhi : ∀ x ∈ d, x ≤ hi) :
    lo ≤ d.sum / (d.length : ℚ) ∧ d.sum / (d.length : ℚ) ≤ hi := by
  have key : ∀ l : List ℚ, (∀ x ∈ l, lo ≤ x) → (∀ x ∈ l, x ≤ hi) →
      lo * (l.length : ℚ) ≤ l.sum ∧ l.sum ≤ hi * (l.length : ℚ) := by
    intro l
    induction l with
    | nil => intro _ _; simp
    | cons a l ih =>
      intro h1 h2
      obtain ⟨i1, i2⟩ := ih (fun x hx => h1 x (List.mem_cons_of_mem a hx))
        (fun x hx => h2 x (List.mem_cons_of_mem a hx))
      have a1 := h1 a (List.mem_cons_self a l)
      have a2 := h2 a (List.mem_cons_self a l)
      simp only [List.sum_cons, List.length_cons, Nat.cast_add, Nat.cast_one]
      constructor <;> nlinarith
  obtain ⟨k1, k2⟩ := key d hlo hhi
  have hpos : (0 : ℚ) < (d.length : ℚ) := by exact_mod_cast hd
  exact ⟨(le_div_iff₀ hpos).mpr k1, (div_le_iff₀ hpos).mpr k2⟩

/-- Lines 278-284 keep minimum and maximum bounds of the durations of the period. -/
theorem minmax_snoc (d : List ℚ) (lo hi t : ℚ) (hlo : ∀ x ∈ d, lo ≤ x)
    (hhi : ∀ x ∈ d, x ≤ hi) :
    (∀ x ∈ d ++ [t], (if t < lo then t else lo) ≤ x)
    ∧ (∀ x ∈ d ++ [t], x ≤ (if t > hi then t else hi)) := by
  constructor
  · intro x hx
    rcases List.mem_append.mp hx with h | h
    · have := hlo x h
      split_ifs with c
      · linarith
      · exact this
    · rw [List.mem_singleton.mp h]
      split_ifs with c
      · exact le_refl t
      · exact not_lt.mp c
  · intro x hx
    rcases List.mem_append.mp hx with h | h
    · have := hhi x h
      split_ifs with c
      · linarith
      · exact this
    · rw [List.mem_singleton.mp h]
      split_ifs with c
      · exact le_refl t
      · exact not_lt.mp c

/-- Minimum and maximum are left alone by `set`. -/
theorem TimeTracker.set_minmax (s : TimeTracker) (now : Int) :
    (s.set now).m_timeMin = s.m_timeMin ∧ (s.set now).m_timeMax = s.m_timeMax := by
  simp only [TimeTracker.set]
  split_ifs <;> simp

/-- A `stop` call that prints nothing found no uncommitted count and an empty vector,
and leaves the statistics alone. -/
theorem TimeTracker.stop_false {s : TimeTracker} (h : s.stop.1 = false) :
    s.m_executionCountTotalInOneSec = 0 ∧ s.m_vecExecutionOneSec = []
    ∧ s.stop.2.m_executionTimeTotalInMilliseconds = s.m_executionTimeTotalInMilliseconds
    ∧ s.stop.2.m_executionCountTotalInNsec = s.m_executionCountTotalInNsec
    ∧ s.stop.2.m_timeMin = s.m_timeMin
    ∧ s.stop.2.m_timeMax = s.m_timeMax := by
  have hv : s.flush.m_vecExecutionOneSec = [] := by
    by_contra hv
    rw [TimeTracker.stop_true_of_nonempty hv] at h
    simp at h
  have h0 : s.m_executionCountTotalInOneSec = 0 := by
    by_contra h0
    simp [TimeTracker.flush, h0, TimeTracker.pushCount] at hv
  have hf : s.flush = s := by simp [TimeTracker.flush, h0]
  rw [hf] at hv
  refine ⟨h0, hv, ?_, ?_, ?_, ?_⟩
  · show (s.flush.getReport s.flush.m_report).2.1.m_executionTimeTotalInMilliseconds = _
    rw [hf, s.getReport_empty _ hv]
  · show (s.flush.getReport s.flush.m_report).2.1.m_executionCountTotalInNsec = _
    rw [hf, s.getReport_empty _ hv]
  · show (s.flush.getReport s.flush.m_report).2.1.m_timeMin = _
    rw [hf, s.getReport_empty _ hv]
  · show (s.flush.getReport s.flush.m_report).2.1.m_timeMax = _
    rw [hf, s.getReport_empty _ hv]

/-- A `stop` call that prints a report leaves zero period totals behind. -/
theorem TimeTracker.stop_true {s : TimeTracker} (h : s.stop.1 = true) :
    s.stop.2.m_executionTimeTotalInMilliseconds = 0
    ∧ s.stop.2.m_executionCountTotalInNsec = 0 := by
  have hv := (TimeTracker.stop_rendered h).2
  constructor
  · show (s.flush.getReport s.flush.m_report).2.1.m_executionTimeTotalInMilliseconds = _
    rw [s.flush.getReport_nonempty _ hv]; rfl
  · show (s.flush.getReport s.flush.m_report).2.1.m_executionCountTotalInNsec = _
    rw [s.flush.getReport_nonempty _ hv]; rfl

/-- One call keeps the duration total equal to the rounded sum of the period's
durations, the two period counters equal to their number, and minimum and maximum
bounds of them. -/
theorem TimeTracker.step_stat {s : TimeTracker} {n : Nat} (h : s.Inv n) (c : Call)
    (hn : n + (if s.recordsSample c then 1 else 0) < 2 ^ 64) (d : List ℚ)
    (ht : s.m_executionTimeTotalInMilliseconds = doubleSum d)
    (hc : s.m_executionCountTotalInNsec + s.m_executionCountTotalInOneSec = d.length)
    (hlo : ∀ x ∈ d, s.m_timeMin ≤ x) (hhi : ∀ x ∈ d, x ≤ s.m_timeMax) :
    (s.step c).m_executionTimeTotalInMilliseconds = doubleSum (s.durationsStep d c)
    ∧ (s.step c).m_executionCountTotalInNsec + (s.step c).m_executionCountTotalInOneSec
        = (s.durationsStep d c).length
    ∧ (∀ x ∈ s.durationsStep d c, (s.step c).m_timeMin ≤ x)
    ∧ (∀ x ∈ s.durationsStep d c, x ≤ (s.step c).m_timeMax) := by
  have hcount := h.count
  cases c with
  | set now =>
    obtain ⟨f1, f2, f3⟩ := s.set_stats now
    obtain ⟨f4, f5⟩ := s.set_minmax now
    show (s.set now).m_executionTimeTotalInMilliseconds = doubleSum d
      ∧ (s.set now).m_executionCountTotalInNsec + (s.set now).m_executionCountTotalInOneSec
        = d.length
      ∧ (∀ x ∈ d, (s.set now).m_timeMin ≤ x) ∧ (∀ x ∈ d, x ≤ (s.set now).m_timeMax)
    rw [f1, f2, f3, f4, f5]; exact ⟨ht, hc, hlo, hhi⟩
  | get now out_ss =>
    show (s.get now out_ss).2.1.m_executionTimeTotalInMilliseconds = _
      ∧ (s.get now out_ss).2.1.m_executionCountTotalInNsec
        + (s.get now out_ss).2.1.m_executionCountTotalInOneSec = _
      ∧ (∀ x ∈ _, (s.get now out_ss).2.1.m_timeMin ≤ x)
      ∧ (∀ x ∈ _, x ≤ (s.get now out_ss).2.1.m_timeMax)
    simp only [TimeTracker.durationsStep]
    by_cases h0 : s.m_timeStart = 0
    · rw [s.get_first now out_ss h0]
      simp only [Bool.false_eq_true, if_false, h0, if_true]
      exact ⟨ht, hc, hlo, hhi⟩
    · simp only [TimeTracker.recordsSample, h0, ne_eq, not_false_eq_true, decide_True,
        if_true] at hn
      have hw1 : wrap64 (s.m_executionCountTotalInOneSec + 1)
          = s.m_executionCountTotalInOneSec + 1 := wrap64_of_lt (by omega)
      have hw2 : wrap64 (s.m_executionCountTotalInNsec + (s.m_executionCountTotalInOneSec + 1))
          = s.m_executionCountTotalInNsec + (s.m_executionCountTotalInOneSec + 1) :=
        wrap64_of_lt (by omega)
      have hst := s.rendered_stats now
      have hfr := s.rendered_frame now
      obtain ⟨m1, m2⟩ := minmax_snoc d s.m_timeMin s.m_timeMax
        (toMilliseconds (now - s.m_timeStart)) hlo hhi
      by_cases hr : s.rollsOver now
      · by_cases hd : s.m_vecExecutionOneSec.length + 1 < s.m_vecExecutionDepth
        · rw [s.get_roll now out_ss h0 hr hd]
          simp only [Bool.false_eq_true, if_false, h0, doubleSum_snoc,
            List.length_append, List.length_singleton]
          refine ⟨by rw [← ht]; exact hst.1, ?_, ?_, ?_⟩
          · show (s.rendered now).m_executionCountTotalInNsec
              + (s.rendered now).m_executionCountTotalInOneSec = _
            rw [hst.2.1, hfr.2.2.2.2.2.1, hw1, hw2]; omega
          · show ∀ x ∈ _, (s.rendered now).m_timeMin ≤ x
            rw [hst.2.2.1]; exact m1
          · show ∀ x ∈ _, x ≤ (s.rendered now).m_timeMax
            rw [hst.2.2.2]; exact m2
        · have hret : (s.get now out_ss).1 = true := by
            cases out_ss with
            | none => rw [s.get_report_none now h0 hr (by omega)]
            | some content => rw [s.get_report_some now content h0 hr (by omega)]
          simp only [hret, if_true, List.length_nil, List.not_mem_nil, false_imp_iff,
            implies_true, and_true]
          cases out_ss with
          | none =>
            rw [s.get_report_none now h0 hr (by omega)]
            exact ⟨rfl, by show 0 + (s.rendered now).m_executionCountTotalInOneSec = 0
                           rw [hfr.2.2.2.2.2.1]⟩
          | some content =>
            rw [s.get_report_some now content h0 hr (by omega)]
            exact ⟨rfl, by show 0 + (s.rendered now).m_executionCountTotalInOneSec = 0
                           rw [hfr.2.2.2.2.2.1]⟩
      · rw [s.get_quiet now out_ss h0 hr]
        have f := ({ s with m_timeEnd := now } : TimeTracker).record_frame
        have c1 := ({ s with m_timeEnd := now } : TimeTracker).record_counter
        have t1 := ({ s with m_timeEnd := now } : TimeTracker).record_timeTotal
        have r1 := ({ s with m_timeEnd := now } : TimeTracker).record_timeMin
        have r2 := ({ s with m_timeEnd := now } : TimeTracker).record_timeMax
        simp only [Bool.false_eq_true, if_false, h0, doubleSum_snoc,
          List.length_append, List.length_singleton]
        refine ⟨by rw [← ht]; exact t1, ?_, by rw [r1]; exact m1, by rw [r2]; exact m2⟩
        rw [f.2.2.1, c1]
        show s.m_executionCountTotalInNsec + wrap64 (s.m_executionCountTotalInOneSec + 1) = _
        rw [hw1]; omega
  | stop =>
    show s.stop.2.m_executionTimeTotalInMilliseconds = _
      ∧ s.stop.2.m_executionCountTotalInNsec + s.stop.2.m_executionCountTotalInOneSec = _
      ∧ (∀ x ∈ _, s.stop.2.m_timeMin ≤ x) ∧ (∀ x ∈ _, x ≤ s.stop.2.m_timeMax)
    simp only [TimeTracker.durationsStep]
    rw [s.stop_frame.2.2.2.2.2.2.2]
    cases hs : s.stop.1 with
    | true =>
      obtain ⟨e1, e2⟩ := TimeTracker.stop_true hs
      simp only [if_true, List.length_nil, List.not_mem_nil, false_imp_iff,
        implies_true, and_true]
      exact ⟨e1, by rw [e2]⟩
    | false =>
      obtain ⟨e0, -, e1, e2, e3, e4⟩ := TimeTracker.stop_false hs
      simp only [Bool.false_eq_true, if_false]
      rw [e1, e2, e3, e4]
      exact ⟨ht, by rw [← hc, e0], hlo, hhi⟩

theorem TimeTracker.run_stat_aux (cs : List Call) :
    ∀ (s : TimeTracker) (n : Nat) (d : List ℚ), s.Inv n →
      s.m_vecExecutionOneSec.length < s.m_vecExecutionDepth → n + s.samples cs < 2 ^ 64 →
      s.m_executionTimeTotalInMilliseconds = doubleSum d →
      s.m_executionCountTotalInNsec + s.m_executionCountTotalInOneSec = d.length →
      (∀ x ∈ d, s.m_timeMin ≤ x) → (∀ x ∈ d, x ≤ s.m_timeMax) →
      (s.run cs).m_executionTimeTotalInMilliseconds = doubleSum (s.periodDurations d cs)
      ∧ (s.run cs).m_executionCountTotalInNsec + (s.run cs).m_executionCountTotalInOneSec
          = (s.periodDurations d cs).length
      ∧ (∀ x ∈ s.periodDurations d cs, (s.run cs).m_timeMin ≤ x)
      ∧ (∀ x ∈ s.periodDurations d cs, x ≤ (s.run cs).m_timeMax) := by
  induction cs with
  | nil => intro s n d _ _ _ ht hc hlo hhi; exact ⟨ht, hc, hlo, hhi⟩
  | cons c cs ih =>
    intro s n d h hroom hn ht hc hlo hhi
    rw [TimeTracker.samples] at hn
    obtain ⟨h1, h2⟩ := TimeTracker.step_inv h hroom c (by omega)
    obtain ⟨h3, h4, h5, h6⟩ := TimeTracker.step_stat h c (by omega) d ht hc hlo hhi
    rw [TimeTracker.run_cons, TimeTracker.periodDurations]
    exact ih (s.step c) _ _ h1 h2 (by omega) h3 h4 h5 h6

/-- In every tracker reached from the constructor (fewer than `2^64` samples recorded)
the duration total is the rounded sum of the durations recorded since the last report,
the two period counters add up to their number, and every one of them lies between
`m_timeMin` and `m_timeMax`. -/
theorem TimeTracker.run_stat (R E : Nat) (p u : String) (cs : List Call)
    (hn : (TimeTracker.create R E p u).samples cs < 2 ^ 64) :
    ((TimeTracker.create R E p u).run cs).m_executionTimeTotalInMilliseconds
      = doubleSum ((TimeTracker.create R E p u).periodDurations [] cs)
    ∧ ((TimeTracker.create R E p u).run cs).m_executionCountTotalInNsec
        + ((TimeTracker.create R E p u).run cs).m_executionCountTotalInOneSec
      = ((TimeTracker.create R E p u).periodDurations [] cs).length
    ∧ (∀ x ∈ (TimeTracker.create R E p u).periodDurations [] cs,
        ((TimeTracker.create R E p u).run cs).m_timeMin ≤ x)
    ∧ (∀ x ∈ (TimeTracker.create R E p u).periodDurations [] cs,
        x ≤ ((TimeTracker.create R E p u).run cs).m_timeMax) :=
  TimeTracker.run_stat_aux cs (TimeTracker.create R E p u) 0 []
    (TimeTracker.create_inv R E p u) (TimeTracker.create_room R E p u) (by omega) rfl rfl
    (fun _ hx => absurd hx (List.not_mem_nil _)) (fun _ hx => absurd hx (List.not_mem_nil _))

/-- The vector and the statistics after the flush of `stop`. -/
theorem TimeTracker.flush_stats (s : TimeTracker) :
    s.flush.m_vecExecutionOneSec
      = s.m_vecExecutionOneSec
        ++ (if s.m_executionCountTotalInOneSec ≠ 0 then [s.m_executionCountTotalInOneSec] else [])
    ∧ s.flush.m_executionTimeTotalInMilliseconds = s.m_executionTimeTotalInMilliseconds
    ∧ s.flush.m_executionCountTotalInNsec
      = (if s.m_executionCountTotalInOneSec ≠ 0
         then wrap64 (s.m_executionCountTotalInNsec + s.m_executionCountTotalInOneSec)
         else s.m_executionCountTotalInNsec)
    ∧ s.flush.m_timeMin = s.m_timeMin
    ∧ s.flush.m_timeMax = s.m_timeMax := by
  simp only [TimeTracker.flush]
  split_ifs <;> simp [TimeTracker.pushCount]

/-! ### Three samples of 45000 ns -/

theorem toMilliseconds_lt_1000 (d : Int) (h : d < 1000000000) : ¬ (1000 ≤ toMilliseconds d) := by
  intro hge
  have h1 := (toMilliseconds_ge_iff d 1000 (by norm_num) (by norm_num)).mp
    (by simpa using hge)
  have h2 : ((1000 * 1000000 : Nat) : Int) = 1000000000 := by norm_num
  rw [h2] at h1
  omega

/-- A tick difference of 45000 ns converts to the double nearest to 0.045. -/
theorem toMilliseconds_45us :
    toMilliseconds 45000 = 3242591731706757 / 72057594037927936 := by
  have h1 : roundDouble ((45000 : Int) : ℚ) = 45000 := by
    have := roundDouble_intCast 45000 (by norm_num)
    simpa using this
  rw [toMilliseconds, h1]
  rw [roundDouble_eval (45000 / 1000000) (-5) 6485183463413514 (by norm_num) (by norm_num)
    (by norm_num) (roundHalfEven_eq_of_near _ _ (by norm_num) (by norm_num))]
  norm_num

theorem roundDouble_45us :
    roundDouble (3242591731706757 / 72057594037927936) = 3242591731706757 / 72057594037927936 := by
  have h := roundDouble_of_exact 6485183463413514 (-57) (by norm_num) (by norm_num)
  norm_num at h
  exact h

theorem roundDouble_90us :
    roundDouble (3242591731706757 / 72057594037927936 + 3242591731706757 / 72057594037927936)
      = 3242591731706757 / 36028797018963968 := by
  have h := roundDouble_of_exact 6485183463413514 (-56) (by norm_num) (by norm_num)
  norm_num at h
  norm_num
  exact h

/-- The sum of the doubles nearest to 0.09 and to 0.045 lies half-way between two
doubles and is rounded up to the even one. -/
theorem roundDouble_135us :
    roundDouble (3242591731706757 / 36028797018963968 + 3242591731706757 / 72057594037927936)
      = 607985949695017 / 4503599627370496 := by
  rw [roundDouble_eval _ (-3) 4863887597560136 (by norm_num) (by norm_num)
    (by norm_num) (by
      have := roundHalfEven_tie 4863887597560135
      norm_num at this ⊢
      exact this)]
  norm_num

theorem roundDouble_135us_third :
    roundDouble (607985949695017 / 4503599627370496 / 3)
      = 6485183463413515 / 144115188075855872 := by
  rw [roundDouble_eval _ (-5) 6485183463413515 (by norm_num) (by norm_num)
    (by norm_num) (roundHalfEven_eq_of_near _ _ (by norm_num) (by norm_num))]
  norm_num

/-- The run `set`, `get`, `set`, `get`, `set` and the state from which the following
`get` renders, on a fresh tracker with report interval and sub-interval 1 s, when each of
the three `get` calls measures the same duration `a` and only the last one finds the
sub-interval over. -/
theorem three_sample_run_aux (s : TimeTracker) (t1 t2 t3 t4 t5 t6 : Int) (a tot avg : ℚ)
    (hf : s.Fresh) (c1 : s.m_executionCountIntervalInSeconds = 1)
    (c2 : s.m_vecExecutionDepth = 1) (ht1 : t1 ≠ 0) (ht3 : t3 ≠ 0) (ht5 : t5 ≠ 0)
    (h21 : toMilliseconds (t2 - t1) = a) (h43 : toMilliseconds (t4 - t3) = a)
    (h65 : toMilliseconds (t6 - t5) = a) (h41 : ¬ (1000 ≤ toMilliseconds (t4 - t1)))
    (h61 : 1000 ≤ toMilliseconds (t6 - t1)) (ha : ¬ (1000 ≤ a)) (hlo : a < DBL_MAX)
    (hhi : DBL_MIN < a)
    (htot : roundDouble (roundDouble (roundDouble (0 + a) + a) + a) = tot)
    (havg : roundDouble (tot / roundDouble 3) = avg) :
    ((((((s.set t1).get t2 none).2.1.set t3).get t4 none).2.1.set t5).get t6 none).1 = true
    ∧ ((((((s.set t1).get t2 none).2.1.set t3).get t4 none).2.1.set t5).rendered t6).m_timeMin
        = a
    ∧ ((((((s.set t1).get t2 none).2.1.set t3).get t4 none).2.1.set t5).rendered t6).m_timeMax
        = a
    ∧ ((((((s.set t1).get t2 none).2.1.set t3).get t4 none).2.1.set t5).rendered
        t6).m_executionTimeTotalInMilliseconds = tot
    ∧ ((((((s.set t1).get t2 none).2.1.set t3).get t4 none).2.1.set t5).rendered t6).average
        = avg
    ∧ ((((((s.set t1).get t2 none).2.1.set t3).get t4 none).2.1.set t5).rendered
        t6).m_vecExecutionOneSec = [3]
    ∧ ((((((s.set t1).get t2 none).2.1.set t3).get t4 none).2.1.set t5).rendered
        t6).m_executionCountTotalInNsec = 3
    ∧ ((((((s.set t1).get t2 none).2.1.set t3).get t4 none).2.1.set t5).rendered
        t6).m_reportPrefix = s.m_reportPrefix
    ∧ ((((((s.set t1).get t2 none).2.1.set t3).get t4 none).2.1.set t5).rendered
        t6).m_timeUnitName = s.m_timeUnitName
    ∧ ((((((s.set t1).get t2 none).2.1.set t3).get t4 none).2.1.set t5).rendered
        t6).m_scaleRatio = s.m_scaleRatio
    ∧ ((((((s.set t1).get t2 none).2.1.set t3).get t4 none).2.1.set t5).rendered
        t6).m_reportPrecision = s.m_reportPrecision
    ∧ (((((s.set t1).get t2 none).2.1.set t3).get t4 none).2.1.set t5).sink none
        = StringStream.empty
    ∧ (if ((((s.set t1).get t2 none).2.1.set t3).get t4 none).1 then []
        else if (((s.set t1).get t2 none).2.1.set t3).m_timeStart = 0 then
          (if ((s.set t1).get t2 none).1 then []
            else if (s.set t1).m_timeStart = 0 then ([] : List ℚ)
            else [] ++ [toMilliseconds (t2 - (s.set t1).m_timeStart)])
        else
          (if ((s.set t1).get t2 none).1 then []
            else if (s.set t1).m_timeStart = 0 then ([] : List ℚ)
            else [] ++ [toMilliseconds (t2 - (s.set t1).m_timeStart)])
          ++ [toMilliseconds (t4 - (((s.set t1).get t2 none).2.1.set t3).m_timeStart)])
        ++ [toMilliseconds
            (t6 - (((((s.set t1).get t2 none).2.1.set t3).get t4 none).2.1.set t5).m_timeStart)]
        = [a, a, a] := by
  subst havg htot
  norm_num [TimeTracker.get_eq, TimeTracker.set_eq, TimeTracker.rendered, TimeTracker.pushCount,
    TimeTracker.record_eq, TimeTracker.getReport, TimeTracker.reset, TimeTracker.average,
    TimeTracker.sink, hf.mode, hf.timeStart,
    hf.elapseTimeStart, hf.inOneSec, hf.inNsec, hf.timeTotal, hf.timeMin, hf.timeMax, hf.vec,
    hf.report, c1, c2, ht1, ht3, ht5, h21, h43, h65, h41, h61, ha, hlo, hhi,
    ONE_SEC_IN_MILLISECOND, MODE_PERFORMANCE, MODE_LOOP, wrap64]

/-- The state from which `get` renders after three samples of 45000 ns. -/
theorem three_samples_rendered :
    (((TimeTracker.create 1 1 "" "ms").run
        [Call.set 1, Call.get 45001 none, Call.set 45001, Call.get 90001 none,
          Call.set 999955001]).get 1000000001 none).1 = true
    ∧ (((TimeTracker.create 1 1 "" "ms").run
        [Call.set 1, Call.get 45001 none, Call.set 45001, Call.get 90001 none,
          Call.set 999955001]).rendered 1000000001).m_timeMin
        = 3242591731706757 / 72057594037927936
    ∧ (((TimeTracker.create 1 1 "" "ms").run
        [Call.set 1, Call.get 45001 none, Call.set 45001, Call.get 90001 none,
          Call.set 999955001]).rendered 1000000001).m_timeMax
        = 3242591731706757 / 72057594037927936
    ∧ (((TimeTracker.create 1 1 "" "ms").run
        [Call.set 1, Call.get 45001 none, Call.set 45001, Call.get 90001 none,
          Call.set 999955001]).rendered 1000000001).m_executionTimeTotalInMilliseconds
        = 607985949695017 / 4503599627370496
    ∧ (((TimeTracker.create 1 1 "" "ms").run
        [Call.set 1, Call.get 45001 none, Call.set 45001, Call.get 90001 none,
          Call.set 999955001]).rendered 1000000001).average
        = 6485183463413515 / 144115188075855872
    ∧ (((TimeTracker.create 1 1 "" "ms").run
        [Call.set 1, Call.get 45001 none, Call.set 45001, Call.get 90001 none,
          Call.set 999955001]).rendered 1000000001).m_vecExecutionOneSec = [3]
    ∧ (((TimeTracker.create 1 1 "" "ms").run
        [Call.set 1, Call.get 45001 none, Call.set 45001, Call.get 90001 none,
          Call.set 999955001]).rendered 1000000001).m_executionCountTotalInNsec = 3
    ∧ (((TimeTracker.create 1 1 "" "ms").run
        [Call.set 1, Call.get 45001 none, Call.set 45001, Call.get 90001 none,
          Call.set 999955001]).rendered 1000000001).m_reportPrefix
        = (TimeTracker.create 1 1 "" "ms").m_reportPrefix
    ∧ (((TimeTracker.create 1 1 "" "ms").run
        [Call.set 1, Call.get 45001 none, Call.set 45001, Call.get 90001 none,
          Call.set 999955001]).rendered 1000000001).m_timeUnitName
        = (TimeTracker.create 1 1 "" "ms").m_timeUnitName
    ∧ (((TimeTracker.create 1 1 "" "ms").run
        [Call.set 1, Call.get 45001 none, Call.set 45001, Call.get 90001 none,
          Call.set 999955001]).rendered 1000000001).m_scaleRatio
        = (TimeTracker.create 1 1 "" "ms").m_scaleRatio
    ∧ (((TimeTracker.create 1 1 "" "ms").run
        [Call.set 1, Call.get 45001 none, Call.set 45001, Call.get 90001 none,
          Call.set 999955001]).rendered 1000000001).m_reportPrecision
        = (TimeTracker.create 1 1 "" "ms").m_reportPrecision
    ∧ ((TimeTracker.create 1 1 "" "ms").run
        [Call.set 1, Call.get 45001 none, Call.set 45001, Call.get 90001 none,
          Call.set 999955001]).sink none = StringStream.empty
    ∧ (TimeTracker.create 1 1 "" "ms").periodDurations []
          [Call.set 1, Call.get 45001 none, Call.set 45001, Call.get 90001 none,
            Call.set 999955001]
        ++ [toMilliseconds (1000000001 - ((TimeTracker.create 1 1 "" "ms").run
            [Call.set 1, Call.get 45001 none, Call.set 45001, Call.get 90001 none,
              Call.set 999955001]).m_timeStart)]
        = [3242591731706757 / 72057594037927936, 3242591731706757 / 72057594037927936,
            3242591731706757 / 72057594037927936] := by
  rw [TimeTracker.run_cons, TimeTracker.run_cons, TimeTracker.run_cons, TimeTracker.run_cons,
    TimeTracker.run_cons, TimeTracker.run_nil,
    TimeTracker.periodDurations_cons, TimeTracker.periodDurations_cons,
    TimeTracker.periodDurations_cons, TimeTracker.periodDurations_cons,
    TimeTracker.periodDurations_cons, TimeTracker.periodDurations_nil,
    TimeTracker.durationsStep_set, TimeTracker.durationsStep_get,
    TimeTracker.durationsStep_set, TimeTracker.durationsStep_get,
    TimeTracker.durationsStep_set,
    TimeTracker.step_set, TimeTracker.step_get, TimeTracker.step_set, TimeTracker.step_get,
    TimeTracker.step_set]
  exact three_sample_run_aux _ 1 45001 45001 90001 999955001 1000000001 _ _ _
    (TimeTracker.create_fresh 1 1 "" "ms") rfl rfl (by decide) (by decide) (by decide)
    (by norm_num [toMilliseconds_45us]) (by norm_num [toMilliseconds_45us])
    (by norm_num [toMilliseconds_45us]) (toMilliseconds_lt_1000 _ (by norm_num))
    (by norm_num [toMilliseconds_1s]) (by norm_num) (by norm_num [DBL_MAX])
    (by norm_num [DBL_MIN])
    (by rw [zero_add, roundDouble_45us, roundDouble_90us, roundDouble_135us])
    (by rw [roundDouble_three, roundDouble_135us_third])

/-- Digits of a non-negative value whose scaled magnitude is nearer to the natural
number `n` than to any other. -/
theorem fixedDigits_of_near (precision : Nat) (x : ℚ) (n : Nat) (h0 : 0 ≤ x)
    (h1 : (n : ℚ) - 1 / 2 < x * 10 ^ precision) (h2 : x * 10 ^ precision < (n : ℚ) + 1 / 2) :
    fixedDigits precision x
      = toString (n / 10 ^ precision) ++
        (if precision = 0 then ""
         else "." ++ String.mk (List.replicate
            (precision - (toString (n % 10 ^ precision)).length) '0')
           ++ toString (n % 10 ^ precision)) := by
  have hr : roundHalfEven (|x| * 10 ^ precision) = n := by
    rw [abs_of_nonneg h0]
    exact roundHalfEven_eq_of_near _ _ h1 h2
  simp only [fixedDigits, hr]

/-- The text of the report rendered after three samples of 45000 ns. -/
theorem three_samples_text :
    deliveredReport (((TimeTracker.create 1 1 "" "ms").run
        [Call.set 1, Call.get 45001 none, Call.set 45001, Call.get 90001 none,
          Call.set 999955001]).get 1000000001 none)
      = " Exec count [3](3) Exec time(ms) ( 0.04,0.05,0.04)" := by
  obtain ⟨hret, hmin, hmax, -, havg, h2, h3, h1, h4, h5, h6, hsink, -⟩ := three_samples_rendered
  have hd : 0 ≤ roundDouble (3242591731706757 / 72057594037927936 * 1)
      ∧ fixedDigits 2 (roundDouble (3242591731706757 / 72057594037927936 * 1)) = "0.04" := by
    rw [mul_one, roundDouble_45us]
    exact ⟨by norm_num, by
      rw [fixedDigits_of_near 2 _ 4 (by norm_num) (by norm_num) (by norm_num)]; decide⟩
  have hb : 0 ≤ roundDouble (6485183463413515 / 144115188075855872 * 1)
      ∧ fixedDigits 2 (roundDouble (6485183463413515 / 144115188075855872 * 1)) = "0.05" := by
    have e : roundDouble (6485183463413515 / 144115188075855872)
        = 6485183463413515 / 144115188075855872 := by
      have h := roundDouble_of_exact 6485183463413515 (-57) (by norm_num) (by norm_num)
      norm_num at h
      exact h
    rw [mul_one, e]
    exact ⟨by norm_num, by
      rw [fixedDigits_of_near 2 _ 5 (by norm_num) (by norm_num) (by norm_num)]; decide⟩
  rw [TimeTracker.get_delivered hret, hsink, StringStream.empty]
  rw [report_text_aux _ _ _ _ _ _ _ "[3]" "3" "0.04" "0.05" "0.04" (by rw [h2]; decide)
    (by rw [h3]; decide) h4 h5 h6 hmin havg hmax hd hb hd, h1]
  decide

/-! ### C4 -/

/-- C4, as stated, fails. Three samples of 45000 ns each are recorded and the third
`get` renders the report. Minimum and maximum are the double nearest to 0.045; the
duration total, accumulated in double precision, is larger than three times that value,
so the total divided by the count, in exact arithmetic as well as rounded to a double as
line 214 computes it, is above the maximum. The report reads `( 0.04,0.05,0.04)`. -/
theorem average_exceeds_maximum :
    (((TimeTracker.create 1 1 "" "ms").run
        [Call.set 1, Call.get 45001 none, Call.set 45001, Call.get 90001 none,
          Call.set 999955001]).get 1000000001 none).1 = true
    ∧ 1 ≤ (((TimeTracker.create 1 1 "" "ms").run
        [Call.set 1, Call.get 45001 none, Call.set 45001, Call.get 90001 none,
          Call.set 999955001]).rendered 1000000001).m_executionCountTotalInNsec
    ∧ (((TimeTracker.create 1 1 "" "ms").run
        [Call.set 1, Call.get 45001 none, Call.set 45001, Call.get 90001 none,
          Call.set 999955001]).rendered 1000000001).m_timeMax
      < (((TimeTracker.create 1 1 "" "ms").run
          [Call.set 1, Call.get 45001 none, Call.set 45001, Call.get 90001 none,
            Call.set 999955001]).rendered 1000000001).m_executionTimeTotalInMilliseconds
        / ((((TimeTracker.create 1 1 "" "ms").run
          [Call.set 1, Call.get 45001 none, Call.set 45001, Call.get 90001 none,
            Call.set 999955001]).rendered 1000000001).m_executionCountTotalInNsec : ℚ)
    ∧ (((TimeTracker.create 1 1 "" "ms").run
        [Call.set 1, Call.get 45001 none, Call.set 45001, Call.get 90001 none,
          Call.set 999955001]).rendered 1000000001).m_timeMax
      < (((TimeTracker.create 1 1 "" "ms").run
          [Call.set 1, Call.get 45001 none, Call.set 45001, Call.get 90001 none,
            Call.set 999955001]).rendered 1000000001).average
    ∧ deliveredReport (((TimeTracker.create 1 1 "" "ms").run
        [Call.set 1, Call.get 45001 none, Call.set 45001, Call.get 90001 none,
          Call.set 999955001]).get 1000000001 none)
      = " Exec count [3](3) Exec time(ms) ( 0.04,0.05,0.04)" := by
  obtain ⟨hret, -, hmax, htot, havg, -, hc, -⟩ := three_samples_rendered
  refine ⟨hret, by rw [hc]; decide, ?_, ?_, three_samples_text⟩
  · rw [hmax, htot, hc]; norm_num
  · rw [hmax, havg]; norm_num

/-- C4, amended. For every sequence of calls and clock readings (fewer than `2^64`
samples recorded), every rendered report, whether printed by `stop` or handed out by a
`get` call that returns true, is rendered from a state whose count total is at least 1
and is the number of samples of the period, in which every sample duration of the
period lies between `m_timeMin` and `m_timeMax`, so that
`m_timeMin <= mean <= m_timeMax`, where `mean` is the exact sum of the sample durations
of the period divided by the count total. -/
theorem min_le_mean_le_max (R E : Nat) (p u : String) (cs : List Call)
    (hn : (TimeTracker.create R E p u).samples cs < 2 ^ 64) :
    (((TimeTracker.create R E p u).run cs).stop.1 = true →
        ((TimeTracker.create R E p u).run cs).stop.2.m_report
          = ((TimeTracker.create R E p u).run cs).flush.reportOn
              ((TimeTracker.create R E p u).run cs).m_report
        ∧ 1 ≤ ((TimeTracker.create R E p u).run cs).flush.m_executionCountTotalInNsec
        ∧ ((TimeTracker.create R E p u).run cs).flush.m_executionCountTotalInNsec
          = ((TimeTracker.create R E p u).periodDurations [] cs).length
        ∧ (∀ x ∈ (TimeTracker.create R E p u).periodDurations [] cs,
            ((TimeTracker.create R E p u).run cs).flush.m_timeMin ≤ x
            ∧ x ≤ ((TimeTracker.create R E p u).run cs).flush.m_timeMax)
        ∧ ((TimeTracker.create R E p u).run cs).flush.m_timeMin
          ≤ ((TimeTracker.create R E p u).periodDurations [] cs).sum
            / (((TimeTracker.create R E p u).run cs).flush.m_executionCountTotalInNsec : ℚ)
        ∧ ((TimeTracker.create R E p u).periodDurations [] cs).sum
            / (((TimeTracker.create R E p u).run cs).flush.m_executionCountTotalInNsec : ℚ)
          ≤ ((TimeTracker.create R E p u).run cs).flush.m_timeMax)
    ∧ (∀ (now : Int) (out_ss : Option StringStream),
        (TimeTracker.create R E p u).samples (cs ++ [Call.get now out_ss]) < 2 ^ 64 →
        (((TimeTracker.create R E p u).run cs).get now out_ss).1 = true →
        deliveredReport (((TimeTracker.create R E p u).run cs).get now out_ss)
          = ((((TimeTracker.create R E p u).run cs).rendered now).reportOn
            (((TimeTracker.create R E p u).run cs).sink out_ss)).str
        ∧ 1 ≤ (((TimeTracker.create R E p u).run cs).rendered now).m_executionCountTotalInNsec
        ∧ (((TimeTracker.create R E p u).run cs).rendered now).m_executionCountTotalInNsec
          = ((TimeTracker.create R E p u).periodDurations [] cs
              ++ [toMilliseconds (now - ((TimeTracker.create R E p u).run cs).m_timeStart)]).length
        ∧ (∀ x ∈ (TimeTracker.create R E p u).periodDurations [] cs
              ++ [toMilliseconds (now - ((TimeTracker.create R E p u).run cs).m_timeStart)],
            (((TimeTracker.create R E p u).run cs).rendered now).m_timeMin ≤ x
            ∧ x ≤ (((TimeTracker.create R E p u).run cs).rendered now).m_timeMax)
        ∧ (((TimeTracker.create R E p u).run cs).rendered now).m_timeMin
          ≤ ((TimeTracker.create R E p u).periodDurations [] cs
              ++ [toMilliseconds (now - ((TimeTracker.create R E p u).run cs).m_timeStart)]).sum
            / ((((TimeTracker.create R E p u).run cs).rendered now).m_executionCountTotalInNsec
                : ℚ)
        ∧ ((TimeTracker.create R E p u).periodDurations [] cs
              ++ [toMilliseconds (now - ((TimeTracker.create R E p u).run cs).m_timeStart)]).sum
            / ((((TimeTracker.create R E p u).run cs).rendered now).m_executionCountTotalInNsec
                : ℚ)
          ≤ (((TimeTracker.create R E p u).run cs).rendered now).m_timeMax) := by
  obtain ⟨hinv, -⟩ := TimeTracker.run_inv R E p u cs hn
  obtain ⟨-, hc, hlo, hhi⟩ := TimeTracker.run_stat R E p u cs hn
  have hcount := hinv.count
  generalize (TimeTracker.create R E p u).periodDurations [] cs = d at hc hlo hhi ⊢
  refine ⟨fun hs => ?_, fun now out_ss hn2 hret => ?_⟩
  · obtain ⟨-, -, f3, f4, f5⟩ := TimeTracker.flush_stats ((TimeTracker.create R E p u).run cs)
    have e1 : ((TimeTracker.create R E p u).run cs).flush.m_executionCountTotalInNsec
        = d.length := by
      rw [f3, ← hc]
      split_ifs with h0
      · exact wrap64_of_lt (by omega)
      · have : ((TimeTracker.create R E p u).run cs).m_executionCountTotalInOneSec = 0 := by
          simpa using h0
        omega
    have hpos := ((TimeTracker.flush_inv hinv hn).count_pos (TimeTracker.stop_rendered hs).2).1
    have hm := mean_bounds d _ _ (by omega) hlo hhi
    rw [f4, f5, e1]
    exact ⟨(TimeTracker.stop_rendered hs).1, by omega, rfl, fun x hx => ⟨hlo x hx, hhi x hx⟩,
      hm.1, hm.2⟩
  · rw [TimeTracker.samples_snoc] at hn2
    obtain ⟨h0, -, -⟩ := TimeTracker.get_true_cases hret
    simp only [TimeTracker.recordsSample, h0, ne_eq, not_false_eq_true, decide_True,
      if_true] at hn2
    obtain ⟨-, g2, g3, g4⟩ := TimeTracker.rendered_stats ((TimeTracker.create R E p u).run cs) now
    obtain ⟨m1, m2⟩ := minmax_snoc d _ _
      (toMilliseconds (now - ((TimeTracker.create R E p u).run cs).m_timeStart)) hlo hhi
    have e1 : (((TimeTracker.create R E p u).run cs).rendered now).m_executionCountTotalInNsec
        = (d ++ [toMilliseconds (now - ((TimeTracker.create R E p u).run cs).m_timeStart)]).length := by
      rw [g2, List.length_append, List.length_singleton, ← hc,
        wrap64_of_lt (show _ + 1 < 2 ^ 64 by omega), wrap64_of_lt (by omega)]
      omega
    rw [← g3] at m1
    rw [← g4] at m2
    have hm := mean_bounds _ _ _ (by simp) m1 m2
    rw [e1]
    exact ⟨TimeTracker.get_delivered hret, by simp, rfl, fun x hx => ⟨m1 x hx, m2 x hx⟩,
      hm.1, hm.2⟩

/-- Instance of amended C4: after three samples of 45000 ns the exact mean of the
durations is the double nearest to 0.045, which is both minimum and maximum. -/
theorem min_le_mean_le_max_witness :
    (TimeTracker.create 1 1 "" "ms").samples
        [Call.set 1, Call.get 45001 none, Call.set 45001, Call.get 90001 none,
          Call.set 999955001] < 2 ^ 64
    ∧ (TimeTracker.create 1 1 "" "ms").samples
        ([Call.set 1, Call.get 45001 none, Call.set 45001, Call.get 90001 none,
          Call.set 999955001] ++ [Call.get 1000000001 none]) < 2 ^ 64
    ∧ (((TimeTracker.create 1 1 "" "ms").run
        [Call.set 1, Call.get 45001 none, Call.set 45001, Call.get 90001 none,
          Call.set 999955001]).get 1000000001 none).1 = true
    ∧ (((TimeTracker.create 1 1 "" "ms").run
        [Call.set 1, Call.get 45001 none, Call.set 45001, Call.get 90001 none,
          Call.set 999955001]).rendered 1000000001).m_timeMin
      ≤ ((TimeTracker.create 1 1 "" "ms").periodDurations []
            [Call.set 1, Call.get 45001 none, Call.set 45001, Call.get 90001 none,
              Call.set 999955001]
          ++ [toMilliseconds (1000000001 - ((TimeTracker.create 1 1 "" "ms").run
            [Call.set 1, Call.get 45001 none, Call.set 45001, Call.get 90001 none,
              Call.set 999955001]).m_timeStart)]).sum
        / ((((TimeTracker.create 1 1 "" "ms").run
            [Call.set 1, Call.get 45001 none, Call.set 45001, Call.get 90001 none,
              Call.set 999955001]).rendered 1000000001).m_executionCountTotalInNsec : ℚ)
    ∧ ((TimeTracker.create 1 1 "" "ms").periodDurations []
            [Call.set 1, Call.get 45001 none, Call.set 45001, Call.get 90001 none,
              Call.set 999955001]
          ++ [toMilliseconds (1000000001 - ((TimeTracker.create 1 1 "" "ms").run
            [Call.set 1, Call.get 45001 none, Call.set 45001, Call.get 90001 none,
              Call.set 999955001]).m_timeStart)]).sum
        / ((((TimeTracker.create 1 1 "" "ms").run
            [Call.set 1, Call.get 45001 none, Call.set 45001, Call.get 90001 none,
              Call.set 999955001]).rendered 1000000001).m_executionCountTotalInNsec : ℚ)
      ≤ (((TimeTracker.create 1 1 "" "ms").run
        [Call.set 1, Call.get 45001 none, Call.set 45001, Call.get 90001 none,
          Call.set 999955001]).rendered 1000000001).m_timeMax :=
  have hn1 : (TimeTracker.create 1 1 "" "ms").samples
      [Call.set 1, Call.get 45001 none, Call.set 45001, Call.get 90001 none,
        Call.set 999955001] < 2 ^ 64 :=
    lt_of_le_of_lt (TimeTracker.samples_le_length _ _) (by decide)
  have hn2 : (TimeTracker.create 1 1 "" "ms").samples
      ([Call.set 1, Call.get 45001 none, Call.set 45001, Call.get 90001 none,
        Call.set 999955001] ++ [Call.get 1000000001 none]) < 2 ^ 64 :=
    lt_of_le_of_lt (TimeTracker.samples_le_length _ _) (by decide)
  have h := (min_le_mean_le_max 1 1 "" "ms"
    [Call.set 1, Call.get 45001 none, Call.set 45001, Call.get 90001 none, Call.set 999955001]
    hn1).2 1000000001 none hn2 three_samples_rendered.1
  ⟨hn1, hn2, three_samples_rendered.1, h.2.2.2.2.1, h.2.2.2.2.2⟩

/-! ### C17 -/

/-- C17, as stated, fails. After three samples of 45000 ns each the count total is 3,
the number of samples, but the duration total, accumulated in double precision, is not
the sum of the three durations and the average is not that sum divided by 3: the second
addition of line 289 is rounded up. -/
theorem total_differs_from_sum :
    (((TimeTracker.create 1 1 "" "ms").run
        [Call.set 1, Call.get 45001 none, Call.set 45001, Call.get 90001 none,
          Call.set 999955001]).get 1000000001 none).1 = true
    ∧ (TimeTracker.create 1 1 "" "ms").periodDurations []
          [Call.set 1, Call.get 45001 none, Call.set 45001, Call.get 90001 none,
            Call.set 999955001]
        ++ [toMilliseconds (1000000001 - ((TimeTracker.create 1 1 "" "ms").run
            [Call.set 1, Call.get 45001 none, Call.set 45001, Call.get 90001 none,
              Call.set 999955001]).m_timeStart)]
        = [3242591731706757 / 72057594037927936, 3242591731706757 / 72057594037927936,
            3242591731706757 / 72057594037927936]
    ∧ (((TimeTracker.create 1 1 "" "ms").run
        [Call.set 1, Call.get 45001 none, Call.set 45001, Call.get 90001 none,
          Call.set 999955001]).rendered 1000000001).m_executionCountTotalInNsec = 3
    ∧ (((TimeTracker.create 1 1 "" "ms").run
        [Call.set 1, Call.get 45001 none, Call.set 45001, Call.get 90001 none,
          Call.set 999955001]).rendered 1000000001).m_executionTimeTotalInMilliseconds
      ≠ ((TimeTracker.create 1 1 "" "ms").periodDurations []
            [Call.set 1, Call.get 45001 none, Call.set 45001, Call.get 90001 none,
              Call.set 999955001]
          ++ [toMilliseconds (1000000001 - ((TimeTracker.create 1 1 "" "ms").run
              [Call.set 1, Call.get 45001 none, Call.set 45001, Call.get 90001 none,
                Call.set 999955001]).m_timeStart)]).sum
    ∧ (((TimeTracker.create 1 1 "" "ms").run
        [Call.set 1, Call.get 45001 none, Call.set 45001, Call.get 90001 none,
          Call.set 999955001]).rendered 1000000001).average
      ≠ ((TimeTracker.create 1 1 "" "ms").periodDurations []
            [Call.set 1, Call.get 45001 none, Call.set 45001, Call.get 90001 none,
              Call.set 999955001]
          ++ [toMilliseconds (1000000001 - ((TimeTracker.create 1 1 "" "ms").run
              [Call.set 1, Call.get 45001 none, Call.set 45001, Call.get 90001 none,
                Call.set 999955001]).m_timeStart)]).sum / 3 := by
  obtain ⟨hret, -, -, htot, havg, -, hc, -, -, -, -, -, hd⟩ := three_samples_rendered
  refine ⟨hret, hd, hc, ?_, ?_⟩
  · rw [htot, hd]; norm_num
  · rw [havg, hd]; norm_num

/-- C17, amended. In every state reached from the constructor (fewer than `2^64`
samples recorded) the period duration total is the sum of the durations of the samples
recorded since the previous report, or since construction, accumulated in double
precision in the order of recording (every addition rounded to the nearest double), and
the period count total plus the count of the current sub-interval is the number of those
samples. At render time, in `stop` and in a `get` call that returns true, the count
total alone is that number, and the average is that rounded sum divided by the number
converted to `double`, rounded; below `2^53` samples the conversion is exact. -/
theorem average_is_rounded_mean (R E : Nat) (p u : String) (cs : List Call)
    (hn : (TimeTracker.create R E p u).samples cs < 2 ^ 64) :
    ((TimeTracker.create R E p u).run cs).m_executionTimeTotalInMilliseconds
        = doubleSum ((TimeTracker.create R E p u).periodDurations [] cs)
    ∧ ((TimeTracker.create R E p u).run cs).m_executionCountTotalInNsec
        + ((TimeTracker.create R E p u).run cs).m_executionCountTotalInOneSec
        = ((TimeTracker.create R E p u).periodDurations [] cs).length
    ∧ (((TimeTracker.create R E p u).run cs).stop.1 = true →
        ((TimeTracker.create R E p u).run cs).stop.2.m_report
          = ((TimeTracker.create R E p u).run cs).flush.reportOn
              ((TimeTracker.create R E p u).run cs).m_report
        ∧ ((TimeTracker.create R E p u).run cs).flush.m_executionTimeTotalInMilliseconds
          = doubleSum ((TimeTracker.create R E p u).periodDurations [] cs)
        ∧ ((TimeTracker.create R E p u).run cs).flush.m_executionCountTotalInNsec
          = ((TimeTracker.create R E p u).periodDurations [] cs).length
        ∧ ((TimeTracker.create R E p u).run cs).flush.average
          = roundDouble (doubleSum ((TimeTracker.create R E p u).periodDurations [] cs)
            / roundDouble (((TimeTracker.create R E p u).periodDurations [] cs).length : ℚ))
        ∧ (((TimeTracker.create R E p u).periodDurations [] cs).length < 2 ^ 53 →
            ((TimeTracker.create R E p u).run cs).flush.average
              = roundDouble (doubleSum ((TimeTracker.create R E p u).periodDurations [] cs)
                / (((TimeTracker.create R E p u).periodDurations [] cs).length : ℚ))))
    ∧ (∀ (now : Int) (out_ss : Option StringStream),
        (TimeTracker.create R E p u).samples (cs ++ [Call.get now out_ss]) < 2 ^ 64 →
        (((TimeTracker.create R E p u).run cs).get now out_ss).1 = true →
        deliveredReport (((TimeTracker.create R E p u).run cs).get now out_ss)
          = ((((TimeTracker.create R E p u).run cs).rendered now).reportOn
            (((TimeTracker.create R E p u).run cs).sink out_ss)).str
        ∧ (((TimeTracker.create R E p u).run cs).rendered now).m_executionTimeTotalInMilliseconds
          = doubleSum ((TimeTracker.create R E p u).periodDurations [] cs
              ++ [toMilliseconds (now - ((TimeTracker.create R E p u).run cs).m_timeStart)])
        ∧ (((TimeTracker.create R E p u).run cs).rendered now).m_executionCountTotalInNsec
          = ((TimeTracker.create R E p u).periodDurations [] cs
              ++ [toMilliseconds (now - ((TimeTracker.create R E p u).run cs).m_timeStart)]).length
        ∧ (((TimeTracker.create R E p u).run cs).rendered now).average
          = roundDouble (doubleSum ((TimeTracker.create R E p u).periodDurations [] cs
              ++ [toMilliseconds (now - ((TimeTracker.create R E p u).run cs).m_timeStart)])
            / roundDouble (((TimeTracker.create R E p u).periodDurations [] cs
              ++ [toMilliseconds (now - ((TimeTracker.create R E p u).run cs).m_timeStart)]).length
                : ℚ))
        ∧ (((TimeTracker.create R E p u).periodDurations [] cs
              ++ [toMilliseconds (now - ((TimeTracker.create R E p u).run cs).m_timeStart)]).length
            < 2 ^ 53 →
            (((TimeTracker.create R E p u).run cs).rendered now).average
              = roundDouble (doubleSum ((TimeTracker.create R E p u).periodDurations [] cs
                  ++ [toMilliseconds (now - ((TimeTracker.create R E p u).run cs).m_timeStart)])
                / (((TimeTracker.create R E p u).periodDurations [] cs
                  ++ [toMilliseconds
                    (now - ((TimeTracker.create R E p u).run cs).m_timeStart)]).length : ℚ)))) := by
  obtain ⟨hinv, -⟩ := TimeTracker.run_inv R E p u cs hn
  obtain ⟨ht, hc, -, -⟩ := TimeTracker.run_stat R E p u cs hn
  have hcount := hinv.count
  generalize (TimeTracker.create R E p u).periodDurations [] cs = d at ht hc ⊢
  refine ⟨ht, hc, fun hs => ?_, fun now out_ss hn2 hret => ?_⟩
  · obtain ⟨-, f2, f3, -, -⟩ := TimeTracker.flush_stats ((TimeTracker.create R E p u).run cs)
    have e1 : ((TimeTracker.create R E p u).run cs).flush.m_executionCountTotalInNsec
        = d.length := by
      rw [f3, ← hc]
      split_ifs with h0
      · exact wrap64_of_lt (by omega)
      · have : ((TimeTracker.create R E p u).run cs).m_executionCountTotalInOneSec = 0 := by
          simpa using h0
        omega
    have ea : ((TimeTracker.create R E p u).run cs).flush.average
        = roundDouble (doubleSum d / roundDouble (d.length : ℚ)) := by
      rw [TimeTracker.average, f2, ht, e1]
    refine ⟨(TimeTracker.stop_rendered hs).1, f2.trans ht, e1, ea, fun hl => ?_⟩
    rw [ea, roundDouble_natCast _ hl]
  · rw [TimeTracker.samples_snoc] at hn2
    obtain ⟨h0, -, -⟩ := TimeTracker.get_true_cases hret
    simp only [TimeTracker.recordsSample, h0, ne_eq, not_false_eq_true, decide_True,
      if_true] at hn2
    obtain ⟨g1, g2, -⟩ := TimeTracker.rendered_stats ((TimeTracker.create R E p u).run cs) now
    have e1 : (((TimeTracker.create R E p u).run cs).rendered now).m_executionCountTotalInNsec
        = (d ++ [toMilliseconds (now - ((TimeTracker.create R E p u).run cs).m_timeStart)]).length := by
      rw [g2, List.length_append, List.length_singleton, ← hc,
        wrap64_of_lt (show _ + 1 < 2 ^ 64 by omega), wrap64_of_lt (by omega)]
      omega
    have e2 : (((TimeTracker.create R E p u).run cs).rendered now).m_executionTimeTotalInMilliseconds
        = doubleSum
          (d ++ [toMilliseconds (now - ((TimeTracker.create R E p u).run cs).m_timeStart)]) := by
      rw [g1, doubleSum_snoc, ht]
    have ea : (((TimeTracker.create R E p u).run cs).rendered now).average
        = roundDouble (doubleSum
            (d ++ [toMilliseconds (now - ((TimeTracker.create R E p u).run cs).m_timeStart)])
          / roundDouble ((d ++ [toMilliseconds
            (now - ((TimeTracker.create R E p u).run cs).m_timeStart)]).length : ℚ)) := by
      rw [TimeTracker.average, e2, e1]
    refine ⟨TimeTracker.get_delivered hret, e2, e1, ea, fun hl => ?_⟩
    rw [ea, roundDouble_natCast _ hl]

/-- Instance of amended C17: samples of 1 ms and 2 ms, rendered by the second `get`; the
rounded sum is 3 and the average is 3/2 ms. -/
theorem average_is_rounded_mean_witness :
    (TimeTracker.create 1 1 "" "ms").samples
        [Call.set 1, Call.get 1000001 none, Call.set 1000000001] < 2 ^ 64
    ∧ (TimeTracker.create 1 1 "" "ms").samples
        ([Call.set 1, Call.get 1000001 none, Call.set 1000000001]
          ++ [Call.get 1002000001 none]) < 2 ^ 64
    ∧ (((TimeTracker.create 1 1 "" "ms").run
        [Call.set 1, Call.get 1000001 none, Call.set 1000000001]).get 1002000001 none).1 = true
    ∧ (((TimeTracker.create 1 1 "" "ms").run
        [Call.set 1, Call.get 1000001 none, Call.set 1000000001]).rendered
          1002000001).m_executionTimeTotalInMilliseconds
      = doubleSum ((TimeTracker.create 1 1 "" "ms").periodDurations []
            [Call.set 1, Call.get 1000001 none, Call.set 1000000001]
          ++ [toMilliseconds (1002000001 - ((TimeTracker.create 1 1 "" "ms").run
            [Call.set 1, Call.get 1000001 none, Call.set 1000000001]).m_timeStart)])
    ∧ (((TimeTracker.create 1 1 "" "ms").run
        [Call.set 1, Call.get 1000001 none, Call.set 1000000001]).rendered 1002000001).average
      = roundDouble (doubleSum ((TimeTracker.create 1 1 "" "ms").periodDurations []
            [Call.set 1, Call.get 1000001 none, Call.set 1000000001]
          ++ [toMilliseconds (1002000001 - ((TimeTracker.create 1 1 "" "ms").run
            [Call.set 1, Call.get 1000001 none, Call.set 1000000001]).m_timeStart)])
        / roundDouble (((TimeTracker.create 1 1 "" "ms").periodDurations []
            [Call.set 1, Call.get 1000001 none, Call.set 1000000001]
          ++ [toMilliseconds (1002000001 - ((TimeTracker.create 1 1 "" "ms").run
            [Call.set 1, Call.get 1000001 none, Call.set 1000000001]).m_timeStart)]).length : ℚ))
    ∧ (TimeTracker.create 1 1 "" "ms").periodDurations []
            [Call.set 1, Call.get 1000001 none, Call.set 1000000001]
          ++ [toMilliseconds (1002000001 - ((TimeTracker.create 1 1 "" "ms").run
            [Call.set 1, Call.get 1000001 none, Call.set 1000000001]).m_timeStart)] = [1, 2]
    ∧ (((TimeTracker.create 1 1 "" "ms").run
        [Call.set 1, Call.get 1000001 none, Call.set 1000000001]).rendered 1002000001).average
      = 3 / 2 :=
  have hn1 : (TimeTracker.create 1 1 "" "ms").samples
      [Call.set 1, Call.get 1000001 none, Call.set 1000000001] < 2 ^ 64 :=
    lt_of_le_of_lt (TimeTracker.samples_le_length _ _) (by decide)
  have hn2 : (TimeTracker.create 1 1 "" "ms").samples
      ([Call.set 1, Call.get 1000001 none, Call.set 1000000001]
        ++ [Call.get 1002000001 none]) < 2 ^ 64 :=
    lt_of_le_of_lt (TimeTracker.samples_le_length _ _) (by decide)
  have h := (average_is_rounded_mean 1 1 "" "ms"
    [Call.set 1, Call.get 1000001 none, Call.set 1000000001] hn1).2.2.2 1002000001 none hn2
    two_samples_rendered.1
  ⟨hn1, hn2, two_samples_rendered.1, h.2.1, h.2.2.2.1,
    two_samples_rendered.2.2.2.2.2.2.2.2.2.2.2, two_samples_rendered.2.2.2.1⟩

/-! ### C18 -/

/-- C18. In every state reached from the constructor (fewer than `2^64` samples
recorded) `stop` renders a report exactly when at least one sample was recorded since
the previous report, or since construction. The entries it renders are the stored
counts followed by the current count when that is not zero; when a report is rendered
their number is at most the capacity and the total is the number of samples since the
previous report. Afterwards the vector is empty and the current count is 0. -/
theorem stop_renders_iff_samples (R E : Nat) (p u : String) (cs : List Call)
    (hn : (TimeTracker.create R E p u).samples cs < 2 ^ 64) :
    (((TimeTracker.create R E p u).run cs).stop.1 = true
      ↔ 1 ≤ ((TimeTracker.create R E p u).periodDurations [] cs).length)
    ∧ ((TimeTracker.create R E p u).run cs).flush.m_vecExecutionOneSec
      = ((TimeTracker.create R E p u).run cs).m_vecExecutionOneSec
        ++ (if ((TimeTracker.create R E p u).run cs).m_executionCountTotalInOneSec ≠ 0
            then [((TimeTracker.create R E p u).run cs).m_executionCountTotalInOneSec] else [])
    ∧ (((TimeTracker.create R E p u).run cs).stop.1 = true →
        ((TimeTracker.create R E p u).run cs).stop.2.m_report
          = ((TimeTracker.create R E p u).run cs).flush.reportOn
              ((TimeTracker.create R E p u).run cs).m_report
        ∧ ((TimeTracker.create R E p u).run cs).flush.m_vecExecutionOneSec.length
          ≤ ((TimeTracker.create R E p u).run cs).m_vecExecutionDepth
        ∧ ((TimeTracker.create R E p u).run cs).flush.m_executionCountTotalInNsec
          = ((TimeTracker.create R E p u).periodDurations [] cs).length)
    ∧ ((TimeTracker.create R E p u).run cs).stop.2.m_vecExecutionOneSec = []
    ∧ ((TimeTracker.create R E p u).run cs).stop.2.m_executionCountTotalInOneSec = 0 := by
  obtain ⟨hinv, hroom⟩ := TimeTracker.run_inv R E p u cs hn
  obtain ⟨-, hc, -, -⟩ := TimeTracker.run_stat R E p u cs hn
  have hcount := hinv.count
  have htotal := hinv.total
  have hentries := hinv.entries
  generalize (TimeTracker.create R E p u).periodDurations [] cs = d at hc ⊢
  generalize (TimeTracker.create R E p u).samples cs = n at hn hinv hcount ⊢
  generalize (TimeTracker.create R E p u).run cs = s at hinv hroom hc hcount htotal hentries ⊢
  obtain ⟨f1, -, f3, -, -⟩ := s.flush_stats
  have e1 : s.flush.m_executionCountTotalInNsec = d.length := by
    rw [f3, ← hc]
    split_ifs with h0
    · exact wrap64_of_lt (by omega)
    · have : s.m_executionCountTotalInOneSec = 0 := by simpa using h0
      omega
  have hlen : s.flush.m_vecExecutionOneSec.length ≤ s.m_vecExecutionDepth := by
    rw [f1, List.length_append]
    split_ifs
    · simp only [List.length_singleton]; omega
    · simp only [List.length_nil]; omega
  refine ⟨⟨fun hs => ?_, fun hd => ?_⟩, f1,
    fun hs => ⟨(TimeTracker.stop_rendered hs).1, hlen, e1⟩,
    s.stop_frame.2.2.2.2.2.2.1, s.stop_frame.2.2.2.2.2.2.2⟩
  · have hb := ((TimeTracker.flush_inv hinv hn).count_pos (TimeTracker.stop_rendered hs).2).1
    omega
  · apply TimeTracker.stop_true_of_nonempty
    intro hv
    have ht := (TimeTracker.flush_inv hinv hn).total
    rw [hv, List.sum_nil] at ht
    omega

/-- Instance of C18: after one sample `stop` renders a report with the single entry 1. -/
theorem stop_renders_iff_samples_witness :
    (TimeTracker.create 2 1 "" "ms").samples [Call.set 1, Call.get 3000001 none] < 2 ^ 64
    ∧ ((TimeTracker.create 2 1 "" "ms").run [Call.set 1, Call.get 3000001 none]).stop.1 = true
    ∧ 1 ≤ ((TimeTracker.create 2 1 "" "ms").periodDurations []
        [Call.set 1, Call.get 3000001 none]).length
    ∧ ((TimeTracker.create 2 1 "" "ms").run
        [Call.set 1, Call.get 3000001 none]).flush.m_executionCountTotalInNsec
      = ((TimeTracker.create 2 1 "" "ms").periodDurations []
        [Call.set 1, Call.get 3000001 none]).length := by
  have hn : (TimeTracker.create 2 1 "" "ms").samples [Call.set 1, Call.get 3000001 none]
      < 2 ^ 64 :=
    lt_of_le_of_lt (TimeTracker.samples_le_length _ _) (by decide)
  have h := stop_renders_iff_samples 2 1 "" "ms" [Call.set 1, Call.get 3000001 none] hn
  have hd : 1 ≤ ((TimeTracker.create 2 1 "" "ms").periodDurations []
      [Call.set 1, Call.get 3000001 none]).length := by
    rw [one_sample_stop.2]; decide
  exact ⟨hn, h.1.mpr hd, hd, (h.2.2.1 (h.1.mpr hd)).2.2⟩

/-! ## C19: the time between two reports -/

/-- The clock reading of one call, as a list. -/
theorem readings_snoc (cs : List Call) (c : Call) :
    readings (cs ++ [c]) = readings cs ++ readings [c] := by
  induction cs with
  | nil => rfl
  | cons d cs ih =>
    cases d with
    | set now => rw [List.cons_append, readings, ih]; rfl
    | get now out_ss => rw [List.cons_append, readings, ih]; rfl
    | stop => rw [List.cons_append, readings, ih]; rfl

theorem TimeTracker.lastReport_snoc (s : TimeTracker) (acc : Option Int) (cs : List Call)
    (c : Call) :
    s.lastReport acc (cs ++ [c]) = (s.run cs).reportStep (s.lastReport acc cs) c := by
  induction cs generalizing s acc with
  | nil => rfl
  | cons d cs ih =>
    rw [List.cons_append, TimeTracker.lastReport, ih, TimeTracker.run_cons,
      TimeTracker.lastReport]

/-- The roll-over test of `get` in clock ticks, for an execution count interval short
enough that the elapsed ticks up to the threshold convert to `double` without rounding
(at most `2^53` ns, about 104 days). -/
theorem TimeTracker.rollsOver_iff (s : TimeTracker) (now : Int)
    (h1 : 1 ≤ s.m_executionCountIntervalInSeconds)
    (h2 : s.m_executionCountIntervalInSeconds * 10 ^ 9 ≤ 2 ^ 53) :
    s.rollsOver now
      ↔ s.m_elapseTimeStart + (s.m_executionCountIntervalInSeconds : Int) * 10 ^ 9 ≤ now := by
  have h := toMilliseconds_ge_iff (now - s.m_elapseTimeStart)
    (s.m_executionCountIntervalInSeconds * 1000) (by omega) (by omega)
  have e : s.rollsOver now
      ↔ toMilliseconds (now - s.m_elapseTimeStart)
          ≥ ((s.m_executionCountIntervalInSeconds * 1000 : Nat) : ℚ) := by
    simp only [TimeTracker.rollsOver, ONE_SEC_IN_MILLISECOND]
    push_cast
    exact Iff.rfl
  rw [e, h]
  push_cast
  constructor <;> intro h3 <;> linarith

/-- The start of the execution count interval after a `set` call. -/
theorem TimeTracker.set_anchor (s : TimeTracker) (now : Int) :
    (s.set now).m_elapseTimeStart
      = if s.m_mode = MODE_PERFORMANCE ∧ s.m_elapseTimeStart = 0 then now
        else s.m_elapseTimeStart := by
  simp only [TimeTracker.set]
  split_ifs with h1 h2 h3 h3 <;> first | rfl | (exfalso; tauto)

/-- The start of the execution count interval is not changed by `stop`. -/
theorem TimeTracker.stop_anchor (s : TimeTracker) :
    s.stop.2.m_elapseTimeStart = s.m_elapseTimeStart := by
  have g := (s.flush.getReport_frame s.flush.m_report).2.2.2.1
  have f : s.flush.m_elapseTimeStart = s.m_elapseTimeStart := by
    simp only [TimeTracker.flush]
    split_ifs <;> rfl
  exact g.trans f

/-- The start of the execution count interval and the vector after a `get` call. -/
theorem TimeTracker.get_anchor (s : TimeTracker) (now : Int) (out_ss : Option StringStream) :
    (s.m_timeStart = 0 →
      (s.get now out_ss).1 = false
      ∧ (s.get now out_ss).2.1.m_elapseTimeStart = now
      ∧ (s.get now out_ss).2.1.m_vecExecutionOneSec = s.m_vecExecutionOneSec)
    ∧ (s.m_timeStart ≠ 0 → ¬ s.rollsOver now →
      (s.get now out_ss).1 = false
      ∧ (s.get now out_ss).2.1.m_elapseTimeStart = s.m_elapseTimeStart
      ∧ (s.get now out_ss).2.1.m_vecExecutionOneSec = s.m_vecExecutionOneSec)
    ∧ (s.m_timeStart ≠ 0 → s.rollsOver now →
      (s.get now out_ss).2.1.m_elapseTimeStart = now
      ∧ ((s.get now out_ss).1 = false →
          (s.get now out_ss).2.1.m_vecExecutionOneSec.length = s.m_vecExecutionOneSec.length + 1)
      ∧ ((s.get now out_ss).1 = true → (s.get now out_ss).2.1.m_vecExecutionOneSec = [])) := by
  refine ⟨fun h0 => ?_, fun h0 hr => ?_, fun h0 hr => ?_⟩
  · rw [s.get_first now out_ss h0]; exact ⟨rfl, rfl, rfl⟩
  · rw [s.get_quiet now out_ss h0 hr]
    have f := ({ s with m_timeEnd := now } : TimeTracker).record_frame
    exact ⟨rfl, f.2.2.2.2.2.2.1, f.2.2.2.1⟩
  · by_cases hd : s.m_vecExecutionOneSec.length + 1 < s.m_vecExecutionDepth
    · rw [s.get_roll now out_ss h0 hr hd]
      refine ⟨rfl, fun _ => ?_, fun h => by simp at h⟩
      show (s.rendered now).m_vecExecutionOneSec.length = _
      rw [s.rendered_vec now, List.length_append, List.length_singleton]
    · cases out_ss with
      | none =>
        rw [s.get_report_none now h0 hr (by omega)]
        exact ⟨rfl, fun h => by simp at h, fun _ => rfl⟩
      | some content =>
        rw [s.get_report_some now content h0 hr (by omega)]
        exact ⟨rfl, fun h => by simp at h, fun _ => rfl⟩

/-- How the start of the execution count interval relates to the clock readings and to
the last report, when the clock readings never decrease: before the first reading the
tracker is untouched; afterwards the start is one of the readings and lies at least one
interval per stored count after the last report or, before the first report, after the
first reading. -/
theorem TimeTracker.run_anchor (R E : Nat) (p u : String) (cs : List Call)
    (hs : (readings cs).Pairwise (· ≤ ·))
    (hE : (TimeTracker.create R E p u).m_executionCountIntervalInSeconds * 10 ^ 9 ≤ 2 ^ 53) :
    (readings cs = [] →
      ((TimeTracker.create R E p u).run cs).m_mode = MODE_PERFORMANCE
      ∧ ((TimeTracker.create R E p u).run cs).m_elapseTimeStart = 0
      ∧ ((TimeTracker.create R E p u).run cs).m_timeStart = 0
      ∧ ((TimeTracker.create R E p u).run cs).m_vecExecutionOneSec = []
      ∧ (TimeTracker.create R E p u).lastReport none cs = none)
    ∧ (readings cs ≠ [] →
      ((TimeTracker.create R E p u).run cs).m_elapseTimeStart ∈ readings cs
      ∧ (∀ T : Int, (TimeTracker.create R E p u).lastReport none cs = some T →
          T + (((TimeTracker.create R E p u).run cs).m_vecExecutionOneSec.length : Int)
              * (((TimeTracker.create R E p u).run cs).m_executionCountIntervalInSeconds : Int)
              * 10 ^ 9
            ≤ ((TimeTracker.create R E p u).run cs).m_elapseTimeStart)
      ∧ ((TimeTracker.create R E p u).lastReport none cs = none →
          ∃ B : Int, (readings cs).head? = some B
            ∧ B + (((TimeTracker.create R E p u).run cs).m_vecExecutionOneSec.length : Int)
              * (((TimeTracker.create R E p u).run cs).m_executionCountIntervalInSeconds : Int)
              * 10 ^ 9
            ≤ ((TimeTracker.create R E p u).run cs).m_elapseTimeStart)) := by
  induction cs using List.reverseRecOn with
  | nil =>
    exact ⟨fun _ => ⟨rfl, rfl, rfl, rfl, rfl⟩, fun h => absurd rfl h⟩
  | append_singleton cs c ih =>
    rw [readings_snoc] at hs ⊢
    obtain ⟨hs1, -, hs2⟩ := List.pairwise_append.mp hs
    obtain ⟨J0, J1⟩ := ih hs1
    rw [TimeTracker.run_snoc, TimeTracker.lastReport_snoc]
    have hcfg := (((TimeTracker.create R E p u).run cs).step_config c).2.1
    have hE1 := (TimeTracker.create_wellformed R E p u).1
    rw [← ((TimeTracker.create R E p u).run_config cs).2.1] at hE hE1
    generalize (TimeTracker.create R E p u).lastReport none cs = lr at J0 J1 ⊢
    generalize (TimeTracker.create R E p u).run cs = s at J0 J1 hcfg hE hE1 ⊢
    generalize readings cs = rs at hs hs1 hs2 J0 J1 ⊢
    rw [hcfg]
    have hpos : ∀ n : Nat, (0 : Int) ≤ (n : Int) * (s.m_executionCountIntervalInSeconds : Int)
        * 10 ^ 9 := fun n => by positivity
    cases c with
    | stop =>
      have f := s.stop_frame
      have ha := s.stop_anchor
      show (rs ++ [] = [] → s.stop.2.m_mode = _ ∧ s.stop.2.m_elapseTimeStart = 0
          ∧ s.stop.2.m_timeStart = 0 ∧ s.stop.2.m_vecExecutionOneSec = [] ∧ lr = none)
        ∧ (rs ++ [] ≠ [] → s.stop.2.m_elapseTimeStart ∈ rs ++ []
          ∧ (∀ T : Int, lr = some T →
              T + (s.stop.2.m_vecExecutionOneSec.length : Int) * (s.m_executionCountIntervalInSeconds : Int) * 10 ^ 9
                ≤ s.stop.2.m_elapseTimeStart)
          ∧ (lr = none → ∃ B : Int, (rs ++ ([] : List Int)).head? = some B
              ∧ B + (s.stop.2.m_vecExecutionOneSec.length : Int) * (s.m_executionCountIntervalInSeconds : Int) * 10 ^ 9
                ≤ s.stop.2.m_elapseTimeStart))
      rw [List.append_nil, f.2.1, f.2.2.1, f.2.2.2.2.2.2.1, ha]
      refine ⟨fun h => ⟨(J0 h).1, (J0 h).2.1, (J0 h).2.2.1, rfl, (J0 h).2.2.2.2⟩, fun h => ?_⟩
      obtain ⟨j1, j2, j3⟩ := J1 h
      refine ⟨j1, fun T hT => ?_, fun hn => ?_⟩
      · have := j2 T hT
        have := hpos s.m_vecExecutionOneSec.length
        simp only [List.length_nil, Nat.cast_zero, zero_mul, add_zero]
        linarith
      · obtain ⟨B, hB, hle⟩ := j3 hn
        refine ⟨B, hB, ?_⟩
        have := hpos s.m_vecExecutionOneSec.length
        simp only [List.length_nil, Nat.cast_zero, zero_mul, add_zero]
        linarith
    | set now =>
      have f := s.set_frame now
      have ha := s.set_anchor now
      have hnow : ∀ a ∈ rs, a ≤ now := fun a ha => hs2 a ha now (by simp [readings])
      show (rs ++ [now] = [] → _ ∧ _)
        ∧ (rs ++ [now] ≠ [] → (s.set now).m_elapseTimeStart ∈ rs ++ [now]
          ∧ (∀ T : Int, lr = some T →
              T + ((s.set now).m_vecExecutionOneSec.length : Int) * (s.m_executionCountIntervalInSeconds : Int) * 10 ^ 9
                ≤ (s.set now).m_elapseTimeStart)
          ∧ (lr = none → ∃ B : Int, (rs ++ [now]).head? = some B
              ∧ B + ((s.set now).m_vecExecutionOneSec.length : Int) * (s.m_executionCountIntervalInSeconds : Int) * 10 ^ 9
                ≤ (s.set now).m_elapseTimeStart))
      rw [f.1, ha]
      refine ⟨fun h => absurd h (by simp), fun _ => ?_⟩
      by_cases hrs : rs = []
      · obtain ⟨j1, j2, -, j4, j5⟩ := J0 hrs
        rw [if_pos ⟨j1, j2⟩, j4, hrs, j5]
        exact ⟨by simp, fun T hT => by simp at hT, fun _ => ⟨now, rfl, by simp⟩⟩
      · obtain ⟨j1, j2, j3⟩ := J1 hrs
        have hA := hnow _ j1
        have hge : s.m_elapseTimeStart
            ≤ (if s.m_mode = MODE_PERFORMANCE ∧ s.m_elapseTimeStart = 0 then now
               else s.m_elapseTimeStart) := by
          split_ifs
          · exact hA
          · exact le_refl _
        refine ⟨?_, fun T hT => le_trans (j2 T hT) hge, fun hn => ?_⟩
        · split_ifs
          · simp
          · exact List.mem_append_left _ j1
        · obtain ⟨B, hB, hle⟩ := j3 hn
          refine ⟨B, ?_, le_trans hle hge⟩
          rw [List.head?_append, hB]; rfl
    | get now out_ss =>
      obtain ⟨g1, g2, g3⟩ := s.get_anchor now out_ss
      have hnow : ∀ a ∈ rs, a ≤ now := fun a ha => hs2 a ha now (by simp [readings])
      show (rs ++ [now] = [] → _ ∧ _)
        ∧ (rs ++ [now] ≠ [] → (s.get now out_ss).2.1.m_elapseTimeStart ∈ rs ++ [now]
          ∧ (∀ T : Int, (if (s.get now out_ss).1 then some now else lr) = some T →
              T + ((s.get now out_ss).2.1.m_vecExecutionOneSec.length : Int) * (s.m_executionCountIntervalInSeconds : Int) * 10 ^ 9
                ≤ (s.get now out_ss).2.1.m_elapseTimeStart)
          ∧ ((if (s.get now out_ss).1 then some now else lr) = none →
              ∃ B : Int, (rs ++ [now]).head? = some B
              ∧ B + ((s.get now out_ss).2.1.m_vecExecutionOneSec.length : Int) * (s.m_executionCountIntervalInSeconds : Int) * 10 ^ 9
                ≤ (s.get now out_ss).2.1.m_elapseTimeStart))
      refine ⟨fun h => absurd h (by simp), fun _ => ?_⟩
      by_cases hrs : rs = []
      · obtain ⟨-, -, j3, j4, j5⟩ := J0 hrs
        obtain ⟨e1, e2, e3⟩ := g1 j3
        rw [e1, e2, e3, j4, hrs, j5]
        exact ⟨by simp, fun T hT => by simp at hT, fun _ => ⟨now, rfl, by simp⟩⟩
      · obtain ⟨j1, j2, j3⟩ := J1 hrs
        have hA := hnow _ j1
        have hhead : ∀ B : Int, rs.head? = some B → (rs ++ [now]).head? = some B := by
          intro B hB; rw [List.head?_append, hB]; rfl
        by_cases h0 : s.m_timeStart = 0
        · obtain ⟨e1, e2, e3⟩ := g1 h0
          rw [e1, e2, e3]
          refine ⟨by simp, fun T hT => ?_, fun hn => ?_⟩
          · have := j2 T (by simpa using hT); linarith
          · obtain ⟨B, hB, hle⟩ := j3 (by simpa using hn)
            exact ⟨B, hhead B hB, by linarith⟩
        · by_cases hr : s.rollsOver now
          · obtain ⟨e2, e3, e4⟩ := g3 h0 hr
            have hroll := (s.rollsOver_iff now hE1 hE).mp hr
            rw [e2]
            cases hret : (s.get now out_ss).1 with
            | true =>
              rw [e4 hret]
              exact ⟨by simp, fun T hT => by
                  have : now = T := by simpa using hT
                  simp [this],
                fun hn => by simp at hn⟩
            | false =>
              have hlen := e3 hret
              have hexp : (((s.get now out_ss).2.1.m_vecExecutionOneSec.length : Nat) : Int)
                  * (s.m_executionCountIntervalInSeconds : Int) * 10 ^ 9
                  = (s.m_vecExecutionOneSec.length : Int)
                      * (s.m_executionCountIntervalInSeconds : Int) * 10 ^ 9
                    + (s.m_executionCountIntervalInSeconds : Int) * 10 ^ 9 := by
                rw [hlen]; push_cast; ring
              rw [hexp]
              refine ⟨by simp, fun T hT => ?_, fun hn => ?_⟩
              · have := j2 T (by simpa using hT); linarith
              · obtain ⟨B, hB, hle⟩ := j3 (by simpa using hn)
                exact ⟨B, hhead B hB, by linarith⟩
          · obtain ⟨e1, e2, e3⟩ := g2 h0 hr
            rw [e1, e2, e3]
            refine ⟨List.mem_append_left _ j1, fun T hT => j2 T (by simpa using hT),
              fun hn => ?_⟩
            obtain ⟨B, hB, hle⟩ := j3 (by simpa using hn)
            exact ⟨B, hhead B hB, hle⟩

/-- The capacity chosen by the constructor times the sub-interval is the report
interval. -/
theorem configuration_shape (R S : Nat) (p u : String) :
    (TimeTracker.create R S p u).m_vecExecutionDepth
      * (TimeTracker.create R S p u).m_executionCountIntervalInSeconds
      = (TimeTracker.create R S p u).m_reportIntervalInSeconds := by
  obtain ⟨-, -, h3⟩ := TimeTracker.create_wellformed R S p u
  exact Nat.div_mul_cancel (Nat.dvd_of_mod_eq_zero h3)

/-- A tick difference one below `4294967295 * 10^9` converts to the `double`
`4294967295000000000`, hence to `4294967295000` ms. -/
theorem toMilliseconds_49_days : toMilliseconds 4294967294999999999 = 4294967295000 := by
  have h1 : roundDouble ((4294967294999999999 : Int) : ℚ) = 4294967295000000000 := by
    rw [roundDouble_eval _ 61 8388607998046875 (by norm_num) (by norm_num)
      (by norm_num) (roundHalfEven_eq_of_near _ _ (by norm_num) (by norm_num))]
    norm_num
  have h2 : roundDouble (4294967295000 : ℚ) = 4294967295000 := by
    simpa using roundDouble_natCast 4294967295000 (by norm_num)
  rw [toMilliseconds, h1]
  norm_num
  exact h2

/-- The first `get` after a `set` on a fresh tracker of capacity 1 returns true as soon
as the converted elapsed time reaches the interval. -/
theorem first_report_aux (s : TimeTracker) (t1 t2 : Int) (out_ss : Option StringStream)
    (hf : s.Fresh) (c2 : s.m_vecExecutionDepth = 1) (ht : t1 ≠ 0)
    (he : toMilliseconds (t2 - t1)
      ≥ (s.m_executionCountIntervalInSeconds : ℚ) * ONE_SEC_IN_MILLISECOND) :
    ((s.set t1).get t2 out_ss).1 = true := by
  rw [TimeTracker.get_true_iff, TimeTracker.rollsOver]
  norm_num [TimeTracker.set_eq, hf.mode, hf.elapseTimeStart, hf.vec, c2, ht]
  exact he

/-- C19, as stated, fails. With report interval and sub-interval `4294967295` s, `set`
reads the clock at tick 1 and `get` at tick `4294967295 * 10^9`: the elapsed
`4294967294999999999` ns are one tick short of the report interval, but their conversion
to `double` rounds up to the threshold of line 292, and the `get` call returns true. It
is the first `get` that returns true, less than `report_interval * 1000` ms after the
first clock reading. -/
theorem report_one_tick_early :
    (readings ([Call.set 1] ++ [Call.get 4294967295000000000 none])).Pairwise (· ≤ ·)
    ∧ (TimeTracker.create 4294967295 4294967295 "" "ms").m_reportIntervalInSeconds = 4294967295
    ∧ (((TimeTracker.create 4294967295 4294967295 "" "ms").run
        [Call.set 1]).get 4294967295000000000 none).1 = true
    ∧ (TimeTracker.create 4294967295 4294967295 "" "ms").lastReport none [Call.set 1] = none
    ∧ (readings [Call.set 1]).head? = some 1
    ∧ (4294967295000000000 - 1 : Int)
        < ((TimeTracker.create 4294967295 4294967295 "" "ms").m_reportIntervalInSeconds : Int)
          * 10 ^ 9
    ∧ (((4294967295000000000 - 1 : Int) : ℚ) / 1000000)
        < ((TimeTracker.create 4294967295 4294967295 "" "ms").m_reportIntervalInSeconds : ℚ)
          * 1000 := by
  have hR : (TimeTracker.create 4294967295 4294967295 "" "ms").m_reportIntervalInSeconds
      = 4294967295 := rfl
  have hE : (TimeTracker.create 4294967295 4294967295 "" "ms").m_executionCountIntervalInSeconds
      = 4294967295 := rfl
  refine ⟨by simp [readings], hR, ?_, rfl, rfl, by rw [hR]; norm_num, by rw [hR]; norm_num⟩
  rw [TimeTracker.run_cons, TimeTracker.run_nil, TimeTracker.step_set]
  refine first_report_aux _ 1 4294967295000000000 none
    (TimeTracker.create_fresh 4294967295 4294967295 "" "ms") rfl (by decide) ?_
  rw [hE]
  norm_num [toMilliseconds_49_days, ONE_SEC_IN_MILLISECOND]

/-- C19, amended. Reports are at least one report interval apart when the effective
sub-interval is at most `2^53` ns (9007199 s, about 104 days), so that the elapsed ticks
up to the threshold of line 292 convert to `double` without rounding. For every
sequence of `set`/`get`/`stop` calls whose clock readings never decrease, a `get` call
that returns true at reading `now` comes at least `m_reportIntervalInSeconds * 10^9`
ticks (nanoseconds), that is `m_reportIntervalInSeconds * 1000` ms, after the previous
`get` call that returned true, and, when there is none, at least that long after the
first clock reading of the sequence, which is the reading at which `m_elapseTimeStart`
was first set. -/
theorem reports_one_interval_apart (R E : Nat) (p u : String) (cs : List Call) (now : Int)
    (out_ss : Option StringStream)
    (hs : (readings (cs ++ [Call.get now out_ss])).Pairwise (· ≤ ·))
    (hE : (TimeTracker.create R E p u).m_executionCountIntervalInSeconds * 10 ^ 9 ≤ 2 ^ 53)
    (hret : (((TimeTracker.create R E p u).run cs).get now out_ss).1 = true) :
    (∀ T1 : Int, (TimeTracker.create R E p u).lastReport none cs = some T1 →
        ((TimeTracker.create R E p u).m_reportIntervalInSeconds : Int) * 10 ^ 9 ≤ now - T1)
    ∧ ((TimeTracker.create R E p u).lastReport none cs = none →
        ∃ B : Int, (readings cs).head? = some B
          ∧ ((TimeTracker.create R E p u).m_reportIntervalInSeconds : Int) * 10 ^ 9
            ≤ now - B) := by
  rw [readings_snoc] at hs
  obtain ⟨hs1, -, hs2⟩ := List.pairwise_append.mp hs
  obtain ⟨J0, J1⟩ := TimeTracker.run_anchor R E p u cs hs1 hE
  obtain ⟨h0, hr, hd⟩ := TimeTracker.get_true_cases hret
  have hcfg := (TimeTracker.create R E p u).run_config cs
  have hconf := configuration_shape R E p u
  have hne : readings cs ≠ [] := fun h => h0 (J0 h).2.2.1
  obtain ⟨-, j2, j3⟩ := J1 hne
  have hE1 := (TimeTracker.create_wellformed R E p u).1
  have hroll := (TimeTracker.rollsOver_iff _ now (by rw [hcfg.2.1]; exact hE1)
    (by rw [hcfg.2.1]; exact hE)).mp hr
  rw [hcfg.1] at hd
  rw [hcfg.2.1] at hroll j2 j3
  have hmul : (TimeTracker.create R E p u).m_reportIntervalInSeconds
      ≤ (((TimeTracker.create R E p u).run cs).m_vecExecutionOneSec.length + 1)
        * (TimeTracker.create R E p u).m_executionCountIntervalInSeconds := by
    rw [← hconf]
    exact Nat.mul_le_mul_right _ hd
  have hmulZ : ((TimeTracker.create R E p u).m_reportIntervalInSeconds : Int)
      ≤ ((((TimeTracker.create R E p u).run cs).m_vecExecutionOneSec.length : Int) + 1)
        * ((TimeTracker.create R E p u).m_executionCountIntervalInSeconds : Int) := by
    exact_mod_cast hmul
  constructor
  · intro T1 hT
    have := j2 T1 hT
    nlinarith
  · intro hn
    obtain ⟨B, hB, hle⟩ := j3 hn
    refine ⟨B, hB, ?_⟩
    nlinarith

/-- Instance of amended C19: report interval 1 s; the first report comes one second
after the first reading, the second one second after the first. -/
theorem reports_one_interval_apart_witness :
    (readings ([Call.set 1, Call.get 1000000001 none] ++ [Call.get 2000000001 none])).Pairwise
      (· ≤ ·)
    ∧ (TimeTracker.create 1 1 "" "ms").m_executionCountIntervalInSeconds * 10 ^ 9 ≤ 2 ^ 53
    ∧ (((TimeTracker.create 1 1 "" "ms").run
        [Call.set 1, Call.get 1000000001 none]).get 2000000001 none).1 = true
    ∧ (TimeTracker.create 1 1 "" "ms").lastReport none [Call.set 1, Call.get 1000000001 none]
        = some 1000000001
    ∧ ((TimeTracker.create 1 1 "" "ms").m_reportIntervalInSeconds : Int) * 10 ^ 9
        ≤ 2000000001 - 1000000001 :=
  have hs : (readings ([Call.set 1, Call.get 1000000001 none]
      ++ [Call.get 2000000001 none])).Pairwise (· ≤ ·) := by
    simp [readings]
  have hE : (TimeTracker.create 1 1 "" "ms").m_executionCountIntervalInSeconds * 10 ^ 9
      ≤ 2 ^ 53 := by decide
  ⟨hs, hE, two_reports.1, two_reports.2,
    (reports_one_interval_apart 1 1 "" "ms" [Call.set 1, Call.get 1000000001 none] 2000000001
      none hs hE two_reports.1).1 1000000001 two_reports.2⟩
